import Mathlib

/-!
# webserv: a verification development

A shallow embedding of the request parser, the route table, the chunked-body
decoder, the response builder, the GET, POST and DELETE handlers, the CGI
handler, the client steps of the event loop and the size directives of the
configuration parser of the webserv sources, followed by theorems about them.

Conventions of the embedding.

* A `std::string` is a list of characters (`Str`); a string literal of the
  source is written `"...".toList`.
* `std::string::find` returns `Option Nat`; `none` is `std::string::npos`.
* `s.substr(pos, count)` is `(s.drop pos).take count`, and `s.substr(pos)` is
  `s.drop pos`.
* `size_t` arithmetic that can wrap is written out modulo `2 ^ 64`.
* A C++ function that can throw returns `Except String _`.
* A `std::map<std::string, std::string>` is an association list kept in
  strictly increasing key order (`StdMap`), which is its iteration order.
-/

set_option maxRecDepth 100000

namespace Webserv

/-! ## Strings -/

/-- A `std::string`: a sequence of bytes, here characters. -/
abbrev Str := List Char

/-- First index at or after the current one where `pat` occurs; the second
argument is the text still to scan and the third the index of its first
character. -/
def find_aux (pat : Str) : Str → Nat → Option Nat
  | [], i => if pat.isPrefixOf [] then some i else none
  | c :: cs, i => if pat.isPrefixOf (c :: cs) then some i else find_aux pat cs (i + 1)

/-- Model of `s.find(pat)`: index of the first occurrence of `pat` in `s`. -/
def find (s pat : Str) : Option Nat := find_aux pat s 0

/-- Model of `s.find(pat, pos)`: index of the first occurrence of `pat` in `s`
that starts at or after `pos`. -/
def find_from (s pat : Str) (pos : Nat) : Option Nat :=
  if pos ≤ s.length then find_aux pat (s.drop pos) pos else none

/-- Model of `s.find(c)` for a single character. -/
def find_char (s : Str) (c : Char) : Option Nat := find s [c]

/-- Model of `s.find_last_of(c)` for a single character: index of the last
occurrence of `c`. -/
def find_last_of (s : Str) (c : Char) : Option Nat :=
  match find_char s.reverse c with
  | some i => some (s.length - 1 - i)
  | none => none

/-- Model of `s.substr(0, s.find(c))`: the text before the first `c`, or the
whole of `s` when there is none (`count = npos`). -/
def before_first (s : Str) (c : Char) : Str :=
  match find_char s c with
  | some i => s.take i
  | none => s

/-- Model of `std::transform(..., std::tolower)` on the bytes of a string. -/
def to_lower (s : Str) : Str := s.map Char.toLower

/-- Model of `std::transform(..., std::toupper)` on the bytes of a string. -/
def to_upper (s : Str) : Str := s.map Char.toUpper

/-- Model of `std::isspace` in the C locale. -/
def isspace (c : Char) : Bool :=
  c = ' ' || c = '\t' || c = '\n' || c = '\x0b' || c = '\x0c' || c = '\r'

/-! ## HTTP methods and routes -/

/-- The `HttpMethod` enumeration of `HttpMethod.hpp`. -/
inductive HttpMethod where
  | UNKNOWN
  | GET
  | POST
  | DELETE
  deriving DecidableEq, Repr

/-- A `std::map<std::string, std::string>`: association list in strictly
increasing key order. -/
abbrev StdMap := List (Str × Str)

/-- Model of `m.find(k)`: the value stored under `k`, if any. -/
def StdMap.get (m : StdMap) (k : Str) : Option Str :=
  match m with
  | [] => none
  | (k1, v1) :: t => if k1 = k then some v1 else StdMap.get t k

/-- Model of `m[k] = v`: overwrite the entry of `k` or insert it at its place
in key order. -/
def StdMap.set (m : StdMap) (k v : Str) : StdMap :=
  match m with
  | [] => [(k, v)]
  | (k1, v1) :: t =>
    if k = k1 then (k, v) :: t
    else if k < k1 then (k, v) :: (k1, v1) :: t
    else (k1, v1) :: StdMap.set t k v

/-- The keys of a map are in strictly increasing order: the invariant of a
`std::map`. -/
def StdMap.Ordered (m : StdMap) : Prop := m.Pairwise (fun a b => a.1 < b.1)

/-- The data members of class `Route` (`Route.hpp`). -/
structure Route where
  url_path : Str
  file_system_root : Str
  redirect_url : Str
  index_file : Str
  upload_directory : Str
  directory_listing : Bool
  server_listening_port : Int
  allowed_http_methods : List HttpMethod
  cgi_handlers : StdMap
  deriving DecidableEq, Repr

/-- Model of `Route::does_http_request_matches_a_url_route` (`Route.cpp`).
`url_path.back()` is read as the last character; the source calls it on a
non-empty `url_path` only. -/
def Route.does_http_request_matches_a_url_route (r : Route) (requested_path : Str) : Bool :=
  let clean_path := before_first requested_path '?'
  if clean_path = r.url_path then true
  else if r.url_path.getLast? = some '/' then
    decide (clean_path.take r.url_path.length = r.url_path)
  else
    decide (clean_path.take r.url_path.length = r.url_path) &&
      (decide (clean_path.length = r.url_path.length) ||
        decide (clean_path.get? r.url_path.length = some '/'))

/-- The loop body of `find_url_route_for_listening_port`: the state is the
pair `(best_url_route, longest_url_route_match)`. -/
def find_url_route_step (listening_port : Int) (file_path : Str)
    (st : Option Route × Nat) (route : Route) : Option Route × Nat :=
  if route.server_listening_port ≠ listening_port then st
  else if route.does_http_request_matches_a_url_route file_path then
    if route.url_path.length > st.2 then (some route, route.url_path.length) else st
  else st

/-- Model of `ServerConfiguration::find_url_route_for_listening_port`
(`ServerConfiguration.cpp`): `none` is the null pointer. -/
def find_url_route_for_listening_port (url_routes : List Route) (listening_port : Int)
    (file_path : Str) : Option Route :=
  (url_routes.foldl (find_url_route_step listening_port file_path) (none, 0)).1

/-- A route is a candidate for `(port, url)`: it is on the port and matches. -/
def Route.candidate (listening_port : Int) (file_path : Str) (r : Route) : Prop :=
  r.server_listening_port = listening_port ∧
    r.does_http_request_matches_a_url_route file_path = true

instance (listening_port : Int) (file_path : Str) (r : Route) :
    Decidable (r.candidate listening_port file_path) := by
  unfold Route.candidate; infer_instance

/-- Model of the constructor `Route::Route(const std::string& file_path)`. -/
def Route.create (file_path : Str) : Route :=
  { url_path := file_path
    file_system_root := "./".toList
    redirect_url := []
    index_file := "index.html".toList
    upload_directory := "./upload".toList
    directory_listing := false
    server_listening_port := 0
    allowed_http_methods := [HttpMethod.GET]
    cgi_handlers := [] }

/-- Model of `ServerConfiguration::start_url_route`: the route appended to
`url_routes` for `file_path` on `port`, rooted at `root_directory`. -/
def start_url_route (root_directory file_path : Str) (port : Int) : Route :=
  { Route.create file_path with
    file_system_root := root_directory
    server_listening_port := port }

/-! ## The request parser (`HttpRequest.cpp`) -/

/-- Value of a run of decimal digits, most significant first. -/
def decimal_value (ds : Str) : Nat :=
  ds.foldl (fun n c => 10 * n + (c.toNat - '0'.toNat)) 0

/-- Model of `std::stoull(s)` (base 10), which follows `strtoull`: leading
white space is skipped, an optional sign is read, then the longest run of
digits; text after the digits is ignored. No digits: `std::invalid_argument`.
A value above `2 ^ 64 - 1`: `std::out_of_range`. A minus sign negates the value
modulo `2 ^ 64`. -/
def stoull (s : Str) : Except String Nat :=
  let s1 := s.dropWhile isspace
  let negative := decide (s1.head? = some '-')
  let s2 := if s1.head? = some '-' ∨ s1.head? = some '+' then s1.drop 1 else s1
  let ds := s2.takeWhile Char.isDigit
  if ds = [] then Except.error "stoull: invalid_argument"
  else if decimal_value ds ≥ 2 ^ 64 then Except.error "stoull: out_of_range"
  else if negative then Except.ok ((2 ^ 64 - decimal_value ds) % 2 ^ 64)
  else Except.ok (decimal_value ds)

/-- The data members of class `HttpRequest` (`HttpRequest.hpp`). -/
structure HttpRequest where
  http_request_method : HttpMethod
  http_request_url : Str
  http_request_version : Str
  http_request_body : Str
  raw_http_request_data : Str
  http_request_boundary : Str
  is_http_request_complete : Bool
  are_http_headers_complete : Bool
  is_http_request_multipart : Bool
  http_request_body_start_index : Nat
  http_request_headers : StdMap
  deriving DecidableEq, Repr

/-- Model of the constructor `HttpRequest::HttpRequest()`. -/
def HttpRequest.create : HttpRequest :=
  { http_request_method := HttpMethod.UNKNOWN
    http_request_url := []
    http_request_version := []
    http_request_body := []
    raw_http_request_data := []
    http_request_boundary := []
    is_http_request_complete := false
    are_http_headers_complete := false
    is_http_request_multipart := false
    http_request_body_start_index := 0
    http_request_headers := [] }

/-- Model of `HttpRequest::has_http_request_header`: the key is lowercased
before the map is searched. -/
def HttpRequest.has_http_request_header (r : HttpRequest) (key : Str) : Bool :=
  (r.http_request_headers.get (to_lower key)).isSome

/-- Model of `HttpRequest::get_http_request_header`: the key is lowercased
before the map is searched; the empty string when absent. -/
def HttpRequest.get_http_request_header (r : HttpRequest) (key : Str) : Str :=
  (r.http_request_headers.get (to_lower key)).getD []

/-- Model of `HttpRequest::parse_http_request_multipart_header`. -/
def HttpRequest.parse_http_request_multipart_header (r : HttpRequest)
    (http_request_content_type : Str) : HttpRequest :=
  match find http_request_content_type "boundary=".toList with
  | some http_request_boundary_position =>
    { r with
      http_request_boundary :=
        http_request_content_type.drop
          (http_request_boundary_position + "boundary=".toList.length)
      is_http_request_multipart := true }
  | none => r

/-- Model of `stream >> word` for a `std::string`: white space is skipped, then
the characters up to the next white space are extracted; `none` when no
character could be extracted. The second component is the rest of the stream. -/
def extract_word (s : Str) : Option (Str × Str) :=
  let s1 := s.dropWhile isspace
  if s1 = [] then none
  else some (s1.takeWhile (fun c => !isspace c), s1.dropWhile (fun c => !isspace c))

/-- The static `method_map` of `parse_http_request_line`. -/
def method_map (http_request_method_string : Str) : HttpMethod :=
  if http_request_method_string = "GET".toList then HttpMethod.GET
  else if http_request_method_string = "POST".toList then HttpMethod.POST
  else if http_request_method_string = "DELETE".toList then HttpMethod.DELETE
  else HttpMethod.UNKNOWN

/-- Model of `HttpRequest::parse_http_request_line`. -/
def HttpRequest.parse_http_request_line (r : HttpRequest) (line : Str) :
    Except String HttpRequest :=
  match extract_word line with
  | none => Except.error "Invalid HTTP request line"
  | some (http_request_method_string, rest1) =>
    match extract_word rest1 with
    | none => Except.error "Invalid HTTP request line"
    | some (url, rest2) =>
      match extract_word rest2 with
      | none => Except.error "Invalid HTTP request line"
      | some (version, _) =>
        if version ≠ "HTTP/1.1".toList ∧ version ≠ "HTTP/1.0".toList then
          Except.error "Unsupported HTTP version. Supported versions are: HTTP/1.0 and HTTP/1.1."
        else
          Except.ok { r with
            http_request_method := method_map http_request_method_string
            http_request_url := url
            http_request_version := version }

/-- The lines that successive calls of `std::getline(stream, line)` deliver
until the call fails: the text is cut at each `\n`, and a final piece without
`\n` is delivered when it is not empty. -/
def getlines : Str → List Str
  | [] => []
  | c :: cs =>
    if c = '\n' then [] :: getlines cs
    else
      match getlines cs with
      | [] => [[c]]
      | l :: ls => (c :: l) :: ls

/-- The value of a header line as stored by `parse_http_request_headers`:
`value.erase(0, value.find_first_not_of(" "))` followed by
`value.erase(value.find_last_not_of(" \t\r\n") + 1)`. -/
def trim_header_value (value : Str) : Str :=
  (value.dropWhile (fun c => c = ' ')).rdropWhile
    (fun c => c = ' ' || c = '\t' || c = '\r' || c = '\n')

/-- The `while (std::getline(...))` loop of `parse_http_request_headers` over
the lines still to come: a trailing `\r` is dropped, an empty line ends the
loop, a line with a `:` stores `lowercase(key) -> trimmed value`, any other
line is skipped. -/
def parse_header_lines (headers : StdMap) : List Str → StdMap
  | [] => headers
  | line0 :: rest =>
    let line := if line0.getLast? = some '\r' then line0.dropLast else line0
    if line = [] then headers
    else
      match find_char line ':' with
      | some colon_position =>
        parse_header_lines
          (headers.set (to_lower (line.take colon_position))
            (trim_header_value (line.drop (colon_position + 1)))) rest
      | none => parse_header_lines headers rest

/-- Model of `HttpRequest::parse_http_request_headers` on the text of the
stream. -/
def HttpRequest.parse_http_request_headers (r : HttpRequest) (http_request_stream : Str) :
    HttpRequest :=
  { r with
    http_request_headers := parse_header_lines r.http_request_headers
      (getlines http_request_stream) }

/-- Lines 80 to 112 of `process_incoming_http_request`: the body phase, run on
the request after the new data was appended (and the headers were parsed). -/
def HttpRequest.body_phase (r : HttpRequest) : Except String (HttpRequest × Bool) :=
  if r.has_http_request_header "content-length".toList then
    match stoull (r.get_http_request_header "content-length".toList) with
    | Except.error e => Except.error e
    | Except.ok http_request_expected_length =>
      if r.raw_http_request_data.length - r.http_request_body_start_index
          ≥ http_request_expected_length then
        Except.ok ({ r with
          http_request_body := r.raw_http_request_data.drop r.http_request_body_start_index
          is_http_request_complete := true }, true)
      else Except.ok (r, false)
  else if r.is_http_request_multipart then
    if (find r.raw_http_request_data
        ("--".toList ++ r.http_request_boundary ++ "--\r\n".toList)).isSome then
      Except.ok ({ r with
        http_request_body := r.raw_http_request_data.drop r.http_request_body_start_index
        is_http_request_complete := true }, true)
    else Except.ok (r, false)
  else if r.http_request_method ≠ HttpMethod.POST then
    Except.ok ({ r with is_http_request_complete := true }, true)
  else Except.ok (r, false)

/-- Lines 51 to 68 of `process_incoming_http_request`: the request line and
the header block are parsed out of the buffer, given the positions of the
first `\r\n\r\n` and of the first `\r\n`. The count of the header `substr` is
a `size_t` difference and wraps when the two positions coincide. -/
def HttpRequest.parse_head (r : HttpRequest) (http_request_header_end first_line_end : Nat) :
    Except String HttpRequest :=
  match r.parse_http_request_line (r.raw_http_request_data.take first_line_end) with
  | Except.error e => Except.error e
  | Except.ok r2 =>
    let http_request_header_string :=
      (r2.raw_http_request_data.drop (first_line_end + 2)).take
        ((http_request_header_end + 2 ^ 64 - (first_line_end + 2)) % 2 ^ 64)
    let r3 := r2.parse_http_request_headers http_request_header_string
    let r4 := { r3 with are_http_headers_complete := true }
    let r5 :=
      match r4.http_request_headers.get "content-type".toList with
      | some content_type =>
        if (find content_type "multipart/form-data".toList).isSome then
          r4.parse_http_request_multipart_header content_type
        else r4
      | none => r4
    Except.ok { r5 with
      http_request_body_start_index := http_request_header_end + "\r\n\r\n".toList.length }

/-- The test of line 70 of `process_incoming_http_request`: the method is GET,
or it is POST without a `content-length` header and without multipart. -/
def HttpRequest.completes_after_headers (r : HttpRequest) : Bool :=
  decide (r.http_request_method = HttpMethod.GET) ||
    (decide (r.http_request_method = HttpMethod.POST) &&
      !r.has_http_request_header "content-length".toList &&
      !r.is_http_request_multipart)

/-- Model of `HttpRequest::process_incoming_http_request`: the new state and
the returned flag, or the exception that leaves the function. -/
def HttpRequest.process_incoming_http_request (r : HttpRequest) (data : Str) :
    Except String (HttpRequest × Bool) :=
  let r1 := { r with raw_http_request_data := r.raw_http_request_data ++ data }
  if !r1.are_http_headers_complete then
    match find r1.raw_http_request_data "\r\n\r\n".toList with
    | none => Except.ok (r1, false)
    | some http_request_header_end =>
      match find r1.raw_http_request_data "\r\n".toList with
      | none => Except.ok (r1, false)
      | some first_line_end =>
        match r1.parse_head http_request_header_end first_line_end with
        | Except.error e => Except.error e
        | Except.ok r6 =>
          if r6.completes_after_headers then
            Except.ok ({ r6 with is_http_request_complete := true }, true)
          else r6.body_phase
  else r1.body_phase

/-- Feeding a list of chunks, one call of `process_incoming_http_request` per
chunk, as the event loop does on successive reads: the final state and the
flags returned by the calls, in order; an exception ends the run. -/
def feed_chunks (r : HttpRequest) : List Str → Except String (HttpRequest × List Bool)
  | [] => Except.ok (r, [])
  | data :: rest =>
    match r.process_incoming_http_request data with
    | Except.error e => Except.error e
    | Except.ok (r1, flag) =>
      match feed_chunks r1 rest with
      | Except.error e => Except.error e
      | Except.ok (r2, flags) => Except.ok (r2, flag :: flags)

/-- Feeding chunks until the first call that returns true, after which the
event loop dispatches the request: the state after that call and its index in
the list, or `none` when no call returned true. -/
def feed_until_complete (r : HttpRequest) : List Str → Except String (HttpRequest × Option Nat)
  | [] => Except.ok (r, none)
  | data :: rest =>
    match r.process_incoming_http_request data with
    | Except.error e => Except.error e
    | Except.ok (r1, true) => Except.ok (r1, some 0)
    | Except.ok (r1, false) =>
      match feed_until_complete r1 rest with
      | Except.error e => Except.error e
      | Except.ok (r2, some k) => Except.ok (r2, some (k + 1))
      | Except.ok (r2, none) => Except.ok (r2, none)

/-- A byte string is complete as one block: fed in a single call to a fresh
`HttpRequest`, the call returns true. -/
def complete_as_one_block (P : Str) : Bool :=
  match HttpRequest.create.process_incoming_http_request P with
  | Except.ok (_, true) => true
  | _ => false

/-- Search for the shortest complete prefix of `R`, trying the lengths
`n, n + 1, ..., n + fuel` in this order. -/
def first_complete_from (R : Str) : Nat → Nat → Option Nat
  | 0, n => if complete_as_one_block (R.take n) then some n else none
  | fuel + 1, n =>
    if complete_as_one_block (R.take n) then some n else first_complete_from R fuel (n + 1)

/-- The completion offset of a byte string: the length of its shortest prefix
that is complete as one block, if there is one. -/
def completion_offset (R : Str) : Option Nat := first_complete_from R R.length 0

/-- Two request states agree on the fields parsed from the request line and
the header block: method, url, version, header map, boundary and multipart
flag. -/
def same_parsed_fields (a b : HttpRequest) : Prop :=
  a.http_request_method = b.http_request_method ∧
  a.http_request_url = b.http_request_url ∧
  a.http_request_version = b.http_request_version ∧
  a.http_request_headers = b.http_request_headers ∧
  a.http_request_boundary = b.http_request_boundary ∧
  a.is_http_request_multipart = b.is_http_request_multipart

/-- The request body held after all the chunks were fed to a fresh
`HttpRequest`; `none` when a call raised. -/
def body_after (chunks : List Str) : Option Str :=
  match feed_chunks HttpRequest.create chunks with
  | Except.ok (r, _) => some r.http_request_body
  | Except.error _ => none

/-- A sample request: a POST with a five-byte body. -/
def sample_post_request : Str :=
  "POST /u HTTP/1.1\r\nContent-Length: 5\r\n\r\nhello".toList

/-- A partition of `sample_post_request` into four chunks; the second cut
falls inside the header terminator. -/
def sample_post_chunks : List Str :=
  ["POST /u HT".toList, "TP/1.1\r\nContent-Length: 5\r\n\r".toList, "\nhel".toList,
   "lo".toList]

/-- A sample request: a GET that carries a two-byte body. -/
def sample_get_with_body : Str :=
  "GET / HTTP/1.1\r\nContent-Length: 2\r\n\r\nhi".toList

/-- The header block of `sample_get_with_body`, up to the blank line. -/
def sample_get_head : Str :=
  "GET / HTTP/1.1\r\nContent-Length: 2\r\n\r\n".toList

/-- The flags returned by the calls when the chunks are fed, one call per
chunk, to a fresh `HttpRequest`; `none` when a call raised. -/
def flags_after (chunks : List Str) : Option (List Bool) :=
  match feed_chunks HttpRequest.create chunks with
  | Except.ok (_, flags) => some flags
  | Except.error _ => none

/-- The call raised an exception. -/
def raised {α : Type} (x : Except String α) : Bool :=
  match x with
  | Except.error _ => true
  | Except.ok _ => false

/-- A sample request: a POST that announces two body bytes and carries five. -/
def sample_post_excess : Str :=
  "POST /u HTTP/1.1\r\nContent-Length: 2\r\n\r\nhello".toList

/-- A sample request: a DELETE with a `Content-Length` header whose body has
not arrived yet. -/
def sample_delete_with_length : Str :=
  "DELETE /x HTTP/1.1\r\nContent-Length: 5\r\n\r\n".toList

/-- A sample request: a DELETE without `Content-Length` and without multipart. -/
def sample_delete_plain : Str :=
  "DELETE /x HTTP/1.1\r\nHost: a\r\n\r\n".toList

/-- A sample request: a POST whose `Content-Length` value is not a number. -/
def sample_post_bad_length : Str :=
  "POST / HTTP/1.1\r\nContent-Length: abc\r\n\r\n".toList

/-- The state held after the chunks were fed, one call per chunk, to a fresh
`HttpRequest`; `none` when a call raised. -/
def state_after (chunks : List Str) : Option HttpRequest :=
  match feed_chunks HttpRequest.create chunks with
  | Except.ok (r, _) => some r
  | Except.error _ => none

/-- The state in which the single call on `sample_post_excess` leaves a fresh
`HttpRequest`. -/
def sample_post_excess_state : HttpRequest :=
  { http_request_method := HttpMethod.POST
    http_request_url := "/u".toList
    http_request_version := "HTTP/1.1".toList
    http_request_body := "hello".toList
    raw_http_request_data := sample_post_excess
    http_request_boundary := []
    is_http_request_complete := true
    are_http_headers_complete := true
    is_http_request_multipart := false
    http_request_body_start_index := 39
    http_request_headers := [("content-length".toList, "2".toList)] }

/-- The state in which the single call on `sample_delete_plain` leaves a fresh
`HttpRequest`. -/
def sample_delete_plain_state : HttpRequest :=
  { http_request_method := HttpMethod.DELETE
    http_request_url := "/x".toList
    http_request_version := "HTTP/1.1".toList
    http_request_body := []
    raw_http_request_data := sample_delete_plain
    http_request_boundary := []
    is_http_request_complete := true
    are_http_headers_complete := true
    is_http_request_multipart := false
    http_request_body_start_index := 31
    http_request_headers := [("host".toList, "a".toList)] }

/-- A sample request with one header, `Content-Type: text/plain`. -/
def sample_get_one_header : Str :=
  "GET /a HTTP/1.1".toList ++ "\r\n".toList ++ "Content-Type".toList ++ ": ".toList ++
    "text/plain".toList ++ "\r\n\r\n".toList ++ []

/-- The state in which the single call on `sample_get_one_header` leaves a
fresh `HttpRequest`. -/
def sample_get_one_header_state : HttpRequest :=
  { http_request_method := HttpMethod.GET
    http_request_url := "/a".toList
    http_request_version := "HTTP/1.1".toList
    http_request_body := []
    raw_http_request_data := sample_get_one_header
    http_request_boundary := []
    is_http_request_complete := true
    are_http_headers_complete := true
    is_http_request_multipart := false
    http_request_body_start_index := 45
    http_request_headers := [("content-type".toList, "text/plain".toList)] }

/-! ## The chunked-body decoder (`CGIHandler.cpp`) -/

/-- Model of `std::getline(stream, line)` on the unread text of a stream in
good state: `none` when nothing is left (the call fails), else the line up to
the next `\n` and the text after that `\n`. -/
def getline (stream : Str) : Option (Str × Str) :=
  if stream = [] then none
  else some (stream.takeWhile (fun c => c != '\n'),
    (stream.dropWhile (fun c => c != '\n')).drop 1)

/-- Value of a hexadecimal digit, `none` for any other character. -/
def hex_digit_value (c : Char) : Option Nat :=
  if '0' ≤ c ∧ c ≤ '9' then some (c.toNat - '0'.toNat)
  else if 'a' ≤ c ∧ c ≤ 'f' then some (c.toNat - 'a'.toNat + 10)
  else if 'A' ≤ c ∧ c ≤ 'F' then some (c.toNat - 'A'.toNat + 10)
  else none

/-- Value of a run of hexadecimal digits, most significant first. -/
def hex_value (ds : Str) : Nat :=
  ds.foldl (fun n c => 16 * n + (hex_digit_value c).getD 0) 0

/-- Model of `std::istringstream(line) >> std::hex >> chunk_size` for the
`size_t` variable `chunk_size`, whose value before the extraction is the second
argument. White space is skipped; when nothing is left the extraction does not
start and `chunk_size` keeps its value. Otherwise an optional sign and an
optional `0x` are read, then the longest run of hexadecimal digits: no digit
gives 0, a value above `2 ^ 64 - 1` gives `2 ^ 64 - 1`, and a minus sign negates
modulo `2 ^ 64`. -/
def extract_hex (line : Str) (chunk_size : Nat) : Nat :=
  let s1 := line.dropWhile isspace
  if s1 = [] then chunk_size
  else
    let negative := decide (s1.head? = some '-')
    let s2 := if s1.head? = some '-' ∨ s1.head? = some '+' then s1.drop 1 else s1
    let s3 := if s2.take 2 = "0x".toList ∨ s2.take 2 = "0X".toList then s2.drop 2 else s2
    let ds := s3.takeWhile (fun c => (hex_digit_value c).isSome)
    if ds = [] then 0
    else if hex_value ds ≥ 2 ^ 64 then 2 ^ 64 - 1
    else if negative then (2 ^ 64 - hex_value ds) % 2 ^ 64
    else hex_value ds

/-- The `while (std::getline(stream, line))` loop of `unchunk_request_body`.
Arguments: fuel (one unit per iteration), the unread text of the stream,
whether the stream has failed, the current `chunk_size`, and `result`.
`uninit i` is the content of byte `i` of the freshly allocated `chunk` buffer,
which `result.append(chunk, chunk_size)` copies where `stream.read` stored
nothing. A failed stream ignores `ignore(2)` and fails the next `getline`.
`none` only when the fuel runs out. -/
def unchunk_loop (uninit : Nat → Char) :
    Nat → Str → Bool → Nat → Str → Option Str
  | 0, _, _, _, _ => none
  | fuel + 1, stream, failed, chunk_size, result =>
    if failed then some result
    else
      match getline stream with
      | none => some result
      | some (line0, stream1) =>
        let line := if line0.getLast? = some '\r' then line0.dropLast else line0
        let chunk_size1 := extract_hex line chunk_size
        if chunk_size1 = 0 then some result
        else
          let got := stream1.take chunk_size1
          let chunk := got ++
            (List.range (chunk_size1 - got.length)).map (fun i => uninit (got.length + i))
          let failed1 := decide (got.length < chunk_size1)
          let stream2 := stream1.drop chunk_size1
          let stream3 := if failed1 then stream2 else stream2.drop 2
          unchunk_loop uninit fuel stream3 failed1 chunk_size1 (result ++ chunk)

/-- Model of `CGIHandler::unchunk_request_body`. `chunk_size0` is the value of
the uninitialised local `chunk_size` at entry, `uninit` the content of
uninitialised buffer bytes. Every iteration that goes on consumes at least one
character, so `chunked_body.length + 1` iterations are enough. -/
def unchunk_request_body (uninit : Nat → Char) (chunk_size0 : Nat) (chunked_body : Str) :
    Option Str :=
  unchunk_loop uninit (chunked_body.length + 1) chunked_body false chunk_size0 []

/-- The hexadecimal digit of a value below 16, in lower or upper case. -/
def hex_char (upper : Bool) (k : Nat) : Char :=
  if upper then "0123456789ABCDEF".toList.getD k '0'
  else "0123456789abcdef".toList.getD k '0'

/-- Hexadecimal digits of `n` in front of `acc`; the first argument bounds the
number of digits. -/
def to_hex_aux (upper : Bool) : Nat → Nat → Str → Str
  | 0, _, acc => acc
  | fuel + 1, n, acc =>
    if n < 16 then hex_char upper n :: acc
    else to_hex_aux upper fuel (n / 16) (hex_char upper (n % 16) :: acc)

/-- The hexadecimal numeral of `n`, without prefix and without leading zeros. -/
def to_hex (upper : Bool) (n : Nat) : Str := to_hex_aux upper (n + 1) n []

/-- The chunked transfer encoding of a list of chunks: each chunk as its
hexadecimal length, CRLF, the chunk bytes, CRLF; then `0` CRLF CRLF. -/
def encode_chunked (upper : Bool) : List Str → Str
  | [] => "0\r\n\r\n".toList
  | c :: rest =>
    to_hex upper c.length ++ "\r\n".toList ++ c ++ "\r\n".toList ++ encode_chunked upper rest

/-! ## The response builder (`HttpResponse.hpp`, `HttpResponse.cpp`) -/

/-- The decimal digit of a value below 10. -/
def decimal_char (k : Nat) : Char := "0123456789".toList.getD k '0'

/-- Decimal digits of `n` in front of `acc`; the first argument bounds the
number of digits. -/
def to_decimal_aux : Nat → Nat → Str → Str
  | 0, _, acc => acc
  | fuel + 1, n, acc =>
    if n < 10 then decimal_char n :: acc
    else to_decimal_aux fuel (n / 10) (decimal_char (n % 10) :: acc)

/-- Model of `std::to_string(n)` for an unsigned value: its decimal numeral. -/
def to_string (n : Nat) : Str := to_decimal_aux (n + 1) n []

/-- Model of `stream << static_cast<int>(code)`: the decimal numeral of an
integer, with a minus sign when negative. -/
def int_to_string (i : Int) : Str :=
  if i < 0 then '-' :: to_string i.natAbs else to_string i.natAbs

/-- Model of `get_http_response_status_code_text` (`HttpStatusCode.hpp`); a
status code is the integer value of the `HttpStatusCode` enumerator. -/
def get_http_response_status_code_text (status : Int) : Str :=
  if status = 200 then "OK".toList
  else if status = 201 then "Created".toList
  else if status = 202 then "Accepted".toList
  else if status = 204 then "No Content".toList
  else if status = 301 then "Moved Permanently".toList
  else if status = 302 then "Found".toList
  else if status = 303 then "See Other".toList
  else if status = 304 then "Not Modified".toList
  else if status = 307 then "Temporary Redirect".toList
  else if status = 308 then "Permanent Redirect".toList
  else if status = 400 then "Bad Request".toList
  else if status = 401 then "Unauthorized".toList
  else if status = 403 then "Forbidden".toList
  else if status = 404 then "Not Found".toList
  else if status = 405 then "Method Not Allowed".toList
  else if status = 408 then "Request Timeout".toList
  else if status = 409 then "Conflict".toList
  else if status = 411 then "Length Required".toList
  else if status = 413 then "Payload Too Large".toList
  else if status = 414 then "URI Too Long".toList
  else if status = 415 then "Unsupported Media Type".toList
  else if status = 500 then "Internal Server Error".toList
  else if status = 501 then "Not Implemented".toList
  else if status = 502 then "Bad Gateway".toList
  else if status = 503 then "Service Unavailable".toList
  else if status = 504 then "Gateway Timeout".toList
  else "Unknown Status".toList

/-- The data members of class `HttpResponse` (`HttpResponse.hpp`). -/
structure HttpResponse where
  http_response_headers : StdMap
  http_response_status_code : Int
  http_response_body : Str
  http_version : Str
  deriving DecidableEq, Repr

/-- Model of `HttpResponse::add_default_http_response_headers`; `date` is the
text `std::strftime` produced for the current time. -/
def HttpResponse.add_default_http_response_headers (r : HttpResponse) (date : Str) :
    HttpResponse :=
  { r with
    http_response_headers :=
      ((r.http_response_headers.set "Date".toList date).set "Server".toList
        "webserv/1.0".toList).set "Connection".toList "keep-alive".toList }

/-- Model of the constructor `HttpResponse::HttpResponse()`. -/
def HttpResponse.create (date : Str) : HttpResponse :=
  HttpResponse.add_default_http_response_headers
    { http_response_headers := []
      http_response_status_code := 200
      http_response_body := []
      http_version := "HTTP/1.1".toList } date

/-- Model of `HttpResponse::set_http_response_status_code`. -/
def HttpResponse.set_http_response_status_code (r : HttpResponse) (status : Int) :
    HttpResponse :=
  { r with http_response_status_code := status }

/-- Model of `HttpResponse::set_http_response_header`. -/
def HttpResponse.set_http_response_header (r : HttpResponse) (key value : Str) :
    HttpResponse :=
  { r with http_response_headers := r.http_response_headers.set key value }

/-- Model of `HttpResponse::set_http_response_body`: the body is stored and
`Content-Length` is set to its length. -/
def HttpResponse.set_http_response_body (r : HttpResponse) (content : Str) : HttpResponse :=
  { r with
    http_response_body := content
    http_response_headers :=
      r.http_response_headers.set "Content-Length".toList (to_string content.length) }

/-- Model of `HttpResponse::set_http_response_content_type`. -/
def HttpResponse.set_http_response_content_type (r : HttpResponse) (content_type : Str) :
    HttpResponse :=
  { r with
    http_response_headers := r.http_response_headers.set "Content-Type".toList content_type }

/-- The header lines written by the `for` loop of `build_http_response`, in
the iteration order of the map. -/
def header_lines : StdMap → Str
  | [] => []
  | (name, value) :: rest =>
    name ++ ": ".toList ++ value ++ "\r\n".toList ++ header_lines rest

/-- Model of `HttpResponse::build_http_response`. -/
def HttpResponse.build_http_response (r : HttpResponse) : Str :=
  r.http_version ++ " ".toList ++ int_to_string r.http_response_status_code ++ " ".toList ++
    get_http_response_status_code_text r.http_response_status_code ++ "\r\n".toList ++
    header_lines r.http_response_headers ++ "\r\n".toList ++
    (if r.http_response_body ≠ [] then r.http_response_body else [])

/-! ### Reading a response back as an HTTP/1.1 message -/

/-- Reading a decimal integer: an optional minus sign, then digits only. -/
def read_int (s : Str) : Option Int :=
  match s with
  | '-' :: ds =>
    if ds ≠ [] ∧ ds.all Char.isDigit then some (-(decimal_value ds : Int)) else none
  | ds => if ds ≠ [] ∧ ds.all Char.isDigit then some (decimal_value ds : Int) else none

/-- Reading a status line `version SP code SP reason`: the status code is the
integer between the first and the second space. -/
def read_status_line (line : Str) : Option Int :=
  match find_char line ' ' with
  | none => none
  | some i => read_int (before_first (line.drop (i + 1)) ' ')

/-- Reading header lines up to the first empty line: each line ends at the
next CRLF and is cut at its first `: ` into name and value, which is stored in
the map; the text after the empty line is the body. The first argument bounds
the number of lines. -/
def read_header_lines : Nat → Str → StdMap → Option (StdMap × Str)
  | 0, _, _ => none
  | fuel + 1, text, headers =>
    match find text "\r\n".toList with
    | none => none
    | some i =>
      if i = 0 then some (headers, text.drop 2)
      else
        match find (text.take i) ": ".toList with
        | none => none
        | some j =>
          read_header_lines fuel (text.drop (i + 2))
            (headers.set ((text.take i).take j) ((text.take i).drop (j + 2)))

/-- Reading a byte string as an HTTP/1.1 response message: the status line up
to the first CRLF, then `name: value` header lines up to the first empty line,
then the remaining bytes as body. -/
def read_http_message (message : Str) : Option (Int × StdMap × Str) :=
  match find message "\r\n".toList with
  | none => none
  | some i =>
    match read_status_line (message.take i) with
    | none => none
    | some code =>
      match read_header_lines (message.length + 1) (message.drop (i + 2)) [] with
      | none => none
      | some (headers, body) => some (code, headers, body)

/-- A sample response: status 404, a body, and the default headers. -/
def sample_response : HttpResponse :=
  ((HttpResponse.create "Sat, 31 Oct 2026 10:00:00 GMT".toList).set_http_response_status_code
    404).set_http_response_body "gone".toList

/-- A sample response whose header value contains a blank line. -/
def sample_response_split : HttpResponse :=
  ((HttpResponse.create "Sat, 31 Oct 2026 10:00:00 GMT".toList).set_http_response_header
    "X-Note".toList "a\r\n\r\nb".toList).set_http_response_body "body".toList

/-! ## The GET handler (`RequestManager.cpp`) -/

/-- The macro `HTTP_PAGE_500_INTERNAL_SERVER_ERROR` of `HttpStatusCode.hpp`. -/
def HTTP_PAGE_500_INTERNAL_SERVER_ERROR : Str :=
  (
    "<!DOCTYPE html><html><head><title>500 - Internal Server Error</title><style>body" ++
    "\x7bfont-family:\x27Arial\x27,sans-serif;text-align:center;padding:50px;backgrou" ++
    "nd-color:#f8f9fa;color:#343a40;\x7d.container\x7bbackground-color:white;padding:" ++
    "50px;border-radius:12px;box-shadow:0 4px 8px rgba(0,0,0,0.1);max-width:600px;mar" ++
    "gin:0 auto;animation:fadeIn 0.5s ease-in-out;\x7dh1\x7bfont-size:2.5em;color:#49" ++
    "5057;margin-bottom:20px;\x7dp\x7bcolor:#6c757d;font-size:1.2em;margin:15px 0;" ++
    "\x7da\x7bcolor:#007bff;text-decoration:none;font-weight:bold;border:2px solid #0" ++
    "07bff;padding:10px 20px;border-radius:5px;transition:all 0.3s ease;\x7da:hover" ++
    "\x7bbackground-color:#007bff;color:white;\x7d@keyframes fadeIn\x7bfrom\x7bopacit" ++
    "y:0;transform:translateY(-10px);\x7dto\x7bopacity:1;transform:translateY(0);\x7d" ++
    "\x7d</style></head><body><div class=\"container\"><h1>500 - Internal Server Erro" ++
    "r</h1><p>An unexpected error occurred on the server. Please try again later.</p>" ++
    "<p><a href=\"/\">Return to Homepage</a></p></div></body></html>").toList

/-- The configuration data read by the request handlers: data members of
class `ServerConfiguration`. -/
structure ServerConfiguration where
  max_post_request_size : Nat
  url_routes : List Route
  default_error_page_path : Str
  root_directory : Str

/-- What a path names in the file system. -/
inductive FsNode where
  | file (content : Str)
  | directory
  deriving DecidableEq, Repr

/-- The file system as the handlers observe it through `stat`, `open` and
`read`: what each path names, if anything. Permissions and I/O errors are
outside the model. -/
abbrev FileSystem := Str → Option FsNode

/-- Operations of the handlers whose results are produced outside the code
modelled here: creating directories, listing a directory (entry names, sizes
and times), and running a CGI script through `CGIHandler::handle_request`,
which returns the response it filled in. -/
structure Environment where
  create_directories : FileSystem → Str → Except String FileSystem
  get_directory_listing : FileSystem → Str → Str → Except String Str
  cgi_handle_request : FileSystem → Str → Str → HttpRequest → HttpResponse → HttpResponse

/-- Model of `RequestManager::is_directory`: `stat` succeeds and the path is a
directory. -/
def is_directory (fs : FileSystem) (directory_path : Str) : Bool :=
  match fs directory_path with
  | some FsNode.directory => true
  | _ => false

/-- Model of `RequestManager::file_exists`: `stat` succeeds. -/
def file_exists (fs : FileSystem) (file_path : Str) : Bool :=
  (fs file_path).isSome

/-- Model of `Utils::read_file` (`read_file.cpp`): the content of a regular
file; `open` fails on a path that names nothing and `read` fails on a
directory. -/
def read_file (fs : FileSystem) (file_path : Str) : Except String Str :=
  match fs file_path with
  | some (FsNode.file content) => Except.ok content
  | some FsNode.directory => Except.error "Error reading file"
  | none => Except.error "Failed to open file"

/-- Model of `RequestManager::get_file_content`. -/
def get_file_content (fs : FileSystem) (file_path : Str) : Except String Str :=
  read_file fs file_path

/-- Model of `std::stoi(s, nullptr, 16)`, which follows `strtol`: leading white
space is skipped, an optional sign is read, then an optional `0x` when a
hexadecimal digit follows it, then the longest run of hexadecimal digits; text
after the digits is ignored. No digits: `std::invalid_argument`. A value
outside the range of `int`: `std::out_of_range`. -/
def stoi_hex (s : Str) : Except String Int :=
  let s1 := s.dropWhile isspace
  let negative := decide (s1.head? = some '-')
  let s2 := if s1.head? = some '-' ∨ s1.head? = some '+' then s1.drop 1 else s1
  let s3 :=
    if (s2.take 2 = "0x".toList ∨ s2.take 2 = "0X".toList) ∧
        ((s2.drop 2).head?.bind hex_digit_value).isSome then s2.drop 2 else s2
  let ds := s3.takeWhile (fun c => (hex_digit_value c).isSome)
  if ds = [] then Except.error "stoi: invalid_argument"
  else if negative then
    if hex_value ds > 2 ^ 31 then Except.error "stoi: out_of_range"
    else Except.ok (-(hex_value ds : Int))
  else
    if hex_value ds ≥ 2 ^ 31 then Except.error "stoi: out_of_range"
    else Except.ok (hex_value ds : Int)

/-- Model of `static_cast<char>(v)` for an `int`: the byte congruent to `v`
modulo 256. -/
def int_to_char (v : Int) : Char := Char.ofNat (v % 256).toNat

/-- The `for` loop of `RequestManager::url_decode` over the characters still to
visit. The first argument counts the characters the loop steps over without
visiting them, after `i += 2` of an escape. The test `i + 2 < encoded.length()`
holds exactly when two characters follow the `%`. -/
def url_decode_loop : Nat → Str → Except String Str
  | _, [] => Except.ok []
  | skip + 1, _ :: rest => url_decode_loop skip rest
  | 0, c :: rest =>
    if c = '%' ∧ 2 ≤ rest.length then
      match stoi_hex (rest.take 2) with
      | Except.error e => Except.error e
      | Except.ok v =>
        match url_decode_loop 2 rest with
        | Except.error e => Except.error e
        | Except.ok decoded => Except.ok (int_to_char v :: decoded)
    else
      match url_decode_loop 0 rest with
      | Except.error e => Except.error e
      | Except.ok decoded => Except.ok ((if c = '+' then ' ' else c) :: decoded)

/-- Model of `RequestManager::url_decode`. -/
def url_decode (encoded : Str) : Except String Str := url_decode_loop 0 encoded

/-- Model of `RequestManager::get_http_request_content_type`: the MIME type by
the text after the last `.` of the path. -/
def get_http_request_content_type (file_path : Str) : Str :=
  match find_last_of file_path '.' with
  | none => "application/octet-stream".toList
  | some dot_position =>
    let file_extension := file_path.drop (dot_position + 1)
    if file_extension = "txt".toList then "txt".toList
    else if file_extension = "html".toList then "text/html".toList
    else if file_extension = "htm".toList then "text/html".toList
    else if file_extension = "css".toList then "text/css".toList
    else if file_extension = "jpg".toList then "image/jpeg".toList
    else if file_extension = "jpeg".toList then "image/jpeg".toList
    else if file_extension = "gif".toList then "image/gif".toList
    else if file_extension = "pdf".toList then "application/pdf".toList
    else "application/octet-stream".toList

/-- Model of `Route::should_redirect`. -/
def Route.should_redirect (r : Route) : Bool := decide (r.redirect_url ≠ [])

/-- Model of `Route::has_cgi_handler`. -/
def Route.has_cgi_handler (r : Route) (extension : Str) : Bool :=
  (r.cgi_handlers.get extension).isSome

/-- Model of `Route::get_cgi_handler`. -/
def Route.get_cgi_handler (r : Route) (extension : Str) : Str :=
  (r.cgi_handlers.get extension).getD []

/-- Model of `RequestManager::serve_error_page`: the configured error page
when the file exists, else a one-line page; when reading the file throws, the
built-in 500 page with status 500. -/
def serve_error_page (config : ServerConfiguration) (fs : FileSystem)
    (http_response : HttpResponse) (http_status_code : Int) : HttpResponse :=
  let error_page_path := config.root_directory ++ ['/'] ++ config.default_error_page_path
  if file_exists fs error_page_path then
    let r1 := http_response.set_http_response_content_type "text/html".toList
    match get_file_content fs error_page_path with
    | Except.ok content =>
      (r1.set_http_response_body content).set_http_response_status_code http_status_code
    | Except.error _ =>
      ((r1.set_http_response_status_code 500).set_http_response_content_type
        "text/html".toList).set_http_response_body HTTP_PAGE_500_INTERNAL_SERVER_ERROR
  else
    let basic_error := "<html><body><h1>Error ".toList ++ int_to_string http_status_code ++
      "</h1><p>".toList ++ get_http_response_status_code_text http_status_code ++
      "</p></body></html>".toList
    ((http_response.set_http_response_content_type "text/html".toList).set_http_response_body
      basic_error).set_http_response_status_code http_status_code

/-- The CGI test of `RequestManager::handle_cgi_request`: the script path (the
path before its first `?`) and the interpreter, when the route has a handler
for the text from the last `.` of the script path on. -/
def cgi_script_of (route : Route) (path : Str) : Option (Str × Str) :=
  if path = [] then none
  else
    let script_path := before_first path '?'
    match find_last_of script_path '.' with
    | none => none
    | some extension_position =>
      let extension := script_path.drop extension_position
      if route.has_cgi_handler extension then
        some (script_path, route.get_cgi_handler extension)
      else none

/-- Model of `RequestManager::handle_cgi_request`: `none` when the function
returns false, else the response after the CGI handler ran. -/
def handle_cgi_request (env : Environment) (fs : FileSystem) (route : Route) (path : Str)
    (request : HttpRequest) (response : HttpResponse) : Option HttpResponse :=
  match cgi_script_of route path with
  | none => none
  | some (script_path, cgi_executable) =>
    some (env.cgi_handle_request fs script_path cgi_executable request response)

/-- Model of `RequestManager::handle_directory_listing`: the resolved path
(empty when the response is already filled in), the response and the file
system after a possible directory creation. -/
def handle_directory_listing (env : Environment) (config : ServerConfiguration)
    (fs : FileSystem) (url_route : Route) (directory_path url : Str)
    (http_response : HttpResponse) : Str × HttpResponse × FileSystem :=
  let index_path := directory_path ++ ['/'] ++ url_route.index_file
  let default_index := directory_path ++ "/index.html".toList
  if !url_route.directory_listing then
    if url_route.index_file ≠ [] ∧ file_exists fs index_path then
      (index_path, http_response, fs)
    else if file_exists fs default_index then (default_index, http_response, fs)
    else ([], serve_error_page config fs http_response 403, fs)
  else
    match (if !file_exists fs directory_path then env.create_directories fs directory_path
           else Except.ok fs) with
    | Except.error _ => ([], serve_error_page config fs http_response 500, fs)
    | Except.ok fs1 =>
      if url_route.index_file ≠ [] ∧ file_exists fs1 index_path then
        (index_path, http_response, fs1)
      else if file_exists fs1 default_index then (default_index, http_response, fs1)
      else
        let r1 := http_response.set_http_response_content_type "text/html".toList
        match env.get_directory_listing fs1 directory_path url with
        | Except.ok listing =>
          ([], (r1.set_http_response_body listing).set_http_response_status_code 200, fs1)
        | Except.error _ => ([], serve_error_page config fs1 r1 500, fs1)

/-- Model of `RequestManager::handle_http_get_request`: the response object
after the call. An exception thrown inside the `try` block is answered by
`serve_error_page` with status 500 on the response as it stands. -/
def handle_http_get_request (env : Environment) (config : ServerConfiguration)
    (fs : FileSystem) (url : Str) (request : HttpRequest) (http_response : HttpResponse)
    (server_listening_port : Int) : HttpResponse :=
  match url_decode url with
  | Except.error _ => serve_error_page config fs http_response 500
  | Except.ok decoded_url =>
    match find_url_route_for_listening_port config.url_routes server_listening_port
        decoded_url with
    | none => http_response.set_http_response_status_code 403
    | some url_route =>
      if url_route.should_redirect then
        (http_response.set_http_response_status_code 301).set_http_response_header
          "Location".toList url_route.redirect_url
      else
        let directory_path := url_route.file_system_root ++ decoded_url
        match handle_cgi_request env fs url_route directory_path request http_response with
        | some response => response
        | none =>
          let resolved :=
            if is_directory fs directory_path then
              handle_directory_listing env config fs url_route directory_path url
                http_response
            else (directory_path, http_response, fs)
          if is_directory fs directory_path ∧ resolved.1 = [] then resolved.2.1
          else if !file_exists resolved.2.2 resolved.1 then
            serve_error_page config resolved.2.2 resolved.2.1 404
          else
            let r1 := resolved.2.1.set_http_response_content_type
              (get_http_request_content_type resolved.1)
            match get_file_content resolved.2.2 resolved.1 with
            | Except.ok content =>
              (r1.set_http_response_body content).set_http_response_status_code 200
            | Except.error _ => serve_error_page config resolved.2.2 r1 500

/-- A sample configuration: root `./www`, one route `/` on port 8080. -/
def sample_configuration : ServerConfiguration :=
  { max_post_request_size := 10485760
    url_routes := [start_url_route "./www".toList "/".toList 8080]
    default_error_page_path := "error.html".toList
    root_directory := "./www".toList }

/-- A sample file system: the file `./www/a.txt` with content `hi` and the
directory `./www`. -/
def sample_file_system : FileSystem := fun path =>
  if path = "./www/a.txt".toList then some (FsNode.file "hi".toList)
  else if path = "./www".toList then some FsNode.directory
  else none

/-- A sample environment in which directory creation and listing fail and a
CGI run leaves the response as it is. -/
def sample_environment : Environment :=
  { create_directories := fun _ _ => Except.error "no directory creation"
    get_directory_listing := fun _ _ _ => Except.error "no listing"
    cgi_handle_request := fun _ _ _ _ response => response }

/-! ### The wire format of a response, in the words of the specification -/

/-- One header line of the wire format: name, colon, space, value, CRLF. -/
def spec_header_line (entry : Str × Str) : Str :=
  entry.1 ++ [':', ' '] ++ entry.2 ++ ['\r', '\n']

/-- The wire format as the specification words it: version, space, status
code, space, reason phrase, CRLF; one line per header entry; CRLF; the body
bytes. The status code is given by its numeral. -/
def spec_wire_format (version code reason : Str) (entries : List (Str × Str)) (body : Str) :
    Str :=
  version ++ [' '] ++ code ++ [' '] ++ reason ++ ['\r', '\n'] ++
    (entries.map spec_header_line).flatten ++ ['\r', '\n'] ++ body

/-! ### The reason phrases, in the words of the specification -/

/-- The table of reason phrases as the specification lists it: the codes 200,
201, 202, 204, 301, 302, 303, 304, 307, 308, 400, 401, 403, 404, 405, 408,
409, 411, 413, 414, 415, 500, 501, 502, 503, 504, each with its standard
text. The text of 413 is `Payload Too Large`, as the specification writes it
in its example of a POST that is too large (the registry has since renamed it
`Content Too Large`). -/
def spec_reason_phrases : List (Int × Str) :=
  [(200, "OK".toList),
   (201, "Created".toList),
   (202, "Accepted".toList),
   (204, "No Content".toList),
   (301, "Moved Permanently".toList),
   (302, "Found".toList),
   (303, "See Other".toList),
   (304, "Not Modified".toList),
   (307, "Temporary Redirect".toList),
   (308, "Permanent Redirect".toList),
   (400, "Bad Request".toList),
   (401, "Unauthorized".toList),
   (403, "Forbidden".toList),
   (404, "Not Found".toList),
   (405, "Method Not Allowed".toList),
   (408, "Request Timeout".toList),
   (409, "Conflict".toList),
   (411, "Length Required".toList),
   (413, "Payload Too Large".toList),
   (414, "URI Too Long".toList),
   (415, "Unsupported Media Type".toList),
   (500, "Internal Server Error".toList),
   (501, "Not Implemented".toList),
   (502, "Bad Gateway".toList),
   (503, "Service Unavailable".toList),
   (504, "Gateway Timeout".toList)]

/-- The reason phrase of a code as the specification words it: the text the
table gives for a listed code, and `Unknown Status` for every other code. -/
def spec_reason_phrase (code : Int) : Str :=
  match spec_reason_phrases.lookup code with
  | some text => text
  | none => "Unknown Status".toList

/-- A sample response: status 404 with two header entries and the body
`not found`. -/
def sample_wire_response : HttpResponse :=
  { http_response_headers :=
      [("Content-Length".toList, "9".toList), ("Content-Type".toList, "text/plain".toList)]
    http_response_status_code := 404
    http_response_body := "not found".toList
    http_version := "HTTP/1.1".toList }

/-! ### Path resolution (`RequestManager::resolve_url_path`) -/

/-- Model of `RequestManager::resolve_url_path`: the query string is cut off,
the root directory is put in front, and a path that contains `..` raises. -/
def resolve_url_path (config : ServerConfiguration) (url : Str) : Except String Str :=
  let clean_url := before_first url '?'
  let full_file_path := config.root_directory ++ clean_url
  if (find full_file_path "..".toList).isSome then
    Except.error "Attempt to access restricted files"
  else Except.ok full_file_path

/-- A sample file system in which the path `./www/../secret.txt` names a file
with content `top secret`. -/
def sample_file_system_outside : FileSystem := fun path =>
  if path = "./www/../secret.txt".toList then some (FsNode.file "top secret".toList)
  else if path = "./www".toList then some FsNode.directory
  else none

/-! ### States of a request after completion -/

/-- The body phase completes the request in this state: the headers are
parsed, the request is marked complete, the body phase returns true, and with
a `content-length` header or multipart the body is the buffer after the header
block. -/
def HttpRequest.settled (s : HttpRequest) : Prop :=
  s.are_http_headers_complete = true ∧ s.is_http_request_complete = true ∧
  (∃ t, s.body_phase = Except.ok (t, true)) ∧
  ((s.has_http_request_header "content-length".toList = true ∨
      s.is_http_request_multipart = true) →
    s.http_request_body = s.raw_http_request_data.drop s.http_request_body_start_index)

/-- The requests that the test of line 70 completes although the body phase
would not: a POST without `content-length` and without multipart, and a GET
with `content-length` or multipart. -/
def HttpRequest.completed_by_method_only (s : HttpRequest) : Bool :=
  (decide (s.http_request_method = HttpMethod.POST) &&
      !s.has_http_request_header "content-length".toList && !s.is_http_request_multipart) ||
    (decide (s.http_request_method = HttpMethod.GET) &&
      (s.has_http_request_header "content-length".toList || s.is_http_request_multipart))

/-- The state in which the single call on `sample_post_request` leaves a fresh
`HttpRequest`. -/
def sample_post_request_state : HttpRequest :=
  { http_request_method := HttpMethod.POST
    http_request_url := "/u".toList
    http_request_version := "HTTP/1.1".toList
    http_request_body := "hello".toList
    raw_http_request_data := sample_post_request
    http_request_boundary := []
    is_http_request_complete := true
    are_http_headers_complete := true
    is_http_request_multipart := false
    http_request_body_start_index := 39
    http_request_headers := [("content-length".toList, "5".toList)] }

/-- A sample request: a POST without `Content-Length` and without multipart. -/
def sample_post_plain : Str := "POST /u HTTP/1.1\r\nHost: a\r\n\r\n".toList

/-! ### Percent-encoding -/

/-- The text in which every byte of `s` is written as `%HH`, with hexadecimal
digits in lower or upper case. -/
def percent_encode (upper : Bool) : Str → Str
  | [] => []
  | c :: rest =>
    '%' :: hex_char upper (c.toNat / 16) :: hex_char upper (c.toNat % 16) ::
      percent_encode upper rest

/-! ### Multipart payload extraction (`RequestManager.cpp`) -/

/-- Model of `RequestManager::remove_http_request_boundary`. The count of the
final `substr` is a `size_t` difference and wraps when `content_end` lies
before `content_start`. -/
def remove_http_request_boundary (http_request_body http_request_boundary : Str) :
    Except String Str :=
  let full_boundary := "--".toList ++ http_request_boundary
  match find http_request_body full_boundary with
  | none => Except.error "Couldn't find first request boundary"
  | some pos =>
    match find_from http_request_body "\r\n\r\n".toList pos with
    | none => Except.error "Couldn't find end of request headers"
    | some pos2 =>
      let content_start := pos2 + 4
      match find_from http_request_body full_boundary content_start with
      | none => Except.error "Couldn't find ending request boundary"
      | some content_end0 =>
        let content_end :=
          if content_end0 ≥ 2 ∧
              (http_request_body.drop (content_end0 - 2)).take 2 = "\r\n".toList then
            content_end0 - 2
          else content_end0
        Except.ok ((http_request_body.drop content_start).take
          ((content_end + 2 ^ 64 - content_start) % 2 ^ 64))

/-- The pattern `pat` occurs in `s` at index `j`, and nowhere at an index from
`pos` up to `j`: `j` is the index of the first occurrence at or after `pos`. -/
def first_at_or_after (s pat : Str) (pos j : Nat) : Prop :=
  pos ≤ j ∧ j ≤ s.length ∧ pat <+: s.drop j ∧ ∀ k, pos ≤ k → k < j → ¬ pat <+: s.drop k

/-- A sample multipart body with boundary `X`, one part header and the payload
`data`. -/
def sample_multipart_body : Str :=
  "--X\r\nContent-Disposition: form-data\r\n\r\ndata\r\n--X--\r\n".toList

/-- A sample body in which no CRLF stands between the payload `data` and the
closing delimiter. -/
def sample_multipart_no_crlf : Str := "--X\r\n\r\ndata--X--".toList

/-! ### The POST and DELETE handlers (`RequestManager.cpp`) -/

/-- The macro `HTTP_PAGE_201_CREATED` of `HttpStatusCode.hpp`. -/
def HTTP_PAGE_201_CREATED : Str :=
  (
    "<!DOCTYPE html><html><head><title>201 - File Uploaded</title><style>body" ++
    "\x7bfont-family:\x27Arial\x27,sans-serif;text-align:center;padding:50px;backgroun" ++
    "d-color:#f8f9fa;color:#343a40;\x7d.container\x7bbackground-color:white;padding" ++
    ":50px;border-radius:12px;box-shadow:0 4px 8px rgba(0,0,0,0.1);max-width:" ++
    "600px;margin:0 auto;animation:fadeIn 0.5s ease-in-out;\x7dh1\x7bfont-size:2.5e" ++
    "m;color:#495057;margin-bottom:20px;\x7dp\x7bcolor:#6c757d;font-size:1.2em;marg" ++
    "in:15px 0;\x7dbutton\x7bbackground-color:#4CAF50;color:white;padding:15px 32px" ++
    ";border:none;text-align:center;text-decoration:none;display:inline-block" ++
    ";font-size:16px;margin:4px 2px;cursor:pointer;border-radius:4px;transiti" ++
    "on:background-color 0.3s ease;\x7dbutton:hover\x7bbackground-color:#45a049;\x7d@k" ++
    "eyframes fadeIn\x7bfrom\x7bopacity:0;transform:translateY(-10px);\x7dto\x7bopacity:1" ++
    ";transform:translateY(0);\x7d\x7d</style></head><body><div class=\"container\"><" ++
    "h1>File Uploaded Successfully</h1><p>Your file is now available in the s" ++
    "erver upload directory.</p><button onclick=\"window.location.href=\x27/\x27\">Re" ++
    "turn to Home</button></div></body></html>").toList

/-- The macro `HTTP_PAGE_204_NO_CONTENT` of `HttpStatusCode.hpp`. -/
def HTTP_PAGE_204_NO_CONTENT : Str :=
  (
    "<!DOCTYPE html><html><head><title>204 - No Content</title><style>body\x7bfo" ++
    "nt-family:\x27Arial\x27,sans-serif;text-align:center;padding:50px;background-c" ++
    "olor:#f8f9fa;color:#343a40;\x7d.container\x7bbackground-color:white;padding:50" ++
    "px;border-radius:12px;box-shadow:0 4px 8px rgba(0,0,0,0.1);max-width:600" ++
    "px;margin:0 auto;animation:fadeIn 0.5s ease-in-out;\x7dh1\x7bfont-size:2.5em;c" ++
    "olor:#495057;margin-bottom:20px;\x7dp\x7bcolor:#6c757d;font-size:1.2em;margin:" ++
    "15px 0;\x7da\x7bcolor:#007bff;text-decoration:none;font-weight:bold;border:2px" ++
    " solid #007bff;padding:10px 20px;border-radius:5px;transition:all 0.3s e" ++
    "ase;\x7da:hover\x7bbackground-color:#007bff;color:white;\x7d@keyframes fadeIn\x7bfro" ++
    "m\x7bopacity:0;transform:translateY(-10px);\x7dto\x7bopacity:1;transform:translat" ++
    "eY(0);\x7d\x7d</style></head><body><div class=\"container\"><h1>204 - No Content" ++
    "</h1><p>The operation was successful, but there is no content to display" ++
    ".</p><p><a href=\"/\">Return to Homepage</a></p></div></body></html>").toList

/-- The macro `HTTP_PAGE_400_BAD_REQUEST` of `HttpStatusCode.hpp`. -/
def HTTP_PAGE_400_BAD_REQUEST : Str :=
  (
    "<!DOCTYPE html><html><head><title>400 - Bad Request</title><style>body\x7bf" ++
    "ont-family:\x27Arial\x27,sans-serif;text-align:center;padding:50px;background-" ++
    "color:#f8f9fa;color:#343a40;\x7d.container\x7bbackground-color:white;padding:5" ++
    "0px;border-radius:12px;box-shadow:0 4px 8px rgba(0,0,0,0.1);max-width:60" ++
    "0px;margin:0 auto;animation:fadeIn 0.5s ease-in-out;\x7dh1\x7bfont-size:2.5em;" ++
    "color:#495057;margin-bottom:20px;\x7dp\x7bcolor:#6c757d;font-size:1.2em;margin" ++
    ":15px 0;\x7da\x7bcolor:#007bff;text-decoration:none;font-weight:bold;border:2p" ++
    "x solid #007bff;padding:10px 20px;border-radius:5px;transition:all 0.3s " ++
    "ease;\x7da:hover\x7bbackground-color:#007bff;color:white;\x7d@keyframes fadeIn\x7bfr" ++
    "om\x7bopacity:0;transform:translateY(-10px);\x7dto\x7bopacity:1;transform:transla" ++
    "teY(0);\x7d\x7d</style></head><body><div class=\"container\"><h1>400 - Bad Reque" ++
    "st</h1><p>Your request was invalid or missing necessary parameters.</p><" ++
    "p>Please check your input and try again.</p><p><a href=\"/\">Return to Hom" ++
    "epage</a></p></div></body></html>").toList

/-- The macro `HTTP_PAGE_404_NOT_FOUND` of `HttpStatusCode.hpp`. -/
def HTTP_PAGE_404_NOT_FOUND : Str :=
  (
    "<!DOCTYPE html><html><head><title>404 - Not Found</title><style>body\x7bfon" ++
    "t-family:\x27Arial\x27,sans-serif;text-align:center;padding:50px;background-co" ++
    "lor:#f8f9fa;color:#343a40;\x7d.container\x7bbackground-color:white;padding:50p" ++
    "x;border-radius:12px;box-shadow:0 4px 8px rgba(0,0,0,0.1);max-width:600p" ++
    "x;margin:0 auto;animation:fadeIn 0.5s ease-in-out;\x7dh1\x7bfont-size:2.5em;co" ++
    "lor:#495057;margin-bottom:20px;\x7dp\x7bcolor:#6c757d;font-size:1.2em;margin:1" ++
    "5px 0;\x7da\x7bcolor:#007bff;text-decoration:none;font-weight:bold;border:2px " ++
    "solid #007bff;padding:10px 20px;border-radius:5px;transition:all 0.3s ea" ++
    "se;\x7da:hover\x7bbackground-color:#007bff;color:white;\x7d@keyframes fadeIn\x7bfrom" ++
    "\x7bopacity:0;transform:translateY(-10px);\x7dto\x7bopacity:1;transform:translate" ++
    "Y(0);\x7d\x7d</style></head><body><div class=\"container\"><h1>404 - Not Found</" ++
    "h1><p>The requested resource could not be found on this server.</p><p><a" ++
    " href=\"/\">Return to Homepage</a></p></div></body></html>").toList

/-- The macro `HTTP_PAGE_405_METHOD_NOT_ALLOWED` of `HttpStatusCode.hpp`. -/
def HTTP_PAGE_405_METHOD_NOT_ALLOWED : Str :=
  (
    "<!DOCTYPE html><html><head><title>405 - Method Not Allowed</title><style" ++
    ">body\x7bfont-family:\x27Arial\x27,sans-serif;text-align:center;padding:50px;back" ++
    "ground-color:#f8f9fa;color:#343a40;\x7d.container\x7bbackground-color:white;pa" ++
    "dding:50px;border-radius:12px;box-shadow:0 4px 8px rgba(0,0,0,0.1);max-w" ++
    "idth:600px;margin:0 auto;animation:fadeIn 0.5s ease-in-out;\x7dh1\x7bfont-size" ++
    ":2.5em;color:#495057;margin-bottom:20px;\x7dp\x7bcolor:#6c757d;font-size:1.2em" ++
    ";margin:15px 0;\x7da\x7bcolor:#007bff;text-decoration:none;font-weight:bold;bo" ++
    "rder:2px solid #007bff;padding:10px 20px;border-radius:5px;transition:al" ++
    "l 0.3s ease;\x7da:hover\x7bbackground-color:#007bff;color:white;\x7d@keyframes fa" ++
    "deIn\x7bfrom\x7bopacity:0;transform:translateY(-10px);\x7dto\x7bopacity:1;transform:" ++
    "translateY(0);\x7d\x7d</style></head><body><div class=\x27container\x27><h1>405 - Me" ++
    "thod Not Allowed</h1><p>POST requests are not allowed on this route.</p>" ++
    "<p><a href=\x27/\x27>Return to Homepage</a></p></div></body></html>").toList

/-- The macro `HTTP_PAGE_413_PAYLOAD_TOO_LARGE` of `HttpStatusCode.hpp`. -/
def HTTP_PAGE_413_PAYLOAD_TOO_LARGE : Str :=
  (
    "<!DOCTYPE html><html><head><title>413 - Payload Too Large</title><style>" ++
    "body\x7bfont-family:\x27Arial\x27,sans-serif;text-align:center;padding:50px;backg" ++
    "round-color:#f8f9fa;color:#343a40;\x7d.container\x7bbackground-color:white;pad" ++
    "ding:50px;border-radius:12px;box-shadow:0 4px 8px rgba(0,0,0,0.1);max-wi" ++
    "dth:600px;margin:0 auto;animation:fadeIn 0.5s ease-in-out;\x7dh1\x7bfont-size:" ++
    "2.5em;color:#495057;margin-bottom:20px;\x7dp\x7bcolor:#6c757d;font-size:1.2em;" ++
    "margin:15px 0;\x7da\x7bcolor:#007bff;text-decoration:none;font-weight:bold;bor" ++
    "der:2px solid #007bff;padding:10px 20px;border-radius:5px;transition:all" ++
    " 0.3s ease;\x7da:hover\x7bbackground-color:#007bff;color:white;\x7d@keyframes fad" ++
    "eIn\x7bfrom\x7bopacity:0;transform:translateY(-10px);\x7dto\x7bopacity:1;transform:t" ++
    "ranslateY(0);\x7d\x7d</style></head><body><div class=\"container\"><h1>413 - Pay" ++
    "load Too Large</h1><p>File too large. Maximum size is 10MB.</p><p><a hre" ++
    "f=\"/\">Return to Homepage</a></p></div></body></html>").toList

/-- Outcomes of the system calls of the POST and DELETE handlers that the
file-system model does not determine: the clock, whether `open` for writing
succeeds, how many bytes `write` stores (`none` for a negative return), and
whether `std::remove` succeeds. -/
structure SystemCalls where
  time : Int
  open_succeeds : FileSystem → Str → Bool
  bytes_written : FileSystem → Str → Str → Option Nat
  remove_succeeds : FileSystem → Str → Bool

/-- The file system in which `path` names `node` and every other path names
what it named before. -/
def FileSystem.store (fs : FileSystem) (path : Str) (node : Option FsNode) : FileSystem :=
  fun p => if p = path then node else fs p

/-- Model of `Route::is_http_method_allowed`. -/
def Route.is_http_method_allowed (r : Route) (http_method : HttpMethod) : Bool :=
  decide (http_method ∈ r.allowed_http_methods)

/-- The upload directory computed by the POST and DELETE handlers: file-system
root, `/`, the route's upload directory, without a leading `./`. -/
def upload_directory_of (url_route : Route) : Str :=
  let upload_directory := url_route.file_system_root ++ ['/'] ++ url_route.upload_directory
  if upload_directory.take 2 = "./".toList then upload_directory.drop 2 else upload_directory

/-- The response of the handlers for a status with a built-in page: status
code, content type `text/html`, and the page as body. -/
def page_response (http_response : HttpResponse) (status : Int) (page : Str) : HttpResponse :=
  ((http_response.set_http_response_status_code status).set_http_response_content_type
    "text/html".toList).set_http_response_body page

/-- The size test at the head of `handle_http_post_request`: whether the
request has a `content-length` header whose value exceeds the limit; `stoull`
may raise. -/
def post_exceeds_limit (config : ServerConfiguration) (http_request : HttpRequest) :
    Except String Bool :=
  if http_request.has_http_request_header "content-length".toList then
    match stoull (http_request.get_http_request_header "content-length".toList) with
    | Except.error e => Except.error e
    | Except.ok http_post_request_expected_length =>
      Except.ok (decide (http_post_request_expected_length > config.max_post_request_size))
  else Except.ok false

/-- The file name and the bytes to store chosen by `handle_http_post_request`
(before the fallback for an empty name); `remove_http_request_boundary` may
raise. -/
def post_file_name_and_body (sys : SystemCalls) (http_request : HttpRequest) :
    Except String (Str × Str) :=
  if !http_request.has_http_request_header "content-length".toList ∨
      http_request.get_http_request_header "content-length".toList = "0".toList then
    Except.ok ("empty_post_".toList ++ int_to_string sys.time ++ ".txt".toList, [])
  else if (find (http_request.get_http_request_header "Content-Type".toList)
        "multipart/form-data".toList).isSome ∧ http_request.http_request_boundary ≠ [] then
    match remove_http_request_boundary http_request.http_request_body
        http_request.http_request_boundary with
    | Except.error e => Except.error e
    | Except.ok http_post_request_processed_body =>
      match find http_request.http_request_body "filename=\"".toList with
      | none => Except.ok ([], http_post_request_processed_body)
      | some filename_start_index0 =>
        let filename_start_index := filename_start_index0 + "filename=\"".toList.length
        match find_from http_request.http_request_body "\"".toList filename_start_index with
        | none => Except.ok ([], http_post_request_processed_body)
        | some filename_end_index =>
          Except.ok ((http_request.http_request_body.drop filename_start_index).take
            (filename_end_index - filename_start_index), http_post_request_processed_body)
  else
    Except.ok ("post_".toList ++ int_to_string sys.time ++ ".txt".toList,
      http_request.http_request_body)

/-- Model of `RequestManager::handle_http_post_request`: the response object
and the file system after the call. An exception thrown inside the `try` block
sets status 500 on the response as it stands. A successful `open` creates or
truncates the file; a successful `write` stores the bytes written. -/
def handle_http_post_request (sys : SystemCalls) (config : ServerConfiguration)
    (fs : FileSystem) (url : Str) (http_request : HttpRequest) (http_response : HttpResponse)
    (server_listening_port : Int) : HttpResponse × FileSystem :=
  match post_exceeds_limit config http_request with
  | Except.error _ => (http_response.set_http_response_status_code 500, fs)
  | Except.ok true => (page_response http_response 413 HTTP_PAGE_413_PAYLOAD_TOO_LARGE, fs)
  | Except.ok false =>
    match find_url_route_for_listening_port config.url_routes server_listening_port url with
    | none => (page_response http_response 405 HTTP_PAGE_405_METHOD_NOT_ALLOWED, fs)
    | some url_route =>
      if !url_route.is_http_method_allowed HttpMethod.POST then
        (page_response http_response 405 HTTP_PAGE_405_METHOD_NOT_ALLOWED, fs)
      else
        let upload_directory := upload_directory_of url_route
        match post_file_name_and_body sys http_request with
        | Except.error _ => (http_response.set_http_response_status_code 500, fs)
        | Except.ok (filename0, http_post_request_processed_body) =>
          let filename :=
            if filename0 = [] then "unnamed_".toList ++ int_to_string sys.time ++ ".txt".toList
            else filename0
          let filepath := upload_directory ++ ['/'] ++ filename
          if !sys.open_succeeds fs filepath then
            (http_response.set_http_response_status_code 500, fs)
          else
            let fs1 := fs.store filepath (some (FsNode.file []))
            if http_post_request_processed_body ≠ [] then
              match sys.bytes_written fs1 filepath http_post_request_processed_body with
              | none => (http_response.set_http_response_status_code 500, fs1)
              | some count =>
                (page_response http_response 201 HTTP_PAGE_201_CREATED,
                  fs1.store filepath
                    (some (FsNode.file (http_post_request_processed_body.take count))))
            else (page_response http_response 201 HTTP_PAGE_201_CREATED, fs1)

/-- The text after the last `/` of the URL, `url.substr(url.find_last_of('/') +
1)`; without a `/` the index `npos + 1` wraps to 0 and the whole URL is taken. -/
def last_path_segment (url : Str) : Str :=
  match find_last_of url '/' with
  | some i => url.drop (i + 1)
  | none => url

/-- Model of `RequestManager::handle_http_delete_request`: the response object
and the file system after the call. An exception thrown inside the `try` block
is answered with status 500 and the built-in 500 page. -/
def handle_http_delete_request (sys : SystemCalls) (config : ServerConfiguration)
    (fs : FileSystem) (url : Str) (http_response : HttpResponse)
    (server_listening_port : Int) : HttpResponse × FileSystem :=
  match find_url_route_for_listening_port config.url_routes server_listening_port url with
  | none => (http_response.set_http_response_status_code 403, fs)
  | some url_route =>
    if !url_route.is_http_method_allowed HttpMethod.DELETE then
      (page_response http_response 405 HTTP_PAGE_405_METHOD_NOT_ALLOWED, fs)
    else
      let upload_directory := upload_directory_of url_route
      let encoded_filename := last_path_segment url
      match url_decode encoded_filename with
      | Except.error _ =>
        (page_response http_response 500 HTTP_PAGE_500_INTERNAL_SERVER_ERROR, fs)
      | Except.ok filename =>
        if filename = [] then (page_response http_response 400 HTTP_PAGE_400_BAD_REQUEST, fs)
        else
          let filepath := upload_directory ++ ['/'] ++ filename
          if !file_exists fs filepath then
            (page_response http_response 404 HTTP_PAGE_404_NOT_FOUND, fs)
          else if !sys.remove_succeeds fs filepath then
            (page_response http_response 500 HTTP_PAGE_500_INTERNAL_SERVER_ERROR, fs)
          else (page_response http_response 204 HTTP_PAGE_204_NO_CONTENT, fs.store filepath none)

/-- Sample system calls: the clock reads 1000, and every `open`, `write` and
`remove` succeeds. -/
def sample_system_calls : SystemCalls :=
  { time := 1000
    open_succeeds := fun _ _ => true
    bytes_written := fun _ _ data => some data.length
    remove_succeeds := fun _ _ => true }

/-- A sample configuration whose route `/` on port 8080 allows GET, POST and
DELETE, with a POST limit of 4 bytes. -/
def sample_upload_configuration : ServerConfiguration :=
  { max_post_request_size := 4
    url_routes :=
      [{ start_url_route "./www".toList "/".toList 8080 with
          allowed_http_methods := [HttpMethod.GET, HttpMethod.POST, HttpMethod.DELETE] }]
    default_error_page_path := "error.html".toList
    root_directory := "./www".toList }

/-! ### The CGI handler (`CGIHandler.cpp`) -/

/-- What the CGI handler obtains from outside the code modelled here:
`realpath` of the script path (`none` when it fails), the result of
`execute_cgi_script` (script path, interpreter, environment map and request
body go in; the output of the script or the message of the exception comes
out), and the uninitialised data that `unchunk_request_body` may read. -/
structure CgiSystem where
  realpath : Str → Option Str
  execute_cgi_script : Str → Str → StdMap → Str → Except String Str
  uninit : Nat → Char
  chunk_size0 : Nat

/-- The name of the variable that `setup_environment` derives from a request
header name: `HTTP_` in front, `std::toupper` on every character, then every
`-` replaced by `_`. -/
def http_header_variable (key : Str) : Str :=
  (to_upper ("HTTP_".toList ++ key)).map (fun c => if c = '-' then '_' else c)

/-- The `for` loop of `setup_environment` over the request headers still to
visit, in the order of the header map. -/
def setup_environment_headers (environment : StdMap) : List (Str × Str) → StdMap
  | [] => environment
  | header :: rest =>
    setup_environment_headers (environment.set (http_header_variable header.1) header.2) rest

/-- Model of `m[k]` read for its value: the value stored, or the empty string
that `operator[]` inserts when the key is absent. -/
def StdMap.at (m : StdMap) (k : Str) : Str := (m.get k).getD []

/-- The assignments of `setup_environment` before the loop over the request
headers, in source order, on the cleared map; `absolute_script_path` is the
result of `realpath`. -/
def setup_environment_base (request : HttpRequest) (absolute_script_path : Str) : StdMap :=
  let url := request.http_request_url
  let query_string :=
    match find_char url '?' with
    | some query_position => url.drop (query_position + 1)
    | none => []
  let path_info :=
    match find_char url '?' with
    | some query_position => url.take query_position
    | none => url
  let e0 : StdMap := StdMap.set [] "GATEWAY_INTERFACE".toList "CGI/1.1".toList
  let e1 : StdMap := e0.set "SERVER_PROTOCOL".toList request.http_request_version
  let e2 : StdMap := e1.set "REDIRECT_STATUS".toList "200".toList
  let e3 : StdMap := e2.set "REQUEST_METHOD".toList
    (if request.http_request_method = HttpMethod.GET then "GET".toList else "POST".toList)
  let e4 : StdMap := e3.set "PATH_INFO".toList path_info
  let e5 : StdMap := e4.set "PATH_TRANSLATED".toList absolute_script_path
  let e6 : StdMap := e5.set "SCRIPT_NAME".toList absolute_script_path
  let e7 : StdMap := e6.set "SCRIPT_FILENAME".toList absolute_script_path
  let e8 : StdMap := e7.set "QUERY_STRING".toList query_string
  let e9 : StdMap := e8.set "REQUEST_URI".toList url
  if request.http_request_method = HttpMethod.POST then
    (e9.set "CONTENT_LENGTH".toList
      (request.get_http_request_header "Content-Length".toList)).set
      "CONTENT_TYPE".toList (request.get_http_request_header "Content-Type".toList)
  else e9

/-- The two tests of `setup_environment` after the loop: an empty
`REQUEST_METHOD` becomes `GET`, and an empty `QUERY_STRING` is assigned the
empty string. -/
def setup_environment_finish (environment : StdMap) : StdMap :=
  let e1 : StdMap :=
    if environment.at "REQUEST_METHOD".toList = [] then
      environment.set "REQUEST_METHOD".toList "GET".toList
    else environment
  if e1.at "QUERY_STRING".toList = [] then e1.set "QUERY_STRING".toList [] else e1

/-- Model of `CGIHandler::setup_environment`: the environment map it builds
for the script at `script_path`, or the exception when `realpath` fails. -/
def CGIHandler.setup_environment (sys : CgiSystem) (script_path : Str) (request : HttpRequest) :
    Except String StdMap :=
  match sys.realpath script_path with
  | none => Except.error "Failed to resolve real path for script"
  | some absolute_script_path =>
    Except.ok (setup_environment_finish
      (setup_environment_headers (setup_environment_base request absolute_script_path)
        request.http_request_headers))

/-- One line of the header part of a CGI output as the loop of
`handle_request` reads it: `none` for an empty line, a lone `\r` and a line
without `: `; else the text before the first `: ` and the text after it
without a final `\r`. On an empty value `value.back()` reads outside the
string; the model takes it not to be `\r`. -/
def cgi_header_line (header_line : Str) : Option (Str × Str) :=
  if header_line = [] ∨ header_line = ['\r'] then none
  else
    match find header_line ": ".toList with
    | none => none
    | some colon_pos =>
      let key := header_line.take colon_pos
      let value := header_line.drop (colon_pos + 2)
      some (key, if value.getLast? = some '\r' then value.dropLast else value)

/-- The `while (std::getline(header_stream, header_line))` loop of
`handle_request` over the lines still to come. -/
def cgi_header_lines (response : HttpResponse) : List Str → HttpResponse
  | [] => response
  | header_line :: rest =>
    match cgi_header_line header_line with
    | none => cgi_header_lines response rest
    | some (key, value) =>
      cgi_header_lines (response.set_http_response_header key value) rest

/-- The request body that `handle_request` hands to the script: empty unless
the method is POST; the request body, unchunked when `Transfer-Encoding` is
`chunked`. -/
def cgi_request_body (sys : CgiSystem) (request : HttpRequest) : Str :=
  if request.http_request_method = HttpMethod.POST then
    if request.get_http_request_header "Transfer-Encoding".toList = "chunked".toList then
      match unchunk_request_body sys.uninit sys.chunk_size0 request.http_request_body with
      | some unchunked => unchunked
      | none => request.http_request_body
    else request.http_request_body
  else []

/-- The `catch` block of `handle_request`: status 500 and the message as body. -/
def cgi_failure (response : HttpResponse) (what : String) : HttpResponse :=
  (response.set_http_response_status_code 500).set_http_response_body
    ("CGI execution failed: ".toList ++ what.toList)

/-- The part of `handle_request` after the script has run: the output is split
at the first CRLF CRLF into header lines and body, or taken whole as an HTML
body; then the status is set to 200. -/
def cgi_response_of_output (response : HttpResponse) (cgi_output : Str) : HttpResponse :=
  match find cgi_output "\r\n\r\n".toList with
  | none =>
    ((response.set_http_response_content_type "text/html".toList).set_http_response_body
      cgi_output).set_http_response_status_code 200
  | some header_end =>
    let headers := cgi_output.take header_end
    let body := cgi_output.drop (header_end + 4)
    ((cgi_header_lines response (getlines headers)).set_http_response_body
      body).set_http_response_status_code 200

/-- Model of `CGIHandler::handle_request` for a handler constructed with
`script_path` and `cgi_executable`: the response object after the call. -/
def CGIHandler.handle_request (sys : CgiSystem) (script_path cgi_executable : Str)
    (request : HttpRequest) (response : HttpResponse) : HttpResponse :=
  match CGIHandler.setup_environment sys script_path request with
  | Except.error what => cgi_failure response what
  | Except.ok environment =>
    match sys.execute_cgi_script script_path cgi_executable environment
        (cgi_request_body sys request) with
    | Except.error what => cgi_failure response what
    | Except.ok cgi_output => cgi_response_of_output response cgi_output

/-- The environment of the GET handler in which a CGI script is run through
`CGIHandler::handle_request`. -/
def Environment.with_cgi (env : Environment) (sys : CgiSystem) : Environment :=
  { env with
    cgi_handle_request := fun _ script_path cgi_executable request response =>
      CGIHandler.handle_request sys script_path cgi_executable request response }

/-- A sample CGI system: `realpath` puts `/srv/` in front, and every script
prints the given output. -/
def sample_cgi_system (output : Str) : CgiSystem :=
  { realpath := fun script_path => some ("/srv/".toList ++ script_path)
    execute_cgi_script := fun _ _ _ _ => Except.ok output
    uninit := fun _ => 'x'
    chunk_size0 := 0 }

/-- A sample request state: a GET for `/s.py?q=1` with the headers `x-a: 1`
and `x_a: 2`. -/
def sample_cgi_request : HttpRequest :=
  { http_request_method := HttpMethod.GET
    http_request_url := "/s.py?q=1".toList
    http_request_version := "HTTP/1.1".toList
    http_request_body := []
    raw_http_request_data := "GET /s.py?q=1 HTTP/1.1\r\nx-a: 1\r\nx_a: 2\r\n\r\n".toList
    http_request_boundary := []
    is_http_request_complete := true
    are_http_headers_complete := true
    is_http_request_multipart := false
    http_request_body_start_index := 42
    http_request_headers := [("x-a".toList, "1".toList), ("x_a".toList, "2".toList)] }

/-- A sample CGI output with a `Status` line, a `Content-Type` line and the
body `hi`. -/
def sample_cgi_output : Str :=
  "Status: 404 Not Found\r\nContent-Type: text/plain\r\n\r\nhi".toList

/-- A sample CGI output whose header part announces a `Content-Length` of
999 for the body `hi`. -/
def sample_cgi_output_length : Str := "Content-Length: 999\r\n\r\nhi".toList

/-! ### The `Content-Length` field of a response -/

/-- The header fields of a response whose name is `Content-Length`. -/
def content_length_entries (r : HttpResponse) : List (Str × Str) :=
  r.http_response_headers.filter (fun e => decide (e.1 = "Content-Length".toList))

/-- The header fields of a response whose name is `content-length` when names
are compared without regard to case. -/
def content_length_fields (r : HttpResponse) : List (Str × Str) :=
  r.http_response_headers.filter (fun e => decide (to_lower e.1 = "content-length".toList))

/-- A header name that equals `content-length` without regard to case is
spelled `Content-Length`. -/
def plain_name (name : Str) : Prop :=
  to_lower name = "content-length".toList → name = "Content-Length".toList

/-- The header map is in key order and all its names satisfy `K`. -/
def HttpResponse.headers_ok (K : Str → Prop) (r : HttpResponse) : Prop :=
  r.http_response_headers.Ordered ∧ ∀ e ∈ r.http_response_headers, K e.1

/-- With a non-empty body, the header `Content-Length` holds the decimal
length of the body. -/
def HttpResponse.length_ok (r : HttpResponse) : Prop :=
  r.http_response_body ≠ [] →
    r.http_response_headers.get "Content-Length".toList =
      some (to_string r.http_response_body.length)

/-- Every header line of every output of a script run by `sys` has a name that
satisfies `K`. -/
def CgiSystem.names_ok (K : Str → Prop) (sys : CgiSystem) : Prop :=
  ∀ script_path cgi_executable environment request_body cgi_output,
    sys.execute_cgi_script script_path cgi_executable environment request_body =
      Except.ok cgi_output →
    ∀ header_end, find cgi_output "\r\n\r\n".toList = some header_end →
    ∀ line ∈ getlines (cgi_output.take header_end),
    ∀ kv, cgi_header_line line = some kv → K kv.1

/-- A sample CGI output whose header part has a `content-length` line in lower
case. -/
def sample_cgi_output_lower : Str := "content-length: 5\r\n\r\nhi".toList

/-- The header names that the response class and the GET, POST and DELETE
handlers assign themselves. -/
def response_header_names : List Str :=
  ["Date".toList, "Server".toList, "Connection".toList, "Content-Type".toList,
    "Content-Length".toList, "Location".toList]

/-- The state of a response that the handlers preserve: the header map is in
key order with names that satisfy `K`, and `Content-Length` holds the length of
a non-empty body. -/
def HttpResponse.kept (K : Str → Prop) (r : HttpResponse) : Prop :=
  r.headers_ok K ∧ r.length_ok

/-! ### Sample inputs of the chunked-body decoder -/

/-- A chunked body whose first chunk-size line, `zz`, is not a hexadecimal
number. -/
def sample_chunked_bad_size : Str := "zz\r\nabc\r\n0\r\n\r\n".toList

/-- A chunked body that announces five chunk bytes and ends after two. -/
def sample_chunked_truncated : Str := "5\r\nab".toList

/-- A POST request state with `Transfer-Encoding: chunked` whose body is
`sample_chunked_bad_size`. -/
def sample_chunked_request : HttpRequest :=
  { HttpRequest.create with
    http_request_method := HttpMethod.POST
    http_request_url := "/s.py".toList
    http_request_version := "HTTP/1.1".toList
    http_request_body := sample_chunked_bad_size
    is_http_request_complete := true
    are_http_headers_complete := true
    http_request_headers := [("transfer-encoding".toList, "chunked".toList)] }

/-- A sample request as it arrives from the client: a POST with
`Transfer-Encoding: chunked` and a `Content-Length` of fourteen bytes, whose
body is `sample_chunked_bad_size`. -/
def sample_chunked_post : Str :=
  "POST /s.py HTTP/1.1\r\nTransfer-Encoding: chunked\r\nContent-Length: 14\r\n\r\nzz\r\nabc\r\n0\r\n\r\n".toList

/-- The request state that `process_incoming_http_request` leaves when
`sample_chunked_post` is fed to a fresh `HttpRequest`. -/
def sample_chunked_parsed : HttpRequest :=
  match HttpRequest.create.process_incoming_http_request sample_chunked_post with
  | Except.ok (request, _) => request
  | Except.error _ => HttpRequest.create

/-! ### The header map, in the words of the specification -/

/-- A line of the header block without its final CR. -/
def spec_line (line0 : Str) : Str :=
  if line0.getLast? = some '\r' then line0.dropLast else line0

/-- The entry that a line with a `:` stands for: the lowercased text before
the first `:`, and the text after it with leading spaces removed and trailing
spaces, tabs, CR and LF removed; `none` for a line without `:`. -/
def spec_header_entry (line : Str) : Option (Str × Str) :=
  if ':' ∈ line then
    some (to_lower (line.takeWhile (fun c => c != ':')),
      (((line.dropWhile (fun c => c != ':')).drop 1).dropWhile (fun c => c == ' ')).rdropWhile
        (fun c => c == ' ' || c == '\t' || c == '\r' || c == '\n'))
  else none

/-- The entries of a header block, in order: the lines up to the first blank
line, each read as an entry when it contains `:`. -/
def spec_header_entries (lines : List Str) : List (Str × Str) :=
  ((lines.map spec_line).takeWhile (fun line => decide (line ≠ []))).filterMap
    spec_header_entry

/-- The value that the entries give a name: the value of the last entry with
that name, if there is one. -/
def spec_last_value (entries : List (Str × Str)) (name : Str) : Option Str :=
  (entries.reverse.find? (fun e => decide (e.1 = name))).map (fun e => e.2)

/-- A sample header block: a line without `:`, a name that occurs twice, and a
line after the blank line. -/
def sample_header_block : Str :=
  "Host: a\r\nno colon here\r\nX-Tag:  one \t\r\nx-tag: two\r\n\r\nLate: z\r\n".toList

/-! ### Multipart bodies -/

/-- The multipart body with one part: delimiter `--` boundary, CRLF, the part
headers `H`, CRLF CRLF, the payload `P`, CRLF, the closing delimiter `--`
boundary `--`, CRLF. -/
def multipart_body (boundary H P : Str) : Str :=
  "--".toList ++ boundary ++ "\r\n".toList ++ H ++ "\r\n\r\n".toList ++ P ++ "\r\n".toList ++
    "--".toList ++ boundary ++ "--".toList ++ "\r\n".toList

/-! ### Sample uploads and deletions -/

/-- The body of a sample multipart upload whose `filename` parameter is
`../evil.txt`. -/
def sample_upload_body : Str :=
  ("--X\r\nContent-Disposition: form-data; name=\"f\"; filename=\"../evil.txt\"\r\n\r\n" ++
    "data\r\n--X--\r\n").toList

/-- A sample multipart upload request with the body `sample_upload_body`. -/
def sample_upload_raw : Str :=
  ("POST /up HTTP/1.1\r\nContent-Type: multipart/form-data; boundary=X\r\n" ++
    "Content-Length: 86\r\n\r\n").toList ++ sample_upload_body

/-- The state in which the single call on `sample_upload_raw` leaves a fresh
`HttpRequest`. -/
def sample_upload_request : HttpRequest :=
  { http_request_method := HttpMethod.POST
    http_request_url := "/up".toList
    http_request_version := "HTTP/1.1".toList
    http_request_body := sample_upload_body
    raw_http_request_data := sample_upload_raw
    http_request_boundary := "X".toList
    is_http_request_complete := true
    are_http_headers_complete := true
    is_http_request_multipart := true
    http_request_body_start_index := 88
    http_request_headers :=
      [("content-length".toList, "86".toList),
        ("content-type".toList, "multipart/form-data; boundary=X".toList)] }

/-- The sample upload configuration with the POST limit of the source,
10 MB. -/
def sample_upload_configuration_large : ServerConfiguration :=
  { sample_upload_configuration with max_post_request_size := 10485760 }

/-- A sample file system in which `www/./upload/../secret.txt` names a file. -/
def sample_file_system_upload : FileSystem := fun path =>
  if path = "www/./upload/../secret.txt".toList then some (FsNode.file "s".toList) else none

/-! ### The event loop (`Server.cpp`) -/

/-- The `pollfd` structure: descriptor, requested events and returned events
as bit sets. -/
structure PollFd where
  fd : Int
  events : Nat
  revents : Nat
  deriving DecidableEq, Repr

/-- The bit `POLLIN` of `poll.h`. -/
def POLLIN : Nat := 1

/-- What the server obtains from outside the code modelled here: the
environment and the system calls of the handlers, the text of the `Date`
header at the time a response is constructed, the port that `getsockname`
reports for a descriptor, and the request that a read through a reference to
an erased map element yields. -/
structure World where
  env : Environment
  sys : SystemCalls
  date : Str
  port_of : Int → Int
  dangling : HttpRequest

/-- The data members of class `Server` that the client steps use, the file
system they act on, and two logs kept for the statements below: the
descriptors passed to `close` and the responses passed to
`send_http_response`, in call order. -/
structure Server where
  poll_file_descriptors : List PollFd
  client_http_requests : Int → Option HttpRequest
  server_file_descriptors : List Int
  file_system : FileSystem
  closed : List Int
  sent : List (Int × HttpResponse)

/-- Model of `client_http_requests.erase(fd)`. -/
def erase_request (requests : Int → Option HttpRequest) (fd : Int) : Int → Option HttpRequest :=
  fun k => if k = fd then none else requests k

/-- Model of `client_http_requests[fd] = request`. -/
def store_request (requests : Int → Option HttpRequest) (fd : Int) (request : HttpRequest) :
    Int → Option HttpRequest :=
  fun k => if k = fd then some request else requests k

/-- The loop at the end of `send_http_response`: the first entry of
`poll_file_descriptors` with the descriptor `fd` is erased. -/
def erase_first_fd : List PollFd → Int → List PollFd
  | [], _ => []
  | p :: rest, fd => if p.fd = fd then rest else p :: erase_first_fd rest fd

/-- Model of `Server::send_http_response`. Whatever `send` returns, the
descriptor is closed, the request is erased, and the first poll entry of the
descriptor is erased. -/
def Server.send_http_response (s : Server) (client_file_descriptor : Int)
    (http_response : HttpResponse) : Server :=
  { s with
    sent := s.sent ++ [(client_file_descriptor, http_response)]
    closed := s.closed ++ [client_file_descriptor]
    client_http_requests := erase_request s.client_http_requests client_file_descriptor
    poll_file_descriptors := erase_first_fd s.poll_file_descriptors client_file_descriptor }

/-- The response that `determine_http_method_from_http_request` builds and the
file system after the handler ran: the `switch` on the method of the request.
The configuration pointer is not null (the constructor of `Server` throws on a
null pointer), and the handlers catch their exceptions themselves. -/
def dispatch_response (w : World) (config : ServerConfiguration) (fs : FileSystem)
    (client_file_descriptor : Int) (http_request : HttpRequest) : HttpResponse × FileSystem :=
  let http_response := HttpResponse.create w.date
  let server_listening_port := w.port_of client_file_descriptor
  match http_request.http_request_method with
  | HttpMethod.GET =>
    (handle_http_get_request w.env config fs http_request.http_request_url http_request
      http_response server_listening_port, fs)
  | HttpMethod.POST =>
    handle_http_post_request w.sys config fs http_request.http_request_url http_request
      http_response server_listening_port
  | HttpMethod.DELETE =>
    handle_http_delete_request w.sys config fs http_request.http_request_url http_response
      server_listening_port
  | HttpMethod.UNKNOWN => (http_response.set_http_response_status_code 405, fs)

/-- Model of `Server::determine_http_method_from_http_request`: the response
of the handler selected by the method is sent. -/
def Server.determine_http_method_from_http_request (w : World) (config : ServerConfiguration)
    (s : Server) (client_file_descriptor : Int) (http_request : HttpRequest) : Server :=
  let result := dispatch_response w config s.file_system client_file_descriptor http_request
  ({ s with file_system := result.2 } : Server).send_http_response client_file_descriptor
    result.1

/-- Model of `poll_file_descriptors[index].events = POLLIN`; an index past the
end changes nothing in the model. -/
def set_events_pollin (poll_file_descriptors : List PollFd) (index : Nat) : List PollFd :=
  match poll_file_descriptors.get? index with
  | some p => poll_file_descriptors.set index { p with events := POLLIN }
  | none => poll_file_descriptors

/-- The body of the 413 answer of `handle_http_request_client`. -/
def PAGE_413_SHORT : Str :=
  ("<html><body><h1>413 Payload Too Large</h1>" ++
    "<p>File too large. Maximum size is 10MB.</p></body></html>").toList

/-- Model of `Server::handle_http_request_client` for the poll entry at
`index` (the source calls it with an index inside the vector; the model leaves
the state alone otherwise). `read_result` is what `read` delivered: `none` for
a negative return, else the bytes. An exception of the parser or of
`std::stoul` leaves the function. After the branch for an incomplete request,
which has no `return`, the source goes on to read the erased request through
the reference `http_request`; `w.dangling` stands for what it reads there. -/
def Server.handle_http_request_client (w : World) (config : ServerConfiguration) (s : Server)
    (index : Nat) (read_result : Option Str) : Except String Server :=
  match s.poll_file_descriptors.get? index with
  | none => Except.ok s
  | some entry =>
    let client_file_descriptor := entry.fd
    let http_request0 := (s.client_http_requests client_file_descriptor).getD HttpRequest.create
    let close_and_drop (t : Server) : Server :=
      { t with
        closed := t.closed ++ [client_file_descriptor]
        poll_file_descriptors := t.poll_file_descriptors.eraseIdx index
        client_http_requests := erase_request t.client_http_requests client_file_descriptor }
    match read_result with
    | none =>
      Except.ok (close_and_drop { s with
        client_http_requests :=
          store_request s.client_http_requests client_file_descriptor http_request0 })
    | some data =>
      match http_request0.process_incoming_http_request data with
      | Except.error e => Except.error e
      | Except.ok (http_request, is_http_request_complete) =>
        let s1 : Server := { s with
          client_http_requests :=
            store_request s.client_http_requests client_file_descriptor http_request }
        if !is_http_request_complete then
          let s2 := close_and_drop s1
          if w.dangling.has_http_request_header "Content-Length".toList then
            match stoull (w.dangling.get_http_request_header "Content-Length".toList) with
            | Except.error e => Except.error e
            | Except.ok _ =>
              Except.ok { s2 with
                poll_file_descriptors := set_events_pollin s2.poll_file_descriptors index }
          else Except.ok s2
        else if http_request.http_request_body = "413 Payload Too Large".toList then
          let http_response :=
            (((HttpResponse.create w.date).set_http_response_status_code
              413).set_http_response_content_type "text/html".toList).set_http_response_body
              PAGE_413_SHORT
          Except.ok (close_and_drop (s1.send_http_response client_file_descriptor
            http_response))
        else if http_request.has_http_request_header "Content-Length".toList then
          match stoull (http_request.get_http_request_header "Content-Length".toList) with
          | Except.error e => Except.error e
          | Except.ok expected_http_request_length =>
            if http_request.http_request_body.length ≥ expected_http_request_length then
              let s2 := Server.determine_http_method_from_http_request w config s1
                client_file_descriptor http_request
              Except.ok { s2 with
                client_http_requests :=
                  erase_request s2.client_http_requests client_file_descriptor }
            else
              Except.ok { s1 with
                poll_file_descriptors := set_events_pollin s1.poll_file_descriptors index }
        else
          let s2 := Server.determine_http_method_from_http_request w config s1
            client_file_descriptor http_request
          Except.ok { s2 with
            client_http_requests :=
              erase_request s2.client_http_requests client_file_descriptor }

/-- A sample world: the sample environment and system calls, an empty date,
every descriptor on port 8080, and a fresh request behind a dangling
reference. -/
def sample_world : World :=
  { env := sample_environment
    sys := sample_system_calls
    date := []
    port_of := fun _ => 8080
    dangling := HttpRequest.create }

/-- A sample server state: the listening descriptor 3 and two accepted clients,
4 and 5, each with a fresh request. -/
def sample_server : Server :=
  { poll_file_descriptors :=
      [{ fd := 3, events := POLLIN, revents := 0 }, { fd := 4, events := POLLIN, revents := 0 },
        { fd := 5, events := POLLIN, revents := 0 }]
    client_http_requests := fun k => if k = 4 ∨ k = 5 then some HttpRequest.create else none
    server_file_descriptors := [3]
    file_system := sample_file_system
    closed := []
    sent := [] }

/-- The state that a step of `handle_http_request_client` returned, or the
given state when the step raised. -/
def state_or (s : Server) (x : Except String Server) : Server :=
  match x with
  | Except.ok t => t
  | Except.error _ => s

/-- A sample request: a POST whose body is the text `413 Payload Too Large`. -/
def sample_post_sentinel : Str :=
  "POST /u HTTP/1.1\r\nContent-Length: 21\r\n\r\n413 Payload Too Large".toList

/-- A sample read: the request line of a GET, without the header terminator. -/
def sample_partial_read : Str := "GET / HTTP/1.1\r\n".toList

/-- A sample request with a method that is not GET, POST or DELETE. -/
def sample_put_request : Str := "PUT / HTTP/1.1\r\nHost: a\r\n\r\n".toList

/-- The sample world with every descriptor on port 9090, on which the sample
configurations have no route. -/
def sample_world_other_port : World := { sample_world with port_of := fun _ => 9090 }

/-- The sample world in which `open` for writing fails. -/
def sample_world_no_open : World :=
  { sample_world with sys := { sample_system_calls with open_succeeds := fun _ _ => false } }

/-- The responses passed to `send_http_response` in a step, or none when the
step raised. -/
def sent_in (x : Except String Server) : List (Int × HttpResponse) :=
  match x with
  | Except.ok t => t.sent
  | Except.error _ => []

/-! ### The size directives of the configuration (`Parse.cpp`) -/

/-- The three byte limits of class `ServerConfiguration`, with the defaults of
`ServerConfiguration.hpp`. -/
structure ConfigurationLimits where
  max_request_body_size : Nat
  max_post_request_size : Nat
  request_read_size : Nat
  deriving DecidableEq, Repr

/-- The limits of a freshly constructed `ServerConfiguration`. -/
def ConfigurationLimits.create : ConfigurationLimits :=
  { max_request_body_size := 1048576
    max_post_request_size := 10485760
    request_read_size := 4096 }

/-- Model of `std::from_chars` into a `size_t` whose value before the call is
`tmp0`: the longest run of digits at the front is read; without a digit, or
with a value above `2 ^ 64 - 1`, the variable keeps its value and the error
code is set. The result is the value of the variable and whether the error
code is clear. -/
def from_chars (text : Str) (tmp0 : Nat) : Nat × Bool :=
  let digits := text.takeWhile Char.isDigit
  if digits = [] then (tmp0, false)
  else if decimal_value digits ≥ 2 ^ 64 then (tmp0, false)
  else (decimal_value digits, true)

/-- The end of the three size parsers, from the text that starts at the first
digit: the multiplier by the last character, that character dropped when it is
not a digit, `std::from_chars`, the range test, and the product as a `size_t`.
`tmp0` is the value of the uninitialised variable `tmp`. -/
def size_value (size_string : Str) (tmp0 : Nat) : Except String Nat :=
  if size_string = [] then Except.error "size is empty after parsing"
  else
    let multiplier : Nat :=
      if size_string.getLast? = some 'M' then 1024 * 1024
      else if size_string.getLast? = some 'K' then 1024
      else 1
    let digits :=
      if (size_string.getLast?.map Char.isDigit) = some true then size_string
      else size_string.dropLast
    let parsed := from_chars digits tmp0
    if parsed.2 ∧ parsed.1 > (2 ^ 64 - 1) / multiplier then
      Except.error "Max post request size is out of range"
    else Except.ok ((parsed.1 * multiplier) % 2 ^ 64)

/-- The text of a size directive from its first digit on, after blanks and
tabs were skipped (`find_first_not_of(" \t")`, `find_first_of("0123456789")`). -/
def size_from_first_digit (size_string : Str) : Except String Str :=
  let s1 := size_string.dropWhile (fun c => c = ' ' || c = '\t')
  if s1 = [] then Except.error "size is empty"
  else
    let s2 := s1.dropWhile (fun c => !c.isDigit)
    if s2 = [] then Except.error "size contains no digits" else Except.ok s2

/-- Model of `Parse::parse_max_post_request_size`: the value passed to
`set_max_post_request_size`, or the exception. The keyword searched in the
line is `client_max_post_request_size`. -/
def parse_max_post_request_size (line : Str) (tmp0 : Nat) : Except String Nat :=
  if line = [] then Except.error "Invalid argument provided."
  else
    match find line "client_max_post_request_size".toList with
    | none => Except.error "Max post request size keyword not found"
    | some keyword_start =>
      let size_start := keyword_start + "client_max_post_request_size".toList.length
      if size_start ≥ line.length then Except.error "Invalid max post request size format"
      else
        match size_from_first_digit (line.drop size_start) with
        | Except.error e => Except.error e
        | Except.ok size_string =>
          match find_char size_string ';' with
          | none => Except.error "Invalid max post request size format: Missing semicolon"
          | some semicolon_pos => size_value (size_string.take semicolon_pos) tmp0

/-- The common part of `parse_client_body_size` and `parse_request_read_size`
up to the text after the blanks: the keyword is searched, then the `;` after
it, and the text between the two is taken without leading blanks and tabs. -/
def size_text_after (keyword line : Str) : Except String Str :=
  if line = [] then Except.error "Invalid argument provided."
  else
    match find line keyword with
    | none => Except.error "keyword not found"
    | some keyword_start =>
      let size_start := keyword_start + keyword.length
      if size_start ≥ line.length then Except.error "Invalid size format"
      else
        match find_from line [';'] size_start with
        | none => Except.error "Invalid size format: Missing semicolon"
        | some semicolon_pos =>
          let size_string := (line.drop size_start).take (semicolon_pos - size_start)
          let s1 := size_string.dropWhile (fun c => c = ' ' || c = '\t')
          if s1 = [] then Except.error "size is empty" else Except.ok s1

/-- The digits part of `parse_client_body_size` and `parse_request_read_size`,
from the text after the blanks. -/
def size_value_after_blanks (s1 : Str) (tmp0 : Nat) : Except String Nat :=
  let s2 := s1.dropWhile (fun c => !c.isDigit)
  if s2 = [] then Except.error "size contains no digits"
  else
    let digits :=
      if (s2.getLast?.map Char.isDigit) = some true then s2 else s2.dropLast
    if digits = [] then Except.error "size has no digits after removing suffix"
    else size_value s2 tmp0

/-- Model of `Parse::parse_client_body_size`: the value passed to
`set_max_request_body_size`, or the exception. -/
def parse_client_body_size (line : Str) (tmp0 : Nat) : Except String Nat :=
  match size_text_after "client_max_body_size".toList line with
  | Except.error e => Except.error e
  | Except.ok s1 => size_value_after_blanks s1 tmp0

/-- Model of `Parse::parse_request_read_size`: `none` when the function returns
without a call of a setter (the text `default`), else the value passed to
`set_max_request_body_size`, which is the setter the source calls here; or the
exception. -/
def parse_request_read_size (line : Str) (tmp0 : Nat) : Except String (Option Nat) :=
  match size_text_after "request_read_buffer_size".toList line with
  | Except.error e => Except.error e
  | Except.ok s1 =>
    if s1 = "default".toList then Except.ok none
    else
      match size_value_after_blanks s1 tmp0 with
      | Except.error e => Except.error e
      | Except.ok value => Except.ok (some value)

/-- The commands of the table `parsers` of `parse_line` other than the two
size directives. -/
def other_directives : List Str :=
  ["listen".toList, "server_name".toList, "root".toList, "index".toList,
    "error_page".toList, "allowed_methods".toList, "directory_listing".toList,
    "redirect".toList, "upload_directory".toList, "cgi_handler".toList]

/-- Model of `Parse::parse_line` on the three limits and the remaining members
of the configuration, `rest`. The ten other parsers of the table call none of
the three setters of the limits; `other cmd line rest` is their effect on the
remaining members. `tmp0` is the value of the uninitialised `tmp`. -/
def parse_line {Rest : Type} (other : Str → Str → Rest → Except String Rest) (tmp0 : Nat)
    (line : Str) (limits : ConfigurationLimits) (rest : Rest) :
    Except String (ConfigurationLimits × Rest) :=
  if line = [] ∨ line.all (fun c => c = ' ' || c = '\t') then Except.ok (limits, rest)
  else
    match extract_word line with
    | none => Except.ok (limits, rest)
    | some (cmd, _) =>
      if cmd = "max_post_request_size".toList then
        match parse_max_post_request_size line tmp0 with
        | Except.error e => Except.error e
        | Except.ok value => Except.ok ({ limits with max_post_request_size := value }, rest)
      else if cmd = "client_max_body_size".toList then
        match parse_client_body_size line tmp0 with
        | Except.error e => Except.error e
        | Except.ok value => Except.ok ({ limits with max_request_body_size := value }, rest)
      else if cmd ∈ other_directives then
        match other cmd line rest with
        | Except.error e => Except.error e
        | Except.ok rest1 => Except.ok (limits, rest1)
      else Except.ok (limits, rest)

/-- The limits after `parse_line`, or `none` when it raised. -/
def limits_after {Rest : Type} (x : Except String (ConfigurationLimits × Rest)) :
    Option ConfigurationLimits :=
  match x with
  | Except.ok p => some p.1
  | Except.error _ => none

/-- The value that a call returned, or `none` when it raised. -/
def returned {α : Type} (x : Except String α) : Option α :=
  match x with
  | Except.ok a => some a
  | Except.error _ => none

/-! ## Theorems: strings -/

theorem find_aux_single (c : Char) (s : Str) (i : Nat) :
    find_aux [c] s i =
      if c ∈ s then some (i + (s.takeWhile (fun d => d != c)).length) else none := by
  induction s generalizing i with
  | nil => simp [find_aux, List.isPrefixOf]
  | cons d ds ih =>
    by_cases hcd : c = d
    · subst hcd
      simp [find_aux, List.isPrefixOf, List.takeWhile]
    · have hdc : ¬ d = c := fun h => hcd h.symm
      have hb : (c == d) = false := by simpa using hcd
      have hb2 : (d != c) = true := by simpa using hdc
      simp only [find_aux, List.isPrefixOf, hb, Bool.false_and, ih, List.mem_cons, hcd,
        false_or, List.takeWhile, hb2, List.length_cons]
      simp only [Bool.false_eq_true, if_false]
      by_cases hm : c ∈ ds
      · simp only [hm, if_true]; congr 1; omega
      · simp only [hm, if_false]

theorem before_first_eq_takeWhile (s : Str) (c : Char) :
    before_first s c = s.takeWhile (fun d => d != c) := by
  unfold before_first find_char find
  rw [find_aux_single]
  by_cases h : c ∈ s
  · simp only [h, ↓reduceIte, Nat.zero_add]
    have := List.takeWhile_prefix (fun d => d != c) (l := s)
    exact (List.prefix_iff_eq_take.mp this).symm
  · simp only [h, ↓reduceIte]
    symm
    rw [List.takeWhile_eq_self_iff]
    intro d hd
    simp only [bne_iff_ne, ne_eq]
    intro hdc
    exact h (hdc ▸ hd)

theorem find_aux_some_bounds (pat : Str) (s : Str) :
    ∀ i j, find_aux pat s i = some j →
      i ≤ j ∧ (j - i) + pat.length ≤ s.length ∧ pat <+: s.drop (j - i) := by
  induction s with
  | nil =>
    intro i j h
    simp only [find_aux] at h
    split at h
    · rename_i hp
      cases h
      rw [List.isPrefixOf_iff_prefix] at hp
      have : pat = [] := List.prefix_nil.mp hp
      subst this
      simp
    · cases h
  | cons c cs ih =>
    intro i j h
    simp only [find_aux] at h
    split at h
    · rename_i hp
      cases h
      rw [List.isPrefixOf_iff_prefix] at hp
      refine ⟨Nat.le_refl _, ?_, ?_⟩
      · simpa using hp.length_le
      · simpa using hp
    · obtain ⟨h1, h2, h3⟩ := ih (i + 1) j h
      refine ⟨by omega, ?_, ?_⟩
      · simp only [List.length_cons]; omega
      · have : j - i = (j - (i + 1)) + 1 := by omega
        rw [this, List.drop_succ_cons]
        exact h3

theorem find_aux_append (pat : Str) (s d : Str) :
    ∀ i j, find_aux pat s i = some j → find_aux pat (s ++ d) i = some j := by
  induction s with
  | nil =>
    intro i j h
    simp only [find_aux] at h
    split at h
    · rename_i hp
      cases h
      rw [List.isPrefixOf_iff_prefix] at hp
      have : pat = [] := List.prefix_nil.mp hp
      subst this
      cases d <;> simp [find_aux, List.isPrefixOf]
    · cases h
  | cons c cs ih =>
    intro i j h
    have hb := find_aux_some_bounds pat (c :: cs) i j h
    simp only [find_aux] at h
    rw [List.cons_append]
    simp only [find_aux]
    split at h
    · rename_i hp
      cases h
      rw [List.isPrefixOf_iff_prefix] at hp
      have hp2 : pat.isPrefixOf (c :: (cs ++ d)) = true := by
        rw [List.isPrefixOf_iff_prefix, ← List.cons_append]
        exact hp.trans (List.prefix_append _ _)
      rw [if_pos hp2]
    · rename_i hp
      have hb2 := find_aux_some_bounds pat cs (i + 1) j h
      have hp2 : ¬ pat.isPrefixOf (c :: (cs ++ d)) = true := by
        intro hq
        apply hp
        rw [List.isPrefixOf_iff_prefix] at hq ⊢
        rw [← List.cons_append] at hq
        have hlen : pat.length ≤ (c :: cs).length := by
          simp only [List.length_cons]; omega
        exact List.prefix_of_prefix_length_le hq (List.prefix_append _ _) hlen
      rw [if_neg hp2]
      exact ih (i + 1) j h

theorem find_append (s d pat : Str) (j : Nat) (h : find s pat = some j) :
    find (s ++ d) pat = some j :=
  find_aux_append pat s d 0 j h

theorem find_some_bounds (s pat : Str) (j : Nat) (h : find s pat = some j) :
    j + pat.length ≤ s.length ∧ pat <+: s.drop j := by
  have := find_aux_some_bounds pat s 0 j h
  simpa using this.2

theorem find_aux_first (pat : Str) (s : Str) :
    ∀ i j, find_aux pat s i = some j → ∀ k, k < j - i → ¬ pat <+: s.drop k := by
  induction s with
  | nil =>
    intro i j h k hk
    simp only [find_aux] at h
    split at h
    · cases h; omega
    · cases h
  | cons c cs ih =>
    intro i j h k hk
    simp only [find_aux] at h
    split at h
    · cases h; omega
    · rename_i hp
      cases k with
      | zero =>
        rw [List.isPrefixOf_iff_prefix] at hp
        simpa using hp
      | succ k =>
        rw [List.drop_succ_cons]
        exact ih (i + 1) j h k (by omega)

theorem find_aux_exists (pat : Str) (s : Str) :
    ∀ i k, pat <+: s.drop k → ∃ j, i ≤ j ∧ j ≤ i + k ∧ find_aux pat s i = some j := by
  induction s with
  | nil =>
    intro i k h
    simp only [List.drop_nil] at h
    refine ⟨i, Nat.le_refl _, by omega, ?_⟩
    simp only [find_aux]
    rw [if_pos (List.isPrefixOf_iff_prefix.mpr h)]
  | cons c cs ih =>
    intro i k h
    simp only [find_aux]
    by_cases hp : pat.isPrefixOf (c :: cs) = true
    · exact ⟨i, Nat.le_refl _, by omega, by rw [if_pos hp]⟩
    · rw [if_neg hp]
      cases k with
      | zero =>
        exfalso; apply hp
        rw [List.isPrefixOf_iff_prefix]
        simpa using h
      | succ k =>
        rw [List.drop_succ_cons] at h
        obtain ⟨j, h1, h2, h3⟩ := ih (i + 1) k h
        exact ⟨j, by omega, by omega, h3⟩

theorem find_first (s pat : Str) (j : Nat) (h : find s pat = some j) :
    ∀ k, k < j → ¬ pat <+: s.drop k := by
  intro k hk
  exact find_aux_first pat s 0 j h k (by omega)

theorem find_exists (s pat : Str) (k : Nat) (h : pat <+: s.drop k) :
    ∃ j, j ≤ k ∧ find s pat = some j := by
  obtain ⟨j, _, h2, h3⟩ := find_aux_exists pat s 0 k h
  exact ⟨j, by omega, h3⟩

theorem find_none_iff (s pat : Str) :
    find s pat = none ↔ ∀ k, ¬ pat <+: s.drop k := by
  constructor
  · intro h k hk
    obtain ⟨j, _, hj⟩ := find_exists s pat k hk
    rw [h] at hj; cases hj
  · intro h
    cases hf : find s pat with
    | none => rfl
    | some j => exact absurd (find_some_bounds s pat j hf).2 (h j)

/-! ## Theorems: route table -/

/-- C3. For a route with non-empty `url_path` P and any URL, with U the URL
truncated at its first `?`, the route matches iff U = P, or P ends in `/` and
U starts with P, or P does not end in `/`, U starts with P and either the
lengths agree or the character of U right after P is `/`. In particular the
route `/user` does not match the URL `/users`. -/
theorem C3_route_match_rule (r : Route) (url : Str) (_hP : r.url_path ≠ []) :
    (r.does_http_request_matches_a_url_route url = true ↔
      (url.takeWhile (fun c => c != '?') = r.url_path ∨
       (r.url_path.getLast? = some '/' ∧
          r.url_path <+: url.takeWhile (fun c => c != '?')) ∨
       (r.url_path.getLast? ≠ some '/' ∧
          r.url_path <+: url.takeWhile (fun c => c != '?') ∧
          ((url.takeWhile (fun c => c != '?')).length = r.url_path.length ∨
           (url.takeWhile (fun c => c != '?')).get? r.url_path.length = some '/')))) ∧
    (r.url_path = "/user".toList →
      r.does_http_request_matches_a_url_route "/users".toList = false) := by
  constructor
  · unfold Route.does_http_request_matches_a_url_route
    rw [before_first_eq_takeWhile]
    generalize url.takeWhile (fun c => c != '?') = U
    have hpre : (List.take r.url_path.length U = r.url_path) ↔ r.url_path <+: U := by
      rw [List.prefix_iff_eq_take]; exact eq_comm
    by_cases h1 : U = r.url_path
    · simp [h1]
    · by_cases h2 : r.url_path.getLast? = some '/'
      · simp [h1, h2, hpre]
      · simp [h1, h2, hpre]
  · intro h
    unfold Route.does_http_request_matches_a_url_route
    rw [h]
    decide

/-- C3 at a concrete input: the route `/img` has a non-empty path and matches
the URL `/img/a.png?x=1` through the third alternative of the rule. -/
theorem C3_route_match_rule_witness :
    (start_url_route "./www".toList "/img".toList 8080).url_path ≠ [] ∧
    (start_url_route "./www".toList "/img".toList 8080).does_http_request_matches_a_url_route
      "/img/a.png?x=1".toList = true :=
  ⟨by decide,
   (C3_route_match_rule (start_url_route "./www".toList "/img".toList 8080)
      "/img/a.png?x=1".toList (by decide)).1.mpr (by decide)⟩

theorem find_url_route_step_of_not_candidate (port : Int) (url : Str) (a : Route)
    (st : Option Route × Nat) (h : ¬ a.candidate port url) :
    find_url_route_step port url st a = st := by
  unfold find_url_route_step
  by_cases hp : a.server_listening_port = port
  · have hm : ¬ a.does_http_request_matches_a_url_route url = true := fun hm => h ⟨hp, hm⟩
    simp [hp, hm]
  · simp [hp]

theorem find_url_route_step_of_candidate (port : Int) (url : Str) (a : Route)
    (st : Option Route × Nat) (h : a.candidate port url) :
    find_url_route_step port url st a =
      if st.2 < a.url_path.length then (some a, a.url_path.length) else st := by
  unfold find_url_route_step
  simp [h.1, h.2]

theorem find_url_route_foldl_lt (port : Int) (url : Str) (r : Route) (pre : List Route) :
    ∀ st : Option Route × Nat, st.2 < r.url_path.length →
      (∀ q ∈ pre, q.candidate port url → q.url_path.length < r.url_path.length) →
      (pre.foldl (find_url_route_step port url) st).2 < r.url_path.length := by
  induction pre with
  | nil => intro st h _; simpa using h
  | cons a t ih =>
    intro st h hpre
    simp only [List.foldl_cons]
    apply ih
    · by_cases hc : a.candidate port url
      · rw [find_url_route_step_of_candidate port url a st hc]
        split
        · exact hpre a (List.mem_cons_self _ _) hc
        · exact h
      · rw [find_url_route_step_of_not_candidate port url a st hc]; exact h
    · intro q hq; exact hpre q (List.mem_cons_of_mem _ hq)

theorem find_url_route_foldl_keep (port : Int) (url : Str) (r : Route) (post : List Route) :
    (∀ q ∈ post, q.candidate port url → q.url_path.length ≤ r.url_path.length) →
    post.foldl (find_url_route_step port url) (some r, r.url_path.length) =
      (some r, r.url_path.length) := by
  induction post with
  | nil => intro _; rfl
  | cons a t ih =>
    intro hpost
    simp only [List.foldl_cons]
    have hstep : find_url_route_step port url (some r, r.url_path.length) a =
        (some r, r.url_path.length) := by
      by_cases hc : a.candidate port url
      · rw [find_url_route_step_of_candidate port url a _ hc]
        have := hpost a (List.mem_cons_self _ _) hc
        rw [if_neg (by simp only; omega)]
      · rw [find_url_route_step_of_not_candidate port url a _ hc]
    rw [hstep]
    exact ih (fun q hq => hpost q (List.mem_cons_of_mem _ hq))

theorem find_url_route_of_split (port : Int) (url : Str) (r : Route) (pre post : List Route)
    (hr : r.candidate port url) (hlen : 0 < r.url_path.length)
    (hpre : ∀ q ∈ pre, q.candidate port url → q.url_path.length < r.url_path.length)
    (hpost : ∀ q ∈ post, q.candidate port url → q.url_path.length ≤ r.url_path.length) :
    find_url_route_for_listening_port (pre ++ r :: post) port url = some r := by
  unfold find_url_route_for_listening_port
  rw [List.foldl_append, List.foldl_cons]
  have h1 := find_url_route_foldl_lt port url r pre (none, 0) hlen hpre
  rw [find_url_route_step_of_candidate port url r _ hr, if_pos h1,
    find_url_route_foldl_keep port url r post hpost]

theorem find_url_route_none_of_no_candidate (port : Int) (url : Str) (l : List Route) :
    (∀ q ∈ l, ¬ q.candidate port url) →
    ∀ st, l.foldl (find_url_route_step port url) st = st := by
  induction l with
  | nil => intro _ st; rfl
  | cons a t ih =>
    intro h st
    simp only [List.foldl_cons]
    rw [find_url_route_step_of_not_candidate port url a st (h a (List.mem_cons_self _ _))]
    exact ih (fun q hq => h q (List.mem_cons_of_mem _ hq)) st

theorem exists_first_longest_candidate (port : Int) (url : Str) (l : List Route) :
    (∃ q ∈ l, q.candidate port url) →
    ∃ pre r post, l = pre ++ r :: post ∧ r.candidate port url ∧
      (∀ q ∈ pre, q.candidate port url → q.url_path.length < r.url_path.length) ∧
      (∀ q ∈ post, q.candidate port url → q.url_path.length ≤ r.url_path.length) := by
  induction l with
  | nil => rintro ⟨q, hq, _⟩; simp at hq
  | cons a t ih =>
    intro hex
    by_cases ht : ∃ q ∈ t, q.candidate port url
    · obtain ⟨pre, r, post, hsplit, hr, hpre, hpost⟩ := ih ht
      by_cases ha : a.candidate port url ∧ r.url_path.length ≤ a.url_path.length
      · refine ⟨[], a, t, rfl, ha.1, by simp, ?_⟩
        intro q hq hqc
        rw [hsplit] at hq
        rcases List.mem_append.mp hq with hq | hq
        · exact Nat.le_of_lt (Nat.lt_of_lt_of_le (hpre q hq hqc) ha.2)
        · rcases List.mem_cons.mp hq with hq | hq
          · rw [hq]; exact ha.2
          · exact Nat.le_trans (hpost q hq hqc) ha.2
      · refine ⟨a :: pre, r, post, by rw [hsplit]; rfl, hr, ?_, hpost⟩
        intro q hq hqc
        rcases List.mem_cons.mp hq with hq | hq
        · subst hq
          by_contra hlt
          exact ha ⟨hqc, Nat.le_of_not_lt hlt⟩
        · exact hpre q hq hqc
    · obtain ⟨q, hq, hqc⟩ := hex
      rcases List.mem_cons.mp hq with hq | hq
      · subst hq
        refine ⟨[], q, t, rfl, hqc, by simp, ?_⟩
        intro q2 hq2 hq2c
        exact absurd ⟨q2, hq2, hq2c⟩ ht
      · exact absurd ⟨q, hq, hqc⟩ ht

/-- C2. For a route list whose `url_path`s are all non-empty, the lookup
returns `r` exactly when `r` is the first route, in configuration order, among
the candidates (routes on the port that match the URL) of greatest `url_path`
length: every candidate before it is strictly shorter and every candidate after
it is not longer. Hence a candidate strictly shorter than another candidate is
never returned, and the result is null exactly when there is no candidate. -/
theorem C2_longest_match_first_wins (url_routes : List Route) (port : Int) (url : Str)
    (hne : ∀ q ∈ url_routes, q.url_path ≠ []) :
    (∀ r, find_url_route_for_listening_port url_routes port url = some r ↔
      ∃ pre post, url_routes = pre ++ r :: post ∧ r.candidate port url ∧
        (∀ q ∈ pre, q.candidate port url → q.url_path.length < r.url_path.length) ∧
        (∀ q ∈ post, q.candidate port url → q.url_path.length ≤ r.url_path.length)) ∧
    (∀ p1 ∈ url_routes, ∀ p2 ∈ url_routes, p1.candidate port url → p2.candidate port url →
      p2.url_path.length < p1.url_path.length →
      find_url_route_for_listening_port url_routes port url ≠ some p2) ∧
    (find_url_route_for_listening_port url_routes port url = none ↔
      ∀ q ∈ url_routes, ¬ q.candidate port url) := by
  have hback : ∀ r pre post, url_routes = pre ++ r :: post → r.candidate port url →
      (∀ q ∈ pre, q.candidate port url → q.url_path.length < r.url_path.length) →
      (∀ q ∈ post, q.candidate port url → q.url_path.length ≤ r.url_path.length) →
      find_url_route_for_listening_port url_routes port url = some r := by
    intro r pre post hs hr hpre hpost
    have hmem : r ∈ url_routes := by rw [hs]; simp
    have hlen : 0 < r.url_path.length := List.length_pos.mpr (hne r hmem)
    rw [hs]
    exact find_url_route_of_split port url r pre post hr hlen hpre hpost
  have hsome : (∃ q ∈ url_routes, q.candidate port url) →
      ∃ pre r post, url_routes = pre ++ r :: post ∧ r.candidate port url ∧
        (∀ q ∈ pre, q.candidate port url → q.url_path.length < r.url_path.length) ∧
        (∀ q ∈ post, q.candidate port url → q.url_path.length ≤ r.url_path.length) ∧
        find_url_route_for_listening_port url_routes port url = some r := by
    intro hex
    obtain ⟨pre, r, post, hs, hr, hpre, hpost⟩ :=
      exists_first_longest_candidate port url url_routes hex
    exact ⟨pre, r, post, hs, hr, hpre, hpost, hback r pre post hs hr hpre hpost⟩
  have hnone : (∀ q ∈ url_routes, ¬ q.candidate port url) →
      find_url_route_for_listening_port url_routes port url = none := by
    intro h
    unfold find_url_route_for_listening_port
    rw [find_url_route_none_of_no_candidate port url url_routes h]
  have hfwd : ∀ r, find_url_route_for_listening_port url_routes port url = some r →
      ∃ pre post, url_routes = pre ++ r :: post ∧ r.candidate port url ∧
        (∀ q ∈ pre, q.candidate port url → q.url_path.length < r.url_path.length) ∧
        (∀ q ∈ post, q.candidate port url → q.url_path.length ≤ r.url_path.length) := by
    intro r hfind
    by_cases hex : ∃ q ∈ url_routes, q.candidate port url
    · obtain ⟨pre, r2, post, hs, hr, hpre, hpost, hf⟩ := hsome hex
      rw [hf] at hfind
      cases hfind
      exact ⟨pre, post, hs, hr, hpre, hpost⟩
    · have : ∀ q ∈ url_routes, ¬ q.candidate port url := fun q hq hc => hex ⟨q, hq, hc⟩
      rw [hnone this] at hfind
      cases hfind
  refine ⟨fun r => ⟨hfwd r, ?_⟩, ?_, ⟨?_, hnone⟩⟩
  · rintro ⟨pre, post, hs, hr, hpre, hpost⟩
    exact hback r pre post hs hr hpre hpost
  · intro p1 hp1 p2 _ hc1 _ hlt hfind
    obtain ⟨pre, post, hs, _, hpre, hpost⟩ := hfwd p2 hfind
    rw [hs] at hp1
    rcases List.mem_append.mp hp1 with h | h
    · have := hpre p1 h hc1; omega
    · rcases List.mem_cons.mp h with h | h
      · rw [h] at hlt; omega
      · have := hpost p1 h hc1; omega
  · intro hfind q hq hc
    obtain ⟨_, r, _, _, _, _, _, hf⟩ := hsome ⟨q, hq, hc⟩
    rw [hf] at hfind
    cases hfind

/-- C2 at a concrete table: with routes `/`, `/img` and `/img` again on port
8080 (and `/img/a.png` on another port), the URL `/img/a.png` resolves to the
first `/img` route. -/
theorem C2_longest_match_first_wins_witness :
    (∀ q ∈ [start_url_route "./www".toList "/".toList 8080,
            start_url_route "./a".toList "/img".toList 8080,
            start_url_route "./b".toList "/img".toList 8080,
            start_url_route "./c".toList "/img/a.png".toList 9090], q.url_path ≠ []) ∧
    find_url_route_for_listening_port
      [start_url_route "./www".toList "/".toList 8080,
       start_url_route "./a".toList "/img".toList 8080,
       start_url_route "./b".toList "/img".toList 8080,
       start_url_route "./c".toList "/img/a.png".toList 9090] 8080 "/img/a.png".toList =
      some (start_url_route "./a".toList "/img".toList 8080) :=
  ⟨by decide,
   ((C2_longest_match_first_wins _ 8080 "/img/a.png".toList (by decide)).1
      (start_url_route "./a".toList "/img".toList 8080)).mpr
     ⟨[start_url_route "./www".toList "/".toList 8080],
      [start_url_route "./b".toList "/img".toList 8080,
       start_url_route "./c".toList "/img/a.png".toList 9090],
      rfl, by decide, by decide, by decide⟩⟩

/-! ## Theorems: request parser -/

theorem crlf_before_header_end (raw : Str) (he : Nat)
    (h : find raw "\r\n\r\n".toList = some he) :
    ∃ fle, find raw "\r\n".toList = some fle ∧ (fle = he ∨ fle + 2 ≤ he) := by
  obtain ⟨hlen, hpre⟩ := find_some_bounds raw _ he h
  have h2 : "\r\n".toList <+: raw.drop he :=
    List.IsPrefix.trans (by decide : "\r\n".toList <+: "\r\n\r\n".toList) hpre
  obtain ⟨fle, hle, hf⟩ := find_exists raw _ he h2
  refine ⟨fle, hf, ?_⟩
  by_contra hcon
  have hhe : he = fle + 1 := by omega
  obtain ⟨_, hp2⟩ := find_some_bounds raw _ fle hf
  obtain ⟨t, ht⟩ := hp2
  obtain ⟨u, hu⟩ := hpre
  have hd : raw.drop he = (raw.drop fle).drop 1 := by
    rw [hhe, List.drop_drop, Nat.add_comm]
  rw [← ht] at hd
  rw [hd] at hu
  simp at hu

theorem parse_http_request_line_raw (r : HttpRequest) (X line : Str) :
    ({ r with raw_http_request_data := X } : HttpRequest).parse_http_request_line line =
      match r.parse_http_request_line line with
      | Except.error e => Except.error e
      | Except.ok r2 => Except.ok { r2 with raw_http_request_data := X } := by
  unfold HttpRequest.parse_http_request_line
  cases extract_word line with
  | none => rfl
  | some p1 =>
    obtain ⟨m, rest1⟩ := p1
    dsimp only
    cases extract_word rest1 with
    | none => rfl
    | some p2 =>
      obtain ⟨u, rest2⟩ := p2
      dsimp only
      cases extract_word rest2 with
      | none => rfl
      | some p3 =>
        obtain ⟨v, rest3⟩ := p3
        dsimp only
        split <;> rfl

theorem parse_header_lines_blank (m : StdMap) (x : Str) :
    parse_header_lines m (getlines ('\r' :: '\n' :: x)) = m := by
  have : getlines ('\r' :: '\n' :: x) = ['\r'] :: getlines x := by
    simp [getlines]
  rw [this]
  simp [parse_header_lines]

theorem header_block_append (raw1 d : Str) (he fle : Nat) (m : StdMap)
    (hhe : find raw1 "\r\n\r\n".toList = some he)
    (hfle : find raw1 "\r\n".toList = some fle) :
    parse_header_lines m (getlines (((raw1 ++ d).drop (fle + 2)).take
        ((he + 2 ^ 64 - (fle + 2)) % 2 ^ 64))) =
    parse_header_lines m (getlines ((raw1.drop (fle + 2)).take
        ((he + 2 ^ 64 - (fle + 2)) % 2 ^ 64))) := by
  obtain ⟨fle2, hf2, hcase⟩ := crlf_before_header_end raw1 he hhe
  rw [hfle] at hf2
  cases hf2
  obtain ⟨hlen, hpre⟩ := find_some_bounds raw1 _ he hhe
  have hlen4 : he + 4 ≤ raw1.length := hlen
  rcases hcase with hc | hc
  · -- no header line: the count wraps and the block starts with the blank line
    subst hc
    obtain ⟨t, ht⟩ := hpre
    have hcnt : (fle + 2 ^ 64 - (fle + 2)) % 2 ^ 64 = 2 ^ 64 - 2 := by omega
    rw [hcnt]
    have hd2 : raw1.drop (fle + 2) = '\r' :: '\n' :: t := by
      have : raw1.drop (fle + 2) = (raw1.drop fle).drop 2 := by
        rw [List.drop_drop, Nat.add_comm]
      rw [this, ← ht]; rfl
    have hd3 : (raw1 ++ d).drop (fle + 2) = '\r' :: '\n' :: (t ++ d) := by
      rw [List.drop_append_of_le_length (by omega), hd2]; rfl
    rw [hd2, hd3]
    have e1 : ∀ y : Str, List.take (2 ^ 64 - 2) ('\r' :: '\n' :: y) =
        '\r' :: '\n' :: List.take (2 ^ 64 - 4) y := by
      intro y
      have : (2 : Nat) ^ 64 - 2 = (2 ^ 64 - 4) + 1 + 1 := by norm_num
      rw [this, List.take_succ_cons, List.take_succ_cons]
    rw [e1, e1, parse_header_lines_blank, parse_header_lines_blank]
  · have hcnt : (he + 2 ^ 64 - (fle + 2)) % 2 ^ 64 ≤ he - (fle + 2) := by
      have : he + 2 ^ 64 - (fle + 2) = (he - (fle + 2)) + 2 ^ 64 := by omega
      rw [this, Nat.add_mod_right]
      exact Nat.mod_le _ _
    rw [List.drop_append_of_le_length (by omega),
      List.take_append_of_le_length (by rw [List.length_drop]; omega)]
theorem parse_head_append (r : HttpRequest) (raw1 d : Str) (he fle : Nat)
    (hhe : find raw1 "\r\n\r\n".toList = some he)
    (hfle : find raw1 "\r\n".toList = some fle) :
    ({ r with raw_http_request_data := raw1 ++ d } : HttpRequest).parse_head he fle =
      match ({ r with raw_http_request_data := raw1 } : HttpRequest).parse_head he fle with
      | Except.error e => Except.error e
      | Except.ok r6 => Except.ok { r6 with raw_http_request_data := raw1 ++ d } := by
  have hfl : fle + 2 ≤ raw1.length := (find_some_bounds raw1 _ fle hfle).1
  have htake : (raw1 ++ d).take fle = raw1.take fle :=
    List.take_append_of_le_length (by omega)
  unfold HttpRequest.parse_head
  simp only [htake]
  rw [parse_http_request_line_raw r (raw1 ++ d), parse_http_request_line_raw r raw1]
  cases r.parse_http_request_line (raw1.take fle) with
  | error e => rfl
  | ok r2 =>
    simp only [HttpRequest.parse_http_request_headers]
    rw [header_block_append raw1 d he fle _ hhe hfle]
    simp only [HttpRequest.parse_http_request_multipart_header]
    split <;> [skip; rfl]
    split <;> [skip; rfl]
    split <;> rfl

theorem process_eq_of_headers_complete (r : HttpRequest) (data : Str)
    (h : r.are_http_headers_complete = true) :
    r.process_incoming_http_request data =
      ({ r with raw_http_request_data := r.raw_http_request_data ++ data } :
        HttpRequest).body_phase := by
  unfold HttpRequest.process_incoming_http_request
  simp only [h, Bool.not_true, Bool.false_eq_true, if_false]

theorem process_eq_of_no_header_end (r : HttpRequest) (data : Str)
    (h : r.are_http_headers_complete = false)
    (hf : find (r.raw_http_request_data ++ data) "\r\n\r\n".toList = none) :
    r.process_incoming_http_request data =
      Except.ok ({ r with raw_http_request_data := r.raw_http_request_data ++ data }, false) := by
  unfold HttpRequest.process_incoming_http_request
  simp only [h, Bool.not_false, if_true, hf]

theorem process_eq_of_header_end (r : HttpRequest) (data : Str) (he fle : Nat)
    (h : r.are_http_headers_complete = false)
    (hf : find (r.raw_http_request_data ++ data) "\r\n\r\n".toList = some he)
    (hl : find (r.raw_http_request_data ++ data) "\r\n".toList = some fle) :
    r.process_incoming_http_request data =
      match ({ r with raw_http_request_data := r.raw_http_request_data ++ data } :
          HttpRequest).parse_head he fle with
      | Except.error e => Except.error e
      | Except.ok r6 =>
        if r6.completes_after_headers then
          Except.ok ({ r6 with is_http_request_complete := true }, true)
        else r6.body_phase := by
  unfold HttpRequest.process_incoming_http_request
  simp only [h, Bool.not_false, if_true, hf, hl]
theorem body_phase_false (r s : HttpRequest) (h : r.body_phase = Except.ok (s, false)) :
    s = r := by
  unfold HttpRequest.body_phase at h
  split at h
  · split at h
    · cases h
    · split at h
      · cases h
      · cases h; rfl
  · split at h
    · split at h
      · cases h
      · cases h; rfl
    · split at h
      · cases h
      · cases h; rfl

theorem body_phase_true_append (r s : HttpRequest) (d : Str)
    (h : r.body_phase = Except.ok (s, true)) :
    ∃ s2, ({ r with raw_http_request_data := r.raw_http_request_data ++ d } :
        HttpRequest).body_phase = Except.ok (s2, true) ∧ same_parsed_fields s2 s := by
  unfold HttpRequest.body_phase at h ⊢
  simp only [HttpRequest.has_http_request_header, HttpRequest.get_http_request_header] at h ⊢
  split at h
  · rename_i hcl
    rw [if_pos hcl]
    split at h
    · cases h
    · rename_i n hn
      split at h
      · rename_i hlen
        cases h
        rw [if_pos (by rw [List.length_append]; omega)]
        exact ⟨_, rfl, rfl, rfl, rfl, rfl, rfl, rfl⟩
      · cases h
  · rename_i hcl
    rw [if_neg hcl]
    split at h
    · rename_i hmp
      rw [if_pos hmp]
      split at h
      · rename_i hfind
        cases h
        obtain ⟨j, hj⟩ := Option.isSome_iff_exists.mp hfind
        have := find_append r.raw_http_request_data d _ j hj
        rw [if_pos (by rw [this]; rfl)]
        exact ⟨_, rfl, rfl, rfl, rfl, rfl, rfl, rfl⟩
      · cases h
    · rename_i hmp
      rw [if_neg hmp]
      split at h
      · rename_i hm
        cases h
        rw [if_pos hm]
        exact ⟨_, rfl, rfl, rfl, rfl, rfl, rfl, rfl⟩
      · cases h

theorem body_phase_error_raw (r : HttpRequest) (X : Str) (e : String)
    (h : r.body_phase = Except.error e) :
    ({ r with raw_http_request_data := X } : HttpRequest).body_phase = Except.error e := by
  unfold HttpRequest.body_phase at h ⊢
  simp only [HttpRequest.has_http_request_header, HttpRequest.get_http_request_header] at h ⊢
  split at h
  · rename_i hcl
    rw [if_pos hcl]
    split at h
    · exact h
    · split at h <;> cases h
  · split at h
    · split at h <;> cases h
    · split at h <;> cases h

theorem parse_head_ok (r r6 : HttpRequest) (he fle : Nat)
    (h : r.parse_head he fle = Except.ok r6) :
    r6.raw_http_request_data = r.raw_http_request_data ∧
      r6.are_http_headers_complete = true := by
  unfold HttpRequest.parse_head at h
  rw [parse_http_request_line_raw r r.raw_http_request_data] at h
  cases hl : r.parse_http_request_line (r.raw_http_request_data.take fle) with
  | error e =>
    rw [hl] at h
    cases h
  | ok r2 =>
    rw [hl] at h
    simp only [HttpRequest.parse_http_request_headers,
      HttpRequest.parse_http_request_multipart_header] at h
    split at h
    · split at h
      · split at h <;> (cases h; exact ⟨rfl, rfl⟩)
      · cases h; exact ⟨rfl, rfl⟩
    · cases h; exact ⟨rfl, rfl⟩
theorem completes_after_headers_raw (r : HttpRequest) (X : Str) :
    ({ r with raw_http_request_data := X } : HttpRequest).completes_after_headers =
      r.completes_after_headers := rfl

theorem process_append (r : HttpRequest) (P d : Str) :
    (∀ s, r.process_incoming_http_request P = Except.ok (s, false) →
      s.process_incoming_http_request d = r.process_incoming_http_request (P ++ d)) ∧
    (∀ s, r.process_incoming_http_request P = Except.ok (s, true) →
      ∃ s2, r.process_incoming_http_request (P ++ d) = Except.ok (s2, true) ∧
        same_parsed_fields s2 s) ∧
    (∀ e, r.process_incoming_http_request P = Except.error e →
      r.process_incoming_http_request (P ++ d) = Except.error e) := by
  cases hc : r.are_http_headers_complete with
  | true =>
    rw [process_eq_of_headers_complete r P hc, process_eq_of_headers_complete r (P ++ d) hc]
    obtain ⟨r1, hr1⟩ : ∃ r1 : HttpRequest,
        r1 = { r with raw_http_request_data := r.raw_http_request_data ++ P } := ⟨_, rfl⟩
    have hc1 : r1.are_http_headers_complete = true := by rw [hr1]; exact hc
    have hassoc : ({ r with raw_http_request_data := r.raw_http_request_data ++ (P ++ d) } :
        HttpRequest) = { r1 with raw_http_request_data := r1.raw_http_request_data ++ d } := by
      rw [hr1]; simp only [List.append_assoc]
    rw [hassoc, ← hr1]
    refine ⟨?_, ?_, ?_⟩
    · intro s h
      have hs := body_phase_false _ s h
      subst hs
      rw [process_eq_of_headers_complete s d hc1]
    · intro s h
      exact body_phase_true_append _ s d h
    · intro e h
      exact body_phase_error_raw _ _ e h
  | false =>
    cases hf : find (r.raw_http_request_data ++ P) "\r\n\r\n".toList with
    | none =>
      rw [process_eq_of_no_header_end r P hc hf]
      refine ⟨?_, ?_, ?_⟩
      · intro s h
        cases h
        unfold HttpRequest.process_incoming_http_request
        simp only [List.append_assoc]
      · intro s h; cases h
      · intro e h; cases h
    | some he =>
      obtain ⟨fle, hfle, _⟩ := crlf_before_header_end _ he hf
      have hf2 : find (r.raw_http_request_data ++ (P ++ d)) "\r\n\r\n".toList = some he := by
        rw [← List.append_assoc]; exact find_append _ d _ he hf
      have hfle2 : find (r.raw_http_request_data ++ (P ++ d)) "\r\n".toList = some fle := by
        rw [← List.append_assoc]; exact find_append _ d _ fle hfle
      rw [process_eq_of_header_end r P he fle hc hf hfle,
        process_eq_of_header_end r (P ++ d) he fle hc hf2 hfle2]
      have key := parse_head_append r (r.raw_http_request_data ++ P) d he fle hf hfle
      rw [List.append_assoc] at key
      rw [key]
      cases hp : ({ r with raw_http_request_data := r.raw_http_request_data ++ P } :
          HttpRequest).parse_head he fle with
      | error e =>
        refine ⟨?_, ?_, ?_⟩
        · intro s h; cases h
        · intro s h; cases h
        · intro e2 h; exact h
      | ok r6 =>
        obtain ⟨hraw, hhc⟩ := parse_head_ok _ r6 he fle hp
        dsimp only at hraw ⊢
        rw [completes_after_headers_raw r6 (r.raw_http_request_data ++ (P ++ d))]
        cases hcah : r6.completes_after_headers with
        | true =>
          simp only [if_true]
          refine ⟨?_, ?_, ?_⟩
          · intro s h; cases h
          · intro s h
            cases h
            exact ⟨_, rfl, rfl, rfl, rfl, rfl, rfl, rfl⟩
          · intro e h; cases h
        | false =>
          simp only [Bool.false_eq_true, if_false]
          have hassoc : ({ r6 with
              raw_http_request_data := r.raw_http_request_data ++ (P ++ d) } : HttpRequest) =
              { r6 with raw_http_request_data := r6.raw_http_request_data ++ d } := by
            rw [hraw, List.append_assoc]
          rw [hassoc]
          refine ⟨?_, ?_, ?_⟩
          · intro s h
            have hs := body_phase_false _ s h
            subst hs
            rw [process_eq_of_headers_complete _ d hhc]
          · intro s h
            exact body_phase_true_append _ s d h
          · intro e h
            exact body_phase_error_raw _ _ e h

theorem first_complete_from_spec (R : Str) :
    ∀ fuel n c, first_complete_from R fuel n = some c ↔
      (n ≤ c ∧ c ≤ n + fuel ∧ complete_as_one_block (R.take c) = true ∧
        ∀ j, n ≤ j → j < c → complete_as_one_block (R.take j) = false) := by
  intro fuel
  induction fuel with
  | zero =>
    intro n c
    simp only [first_complete_from]
    constructor
    · intro h
      split at h
      · rename_i hc
        cases h
        exact ⟨Nat.le_refl _, Nat.le_refl _, hc, fun j h1 h2 => by omega⟩
      · cases h
    · rintro ⟨h1, h2, h3, _⟩
      have : c = n := by omega
      subst this
      rw [if_pos h3]
  | succ fuel ih =>
    intro n c
    simp only [first_complete_from]
    by_cases hn : complete_as_one_block (R.take n) = true
    · rw [if_pos hn]
      constructor
      · intro h
        cases h
        exact ⟨Nat.le_refl _, by omega, hn, fun j h1 h2 => by omega⟩
      · rintro ⟨h1, _, _, h4⟩
        by_cases hcn : c = n
        · rw [hcn]
        · have := h4 n (Nat.le_refl _) (by omega)
          rw [hn] at this; cases this
    · rw [if_neg hn, ih (n + 1) c]
      constructor
      · rintro ⟨h1, h2, h3, h4⟩
        refine ⟨by omega, by omega, h3, ?_⟩
        intro j hj1 hj2
        by_cases hjn : j = n
        · rw [hjn]; simpa using hn
        · exact h4 j (by omega) hj2
      · rintro ⟨h1, h2, h3, h4⟩
        have hcn : c ≠ n := by
          intro h; rw [h] at h3; exact hn h3
        exact ⟨by omega, by omega, h3, fun j hj1 hj2 => h4 j (by omega) hj2⟩

theorem completion_offset_spec (R : Str) (c : Nat) :
    completion_offset R = some c ↔
      (c ≤ R.length ∧ complete_as_one_block (R.take c) = true ∧
        ∀ j, j < c → complete_as_one_block (R.take j) = false) := by
  unfold completion_offset
  rw [first_complete_from_spec]
  constructor
  · rintro ⟨_, h2, h3, h4⟩
    exact ⟨by omega, h3, fun j hj => h4 j (Nat.zero_le _) hj⟩
  · rintro ⟨h1, h2, h3⟩
    exact ⟨Nat.zero_le _, by omega, h2, fun j _ hj => h3 j hj⟩

theorem completion_offset_exists (R : Str) (n : Nat) (hn : n ≤ R.length)
    (h : complete_as_one_block (R.take n) = true) :
    ∃ c, completion_offset R = some c ∧ c ≤ n := by
  have hex : ∃ m, complete_as_one_block (R.take m) = true := ⟨n, h⟩
  refine ⟨Nat.find hex, ?_, Nat.find_min' hex h⟩
  rw [completion_offset_spec]
  refine ⟨Nat.le_trans (Nat.find_min' hex h) hn, Nat.find_spec hex, ?_⟩
  intro j hj
  have := Nat.find_min hex hj
  simpa using this

theorem complete_as_one_block_iff (P : Str) :
    complete_as_one_block P = true ↔
      ∃ s, HttpRequest.create.process_incoming_http_request P = Except.ok (s, true) := by
  unfold complete_as_one_block
  constructor
  · intro h
    split at h
    · rename_i s hs
      exact ⟨s, hs⟩
    · cases h
  · rintro ⟨s, hs⟩
    rw [hs]

theorem complete_as_one_block_append (P d : Str) (h : complete_as_one_block P = true) :
    complete_as_one_block (P ++ d) = true := by
  rw [complete_as_one_block_iff] at h ⊢
  obtain ⟨s, hs⟩ := h
  obtain ⟨s2, hs2, _⟩ := (process_append HttpRequest.create P d).2.1 s hs
  exact ⟨s2, hs2⟩

theorem feed_first_true (chunks : List Str) :
    ∀ (r s : HttpRequest),
      r.process_incoming_http_request chunks.flatten = Except.ok (s, true) → chunks ≠ [] →
      ∃ k r2, feed_until_complete r chunks = Except.ok (r2, some k) ∧ k < chunks.length ∧
        r.process_incoming_http_request (chunks.take (k + 1)).flatten = Except.ok (r2, true) ∧
        ∀ j, j < k → ∃ sj,
          r.process_incoming_http_request (chunks.take (j + 1)).flatten =
            Except.ok (sj, false) := by
  induction chunks with
  | nil => intro r s _ h; exact absurd rfl h
  | cons c rest ih =>
    intro r s hone _
    cases hrest : rest with
    | nil =>
      subst hrest
      simp only [List.flatten_cons, List.flatten_nil, List.append_nil] at hone
      refine ⟨0, s, ?_, by simp, ?_, fun j hj => absurd hj (Nat.not_lt_zero _)⟩
      · simp only [feed_until_complete, hone]
      · simpa using hone
    | cons c2 rest2 =>
      rw [← hrest]
      have hne : rest ≠ [] := by rw [hrest]; simp
      rw [List.flatten_cons] at hone
      obtain ⟨hA, hB, hC⟩ := process_append r c rest.flatten
      cases hp : r.process_incoming_http_request c with
      | error e =>
        rw [hC e hp] at hone; cases hone
      | ok res =>
        obtain ⟨s1, flag⟩ := res
        cases flag with
        | true =>
          refine ⟨0, s1, ?_, by simp, ?_, fun j hj => absurd hj (Nat.not_lt_zero _)⟩
          · simp only [feed_until_complete, hp]
          · simpa using hp
        | false =>
          have h1 := hA s1 hp
          rw [hone] at h1
          obtain ⟨k, r2, hk1, hk2, hk3, hk4⟩ := ih s1 s h1 hne
          refine ⟨k + 1, r2, ?_, by simp; omega, ?_, ?_⟩
          · simp only [feed_until_complete, hp, hk1]
          · rw [List.take_succ_cons, List.flatten_cons,
              ← (process_append r c (rest.take (k + 1)).flatten).1 s1 hp]
            exact hk3
          · intro j hj
            cases j with
            | zero => exact ⟨s1, by simpa using hp⟩
            | succ j =>
              obtain ⟨sj, hsj⟩ := hk4 j (by omega)
              refine ⟨sj, ?_⟩
              rw [List.take_succ_cons, List.flatten_cons,
                ← (process_append r c (rest.take (j + 1)).flatten).1 s1 hp]
              exact hsj

theorem feed_chunks_of_last (chunks : List Str) :
    ∀ (r r2 : HttpRequest) (k : Nat),
      feed_until_complete r chunks = Except.ok (r2, some k) → k + 1 = chunks.length →
      feed_chunks r chunks = Except.ok (r2, List.replicate k false ++ [true]) := by
  induction chunks with
  | nil => intro r r2 k _ h; simp at h
  | cons c rest ih =>
    intro r r2 k h hk
    simp only [feed_until_complete] at h
    simp only [feed_chunks]
    cases hp : r.process_incoming_http_request c with
    | error e => rw [hp] at h; cases h
    | ok res =>
      obtain ⟨r1, flag⟩ := res
      rw [hp] at h
      cases flag with
      | true =>
        simp only at h
        cases h
        have : rest = [] := by
          simp only [List.length_cons] at hk
          exact List.length_eq_zero.mp (by omega)
        subst this
        simp [feed_chunks]
      | false =>
        simp only at h
        cases hr : feed_until_complete r1 rest with
        | error e => rw [hr] at h; cases h
        | ok res2 =>
          obtain ⟨r3, ok⟩ := res2
          rw [hr] at h
          cases ok with
          | none => cases h
          | some k2 =>
            simp only at h
            cases h
            simp only [List.length_cons] at hk
            simp only [ih r1 r2 k2 hr (by omega)]
            rfl

theorem same_parsed_fields_symm (a b : HttpRequest) (h : same_parsed_fields a b) :
    same_parsed_fields b a :=
  ⟨h.1.symm, h.2.1.symm, h.2.2.1.symm, h.2.2.2.1.symm, h.2.2.2.2.1.symm, h.2.2.2.2.2.symm⟩

theorem not_complete_nil : complete_as_one_block [] = false := by decide

/-- C1, amended. Let R be a byte string that is complete as one block (fed in
one call to a fresh `HttpRequest`, the call returns true without raising), and
let `chunks` be any partition of R. Then no call raises before completion, the
first call that returns true exists, and it is the call that delivers byte
number `c` of R, where `c` is the completion offset of R (the length of its
shortest complete prefix), the same for every partition. The state after that
call is the state of feeding the bytes delivered so far as one block, and its
method, url, version, header map, boundary and multipart flag are those of the
one-block feed of R. If moreover R carries no byte beyond its completion offset
and no chunk is empty, feeding all chunks ends in exactly the state of the
one-block feed (body included) and only the last call returns true. -/
theorem C1_chunking_first_completion (R : Str) (chunks : List Str)
    (hparts : chunks.flatten = R) (hone : complete_as_one_block R = true) :
    ∃ (s : HttpRequest) (k : Nat) (r2 : HttpRequest) (c : Nat),
      HttpRequest.create.process_incoming_http_request R = Except.ok (s, true) ∧
      feed_until_complete HttpRequest.create chunks = Except.ok (r2, some k) ∧
      k < chunks.length ∧
      completion_offset R = some c ∧
      (chunks.take k).flatten.length < c ∧
      c ≤ (chunks.take (k + 1)).flatten.length ∧
      HttpRequest.create.process_incoming_http_request (chunks.take (k + 1)).flatten =
        Except.ok (r2, true) ∧
      same_parsed_fields r2 s ∧
      (c = R.length → (∀ x ∈ chunks, x ≠ []) →
        r2 = s ∧
        feed_chunks HttpRequest.create chunks =
          Except.ok (s, List.replicate (chunks.length - 1) false ++ [true])) := by
  obtain ⟨s, hs⟩ := (complete_as_one_block_iff R).mp hone
  have hne : chunks ≠ [] := by
    intro h
    rw [h] at hparts
    simp only [List.flatten_nil] at hparts
    rw [← hparts, not_complete_nil] at hone
    cases hone
  rw [← hparts] at hs
  obtain ⟨k, r2, hk1, hk2, hk3, hk4⟩ := feed_first_true chunks HttpRequest.create s hs hne
  rw [hparts] at hs
  -- the bytes delivered through call k, and those delivered before it
  have hsplit : ∀ n, R = (chunks.take n).flatten ++ (chunks.drop n).flatten := by
    intro n
    rw [← List.flatten_append, List.take_append_drop, hparts]
  have hpre : ∀ n, (chunks.take n).flatten = R.take (chunks.take n).flatten.length := by
    intro n
    exact List.prefix_iff_eq_take.mp ⟨_, (hsplit n).symm⟩
  have hlen : ∀ n, (chunks.take n).flatten.length ≤ R.length := by
    intro n
    exact (List.IsPrefix.length_le ⟨_, (hsplit n).symm⟩)
  have hPk : complete_as_one_block (chunks.take (k + 1)).flatten = true :=
    (complete_as_one_block_iff _).mpr ⟨r2, hk3⟩
  have hPk2 := hPk
  rw [hpre (k + 1)] at hPk2
  obtain ⟨c, hc, hcle⟩ := completion_offset_exists R _ (hlen (k + 1)) hPk2
  have hcspec := (completion_offset_spec R c).mp hc
  have hbefore : complete_as_one_block (chunks.take k).flatten = false := by
    cases k with
    | zero => simpa using not_complete_nil
    | succ j =>
      obtain ⟨sj, hsj⟩ := hk4 j (Nat.lt_succ_self j)
      cases hcb : complete_as_one_block (chunks.take (j + 1)).flatten with
      | false => rfl
      | true =>
        obtain ⟨s3, hs3⟩ := (complete_as_one_block_iff _).mp hcb
        rw [hsj] at hs3
        cases hs3
  have hlt : (chunks.take k).flatten.length < c := by
    by_contra hcon
    have hcl : c ≤ (chunks.take k).flatten.length := Nat.le_of_not_lt hcon
    have h1 : R.take c = ((chunks.take k).flatten).take c := by
      conv_lhs => rw [hsplit k]
      rw [List.take_append_of_le_length hcl]
    have h2 := complete_as_one_block_append (R.take c) (((chunks.take k).flatten).drop c)
      hcspec.2.1
    rw [h1, List.take_append_drop, hbefore] at h2
    cases h2
  have hsame : same_parsed_fields r2 s := by
    obtain ⟨s2, hs2, hf⟩ :=
      (process_append HttpRequest.create (chunks.take (k + 1)).flatten
        (chunks.drop (k + 1)).flatten).2.1 r2 hk3
    rw [← hsplit (k + 1), hs] at hs2
    cases hs2
    exact same_parsed_fields_symm _ _ hf
  refine ⟨s, k, r2, c, hs, hk1, hk2, hc, hlt, hcle, hk3, hsame, ?_⟩
  intro hcR hnonempty
  have hPkR : (chunks.take (k + 1)).flatten = R := by
    apply List.IsPrefix.eq_of_length ⟨_, (hsplit (k + 1)).symm⟩
    have := hlen (k + 1)
    omega
  have hr2 : r2 = s := by
    rw [hPkR, hs] at hk3
    cases hk3; rfl
  have hklast : k + 1 = chunks.length := by
    by_contra hcon
    have hlt2 : k + 1 < chunks.length := by omega
    have hd : (chunks.drop (k + 1)).flatten = [] := by
      have := hsplit (k + 1)
      rw [hPkR] at this
      exact (List.self_eq_append_right.mp this)
    cases hdrop : chunks.drop (k + 1) with
    | nil =>
      have := List.drop_eq_nil_iff.mp hdrop
      omega
    | cons x xs =>
      rw [hdrop, List.flatten_cons] at hd
      have hx : x = [] := (List.append_eq_nil.mp hd).1
      have hxmem : x ∈ chunks := by
        have : x ∈ chunks.drop (k + 1) := by rw [hdrop]; simp
        exact List.mem_of_mem_drop this
      exact hnonempty x hxmem hx
  refine ⟨hr2, ?_⟩
  have := feed_chunks_of_last chunks HttpRequest.create r2 k hk1 hklast
  rw [this, hr2]
  have : chunks.length - 1 = k := by omega
  rw [this]

/-- C1 at a concrete input: `sample_post_request` cut into the four chunks of
`sample_post_chunks`. -/
theorem C1_chunking_first_completion_witness :
    sample_post_chunks.flatten = sample_post_request ∧
    complete_as_one_block sample_post_request = true ∧
    ∃ (s : HttpRequest) (k : Nat) (r2 : HttpRequest) (c : Nat),
      HttpRequest.create.process_incoming_http_request sample_post_request =
        Except.ok (s, true) ∧
      feed_until_complete HttpRequest.create sample_post_chunks = Except.ok (r2, some k) ∧
      k < sample_post_chunks.length ∧
      completion_offset sample_post_request = some c ∧
      (sample_post_chunks.take k).flatten.length < c ∧
      c ≤ (sample_post_chunks.take (k + 1)).flatten.length ∧
      HttpRequest.create.process_incoming_http_request
        (sample_post_chunks.take (k + 1)).flatten = Except.ok (r2, true) ∧
      same_parsed_fields r2 s ∧
      (c = sample_post_request.length → (∀ x ∈ sample_post_chunks, x ≠ []) →
        r2 = s ∧
        feed_chunks HttpRequest.create sample_post_chunks =
          Except.ok (s, List.replicate (sample_post_chunks.length - 1) false ++ [true])) :=
  ⟨by decide, by decide,
   C1_chunking_first_completion sample_post_request sample_post_chunks (by decide) (by decide)⟩

/-- C1 as stated fails: a GET request with a `Content-Length` body fed as one
block ends with an empty body, while the same bytes fed as header block and
body end with the body `hi`. -/
theorem C1_counterexample_get_with_body :
    [sample_get_head, "hi".toList].flatten = sample_get_with_body ∧
    body_after [sample_get_with_body] = some [] ∧
    body_after [sample_get_head, "hi".toList] = some "hi".toList := by
  decide

theorem body_phase_fields (r s : HttpRequest) (b : Bool)
    (h : r.body_phase = Except.ok (s, b)) :
    same_parsed_fields s r ∧ s.raw_http_request_data = r.raw_http_request_data ∧
      s.http_request_body_start_index = r.http_request_body_start_index ∧
      s.are_http_headers_complete = r.are_http_headers_complete := by
  unfold HttpRequest.body_phase at h
  split at h
  · split at h
    · cases h
    · split at h <;> (cases h; exact ⟨⟨rfl, rfl, rfl, rfl, rfl, rfl⟩, rfl, rfl, rfl⟩)
  · split at h
    · split at h <;> (cases h; exact ⟨⟨rfl, rfl, rfl, rfl, rfl, rfl⟩, rfl, rfl, rfl⟩)
    · split at h <;> (cases h; exact ⟨⟨rfl, rfl, rfl, rfl, rfl, rfl⟩, rfl, rfl, rfl⟩)

/-- What the body phase decides, read off the state it returns. -/
theorem body_phase_flag (r s : HttpRequest) (b : Bool)
    (h : r.body_phase = Except.ok (s, b)) :
    (s.has_http_request_header "content-length".toList = true →
      ∃ n, stoull (s.get_http_request_header "content-length".toList) = Except.ok n ∧
        (b = true ↔
          n ≤ s.raw_http_request_data.length - s.http_request_body_start_index) ∧
        (b = true → s.http_request_body =
          s.raw_http_request_data.drop s.http_request_body_start_index)) ∧
    (s.has_http_request_header "content-length".toList = false →
      s.is_http_request_multipart = true →
        (b = true ↔ (find s.raw_http_request_data
          ("--".toList ++ s.http_request_boundary ++ "--\r\n".toList)).isSome = true)) ∧
    (s.has_http_request_header "content-length".toList = false →
      s.is_http_request_multipart = false →
        (b = true ↔ s.http_request_method ≠ HttpMethod.POST)) := by
  unfold HttpRequest.body_phase at h
  simp only [HttpRequest.has_http_request_header, HttpRequest.get_http_request_header] at h ⊢
  split at h
  · rename_i hcl
    split at h
    · cases h
    · rename_i n hn
      split at h
      · rename_i hlen
        cases h
        refine ⟨?_, ?_, ?_⟩
        · intro _
          exact ⟨n, hn, Iff.intro (fun _ => hlen) (fun _ => rfl), fun _ => rfl⟩
        · intro h1; rw [hcl] at h1; cases h1
        · intro h1; rw [hcl] at h1; cases h1
      · rename_i hlen
        cases h
        refine ⟨?_, ?_, ?_⟩
        · intro _
          exact ⟨n, hn, Iff.intro (fun hb => by cases hb) (fun hl => absurd hl hlen),
            fun hb => by cases hb⟩
        · intro h1; rw [hcl] at h1; cases h1
        · intro h1; rw [hcl] at h1; cases h1
  · rename_i hcl
    split at h
    · rename_i hmp
      split at h
      · rename_i hfind
        cases h
        refine ⟨fun h1 => absurd h1 hcl, ?_, ?_⟩
        · intro _ _
          exact Iff.intro (fun _ => hfind) (fun _ => rfl)
        · intro _ h2; rw [hmp] at h2; cases h2
      · rename_i hfind
        cases h
        refine ⟨fun h1 => absurd h1 hcl, ?_, ?_⟩
        · intro _ _
          exact Iff.intro (fun hb => by cases hb) (fun hf => absurd hf hfind)
        · intro _ h2; rw [hmp] at h2; cases h2
    · rename_i hmp
      split at h
      · rename_i hm
        cases h
        refine ⟨fun h1 => absurd h1 hcl, fun _ h2 => absurd h2 hmp, ?_⟩
        intro _ _
        exact Iff.intro (fun _ => hm) (fun _ => rfl)
      · rename_i hm
        cases h
        refine ⟨fun h1 => absurd h1 hcl, fun _ h2 => absurd h2 hmp, ?_⟩
        intro _ _
        exact Iff.intro (fun hb => by cases hb) (fun hne => absurd hne hm)
theorem parse_head_body_start (r r6 : HttpRequest) (he fle : Nat)
    (h : r.parse_head he fle = Except.ok r6) :
    r6.http_request_body_start_index = he + 4 ∧
      r6.http_request_body = r.http_request_body := by
  unfold HttpRequest.parse_head at h
  cases hl : r.parse_http_request_line (r.raw_http_request_data.take fle) with
  | error e => rw [hl] at h; cases h
  | ok r2 =>
    have hb : r2.http_request_body = r.http_request_body := by
      unfold HttpRequest.parse_http_request_line at hl
      split at hl
      · cases hl
      · split at hl
        · cases hl
        · split at hl
          · cases hl
          · split at hl
            · cases hl
            · cases hl; rfl
    rw [hl] at h
    simp only [HttpRequest.parse_http_request_headers,
      HttpRequest.parse_http_request_multipart_header] at h
    split at h
    · split at h
      · split at h <;> (cases h; exact ⟨rfl, hb⟩)
      · cases h; exact ⟨rfl, hb⟩
    · cases h; exact ⟨rfl, hb⟩

/-- How a call of `process_incoming_http_request` that does not raise came to
its result: the header terminator is not in the buffer yet; or the headers were
parsed in this call and the test of line 70 completed the request; or the body
phase decided. -/
theorem process_cases (r : HttpRequest) (data : Str) (s : HttpRequest) (b : Bool)
    (h : r.process_incoming_http_request data = Except.ok (s, b)) :
    (b = false ∧ r.are_http_headers_complete = false ∧
      find (r.raw_http_request_data ++ data) "\r\n\r\n".toList = none ∧
      s = { r with raw_http_request_data := r.raw_http_request_data ++ data }) ∨
    (b = true ∧ r.are_http_headers_complete = false ∧ s.completes_after_headers = true ∧
      s.http_request_body = r.http_request_body ∧
      s.raw_http_request_data = r.raw_http_request_data ++ data ∧
      ∃ he, find (r.raw_http_request_data ++ data) "\r\n\r\n".toList = some he ∧
        s.http_request_body_start_index = he + 4) ∨
    (∃ r0 : HttpRequest, r0.body_phase = Except.ok (s, b) ∧
      r0.raw_http_request_data = r.raw_http_request_data ++ data ∧
      (r.are_http_headers_complete = true ∨
        (r.are_http_headers_complete = false ∧ r0.completes_after_headers = false ∧
          ∃ he, find (r.raw_http_request_data ++ data) "\r\n\r\n".toList = some he ∧
            r0.http_request_body_start_index = he + 4))) := by
  cases hc : r.are_http_headers_complete with
  | true =>
    rw [process_eq_of_headers_complete r data hc] at h
    exact Or.inr (Or.inr ⟨_, h, rfl, Or.inl rfl⟩)
  | false =>
    cases hf : find (r.raw_http_request_data ++ data) "\r\n\r\n".toList with
    | none =>
      rw [process_eq_of_no_header_end r data hc hf] at h
      cases h
      exact Or.inl ⟨rfl, rfl, rfl, by simp only [hc]⟩
    | some he =>
      obtain ⟨fle, hfle, _⟩ := crlf_before_header_end _ he hf
      rw [process_eq_of_header_end r data he fle hc hf hfle] at h
      cases hp : ({ r with raw_http_request_data := r.raw_http_request_data ++ data } :
          HttpRequest).parse_head he fle with
      | error e => rw [hp] at h; cases h
      | ok r6 =>
        rw [hp] at h
        obtain ⟨hraw, _⟩ := parse_head_ok _ r6 he fle hp
        obtain ⟨hbs, hbody⟩ := parse_head_body_start _ r6 he fle hp
        dsimp only at h hraw hbody
        cases hcah : r6.completes_after_headers with
        | true =>
          rw [hcah] at h
          simp only [if_true] at h
          cases h
          exact Or.inr (Or.inl ⟨rfl, rfl, hcah, hbody, hraw, he, rfl, hbs⟩)
        | false =>
          rw [hcah] at h
          simp only [Bool.false_eq_true, if_false] at h
          exact Or.inr (Or.inr ⟨r6, h, hraw, Or.inr ⟨rfl, hcah, he, rfl, hbs⟩⟩)

theorem completes_after_headers_of_fields (a b : HttpRequest) (h : same_parsed_fields a b) :
    a.completes_after_headers = b.completes_after_headers := by
  obtain ⟨h1, _, _, h4, _, h6⟩ := h
  unfold HttpRequest.completes_after_headers HttpRequest.has_http_request_header
  rw [h1, h4, h6]

theorem has_header_of_fields (a b : HttpRequest) (h : same_parsed_fields a b) (k : Str) :
    a.has_http_request_header k = b.has_http_request_header k ∧
      a.get_http_request_header k = b.get_http_request_header k := by
  obtain ⟨_, _, _, h4, _, _⟩ := h
  unfold HttpRequest.has_http_request_header HttpRequest.get_http_request_header
  rw [h4]
  exact ⟨rfl, rfl⟩

theorem feed_until_complete_sound (chunks : List Str) :
    ∀ (r s : HttpRequest) (k : Nat),
      feed_until_complete r chunks = Except.ok (s, some k) →
      k < chunks.length ∧
        r.process_incoming_http_request (chunks.take (k + 1)).flatten = Except.ok (s, true) := by
  induction chunks with
  | nil => intro r s k h; simp [feed_until_complete] at h
  | cons c rest ih =>
    intro r s k h
    simp only [feed_until_complete] at h
    cases hp : r.process_incoming_http_request c with
    | error e => rw [hp] at h; cases h
    | ok res =>
      obtain ⟨r1, flag⟩ := res
      rw [hp] at h
      cases flag with
      | true =>
        simp only at h
        cases h
        exact ⟨by simp, by simpa using hp⟩
      | false =>
        simp only at h
        cases hr : feed_until_complete r1 rest with
        | error e => rw [hr] at h; cases h
        | ok res2 =>
          obtain ⟨r3, ok⟩ := res2
          rw [hr] at h
          cases ok with
          | none => cases h
          | some k2 =>
            simp only at h
            cases h
            obtain ⟨h1, h2⟩ := ih r1 s k2 hr
            refine ⟨by simp only [List.length_cons]; omega, ?_⟩
            rw [List.take_succ_cons, List.flatten_cons,
              ← (process_append r c (rest.take (k2 + 1)).flatten).1 r1 hp]
            exact h2

/-- C8, amended. When the chunks fed to a fresh `HttpRequest` lead to a first
call that returns true, and the request is a POST with a `Content-Length`
header, then the header value parses to a number `n`, and the body is the
whole of the buffer after the header terminator: `raw[body_start:]` with
`body_start` four bytes past the first `\r\n\r\n`. Its length is at least `n`;
bytes received beyond the announced `n` are part of the body. -/
theorem C8_body_is_buffer_after_headers (chunks : List Str) (s : HttpRequest) (k : Nat)
    (hfeed : feed_until_complete HttpRequest.create chunks = Except.ok (s, some k))
    (hpost : s.http_request_method = HttpMethod.POST)
    (hcl : s.has_http_request_header "content-length".toList = true) :
    ∃ n he, stoull (s.get_http_request_header "content-length".toList) = Except.ok n ∧
      find (chunks.take (k + 1)).flatten "\r\n\r\n".toList = some he ∧
      s.raw_http_request_data = (chunks.take (k + 1)).flatten ∧
      s.http_request_body = ((chunks.take (k + 1)).flatten).drop (he + 4) ∧
      s.http_request_body.length = (chunks.take (k + 1)).flatten.length - (he + 4) ∧
      n ≤ s.http_request_body.length := by
  obtain ⟨_, hproc⟩ := feed_until_complete_sound chunks HttpRequest.create s k hfeed
  rcases process_cases _ _ _ _ hproc with hA | hB | hC
  · exact absurd hA.1 (by simp)
  · obtain ⟨_, _, hcah, _⟩ := hB
    unfold HttpRequest.completes_after_headers at hcah
    rw [hpost, hcl] at hcah
    simp at hcah
  · obtain ⟨r0, hbp, hraw, hor⟩ := hC
    rcases hor with hor | hor
    · cases hor
    · obtain ⟨_, _, he, hfind, hbs⟩ := hor
      obtain ⟨_, hsraw, hsbs, _⟩ := body_phase_fields r0 s true hbp
      obtain ⟨n, hn, hiff, hbody⟩ := (body_phase_flag r0 s true hbp).1 hcl
      have hrawP : s.raw_http_request_data = (chunks.take (k + 1)).flatten := by
        rw [hsraw, hraw]; rfl
      have hle := hiff.mp rfl
      have hb := hbody rfl
      rw [hsbs, hbs] at hb hle
      rw [hrawP] at hb hle
      refine ⟨n, he, hn, ?_, hrawP, hb, ?_, ?_⟩
      · simpa using hfind
      · rw [hb, List.length_drop]
      · rw [hb, List.length_drop]; exact hle

/-- C8 at a concrete input: `sample_post_excess` fed in one call. -/
theorem C8_body_is_buffer_after_headers_witness :
    feed_until_complete HttpRequest.create [sample_post_excess] =
      Except.ok (sample_post_excess_state, some 0) ∧
    ∃ n he, stoull (sample_post_excess_state.get_http_request_header
        "content-length".toList) = Except.ok n ∧
      find ([sample_post_excess].take (0 + 1)).flatten "\r\n\r\n".toList = some he ∧
      sample_post_excess_state.raw_http_request_data =
        ([sample_post_excess].take (0 + 1)).flatten ∧
      sample_post_excess_state.http_request_body =
        (([sample_post_excess].take (0 + 1)).flatten).drop (he + 4) ∧
      sample_post_excess_state.http_request_body.length =
        ([sample_post_excess].take (0 + 1)).flatten.length - (he + 4) ∧
      n ≤ sample_post_excess_state.http_request_body.length :=
  ⟨by rfl,
   C8_body_is_buffer_after_headers [sample_post_excess] sample_post_excess_state 0
     (by rfl) (by rfl) (by rfl)⟩

/-- C8 as stated fails: a POST announcing `Content-Length: 2` and delivered
with five bytes after the headers is reported complete with the five-byte body
`hello`, not with the two-byte slice `he`. -/
theorem C8_counterexample_excess_kept :
    flags_after [sample_post_excess] = some [true] ∧
    body_after [sample_post_excess] = some "hello".toList ∧
    (sample_post_excess.drop 39).take 2 = "he".toList ∧
    body_after [sample_post_excess] ≠ some ((sample_post_excess.drop 39).take 2) := by
  decide

/-- C9, amended. Take the call in which the header terminator first appears
(the headers were not complete before it, and the buffer now contains
`\r\n\r\n`), assume it does not raise, and let the parsed method be neither GET
nor POST. Then the call returns true when the request has no `Content-Length`
header and is not multipart; with a `Content-Length` header of value `n` it
returns true exactly when at least `n` bytes are buffered after the terminator;
and without `Content-Length` but with multipart it returns true exactly when
the buffer contains the closing boundary line. -/
theorem C9_other_methods_completion (r : HttpRequest) (data : Str) (he : Nat)
    (s : HttpRequest) (b : Bool)
    (hhc : r.are_http_headers_complete = false)
    (hfind : find (r.raw_http_request_data ++ data) "\r\n\r\n".toList = some he)
    (hres : r.process_incoming_http_request data = Except.ok (s, b))
    (hget : s.http_request_method ≠ HttpMethod.GET)
    (hpost : s.http_request_method ≠ HttpMethod.POST) :
    s.raw_http_request_data = r.raw_http_request_data ++ data ∧
    (s.has_http_request_header "content-length".toList = false →
      s.is_http_request_multipart = false → b = true) ∧
    (s.has_http_request_header "content-length".toList = true →
      ∃ n, stoull (s.get_http_request_header "content-length".toList) = Except.ok n ∧
        (b = true ↔ n ≤ s.raw_http_request_data.length - (he + 4))) ∧
    (s.has_http_request_header "content-length".toList = false →
      s.is_http_request_multipart = true →
        (b = true ↔ (find s.raw_http_request_data
          ("--".toList ++ s.http_request_boundary ++ "--\r\n".toList)).isSome = true)) := by
  rcases process_cases _ _ _ _ hres with hA | hB | hC
  · rw [hA.2.2.1] at hfind; cases hfind
  · obtain ⟨_, _, hcah, _⟩ := hB
    unfold HttpRequest.completes_after_headers at hcah
    simp [hget, hpost] at hcah
  · obtain ⟨r0, hbp, hraw, hor⟩ := hC
    rcases hor with hor | hor
    · rw [hhc] at hor; cases hor
    · obtain ⟨_, _, he2, hfind2, hbs⟩ := hor
      rw [hfind] at hfind2
      cases hfind2
      obtain ⟨_, hsraw, hsbs, _⟩ := body_phase_fields r0 s b hbp
      obtain ⟨h1, h2, h3⟩ := body_phase_flag r0 s b hbp
      refine ⟨by rw [hsraw, hraw], ?_, ?_, h2⟩
      · intro hcl hmp
        exact (h3 hcl hmp).mpr hpost
      · intro hcl
        obtain ⟨n, hn, hiff, _⟩ := h1 hcl
        rw [hsbs, hbs] at hiff
        exact ⟨n, hn, hiff⟩

/-- C9 at a concrete input: `sample_delete_plain`, a DELETE without
`Content-Length`, fed in one call to a fresh `HttpRequest`. -/
theorem C9_other_methods_completion_witness :
    HttpRequest.create.are_http_headers_complete = false ∧
    find (HttpRequest.create.raw_http_request_data ++ sample_delete_plain)
      "\r\n\r\n".toList = some 27 ∧
    HttpRequest.create.process_incoming_http_request sample_delete_plain =
      Except.ok (sample_delete_plain_state, true) ∧
    (sample_delete_plain_state.raw_http_request_data =
        HttpRequest.create.raw_http_request_data ++ sample_delete_plain ∧
      (sample_delete_plain_state.has_http_request_header "content-length".toList = false →
        sample_delete_plain_state.is_http_request_multipart = false → true = true) ∧
      (sample_delete_plain_state.has_http_request_header "content-length".toList = true →
        ∃ n, stoull (sample_delete_plain_state.get_http_request_header
            "content-length".toList) = Except.ok n ∧
          (true = true ↔
            n ≤ sample_delete_plain_state.raw_http_request_data.length - (27 + 4))) ∧
      (sample_delete_plain_state.has_http_request_header "content-length".toList = false →
        sample_delete_plain_state.is_http_request_multipart = true →
          (true = true ↔ (find sample_delete_plain_state.raw_http_request_data
            ("--".toList ++ sample_delete_plain_state.http_request_boundary ++
              "--\r\n".toList)).isSome = true))) :=
  ⟨by rfl, by rfl, by rfl,
   C9_other_methods_completion HttpRequest.create sample_delete_plain 27
     sample_delete_plain_state true (by rfl) (by rfl) (by rfl) (by decide) (by decide)⟩

/-- C9 as stated fails: for a DELETE request with a `Content-Length: 5` header
the call that delivers the header terminator returns false. -/
theorem C9_counterexample_delete_waits :
    (find sample_delete_with_length "\r\n\r\n".toList).isSome = true ∧
    (state_after [sample_delete_with_length]).map (fun r => r.http_request_method) =
      some HttpMethod.DELETE ∧
    flags_after [sample_delete_with_length] = some [false] := by
  decide

/-- C10, the code at the failing input: the request line of
`sample_post_bad_length` is well formed (three tokens, version `HTTP/1.1`), and
the call that delivers its header terminator raises, out of `std::stoull` on
the `Content-Length` value `abc`. -/
theorem C10_bad_content_length_raises :
    raised (HttpRequest.create.parse_http_request_line "POST / HTTP/1.1".toList) = false ∧
    raised (stoull "abc".toList) = true ∧
    raised (HttpRequest.create.process_incoming_http_request sample_post_bad_length) = true := by
  decide

theorem find_aux_skip (p0 : Char) (ps a rest : Str) (h : ∀ c ∈ a, c ≠ p0) :
    ∀ i, find_aux (p0 :: ps) (a ++ rest) i = find_aux (p0 :: ps) rest (i + a.length) := by
  induction a with
  | nil => intro i; rfl
  | cons c a ih =>
    intro i
    have hc : c ≠ p0 := h c (List.mem_cons_self _ _)
    have hb : (p0 == c) = false := by simpa using fun h2 : p0 = c => hc h2.symm
    rw [List.cons_append]
    simp only [find_aux, List.isPrefixOf, hb, Bool.false_and, Bool.false_eq_true, if_false]
    rw [ih (fun d hd => h d (List.mem_cons_of_mem _ hd)) (i + 1)]
    congr 1
    simp only [List.length_cons]; omega

theorem find_aux_here (pat s : Str) (i : Nat) (h : pat <+: s) :
    find_aux pat s i = some i := by
  cases s with
  | nil => simp only [find_aux]; rw [if_pos (List.isPrefixOf_iff_prefix.mpr h)]
  | cons c cs => simp only [find_aux]; rw [if_pos (List.isPrefixOf_iff_prefix.mpr h)]

theorem StdMap.get_set_self (m : StdMap) (k v : Str) : (m.set k v).get k = some v := by
  induction m with
  | nil => simp [StdMap.set, StdMap.get]
  | cons p t ih =>
    obtain ⟨k1, v1⟩ := p
    simp only [StdMap.set]
    by_cases h1 : k = k1
    · simp [h1, StdMap.get]
    · rw [if_neg h1]
      by_cases h2 : k < k1
      · rw [if_pos h2]; simp [StdMap.get]
      · rw [if_neg h2]
        simp only [StdMap.get]
        rw [if_neg (fun h => h1 h.symm)]
        exact ih

theorem takeWhile_dropWhile_append (p : Char → Bool) (a : Str) (b : Char) (r : Str)
    (ha : ∀ c ∈ a, p c = true) (hb : p b = false) :
    (a ++ b :: r).takeWhile p = a ∧ (a ++ b :: r).dropWhile p = b :: r := by
  induction a with
  | nil => simp [List.takeWhile, List.dropWhile, hb]
  | cons c a ih =>
    have hc : p c = true := ha c (List.mem_cons_self _ _)
    obtain ⟨h1, h2⟩ := ih (fun d hd => ha d (List.mem_cons_of_mem _ hd))
    simp [List.takeWhile, List.dropWhile, hc, h1, h2]

/-- The characters a hexadecimal numeral is made of. -/
theorem hex_char_mem (upper : Bool) (k : Nat) :
    hex_char upper k ∈ "0123456789abcdefABCDEF".toList := by
  by_cases hk : k < 16
  · cases upper <;> interval_cases k <;> decide
  · have h1 : "0123456789ABCDEF".toList.getD k '0' = '0' :=
      List.getD_eq_default _ _ (by simp only [String.toList]; simp; omega)
    have h2 : "0123456789abcdef".toList.getD k '0' = '0' :=
      List.getD_eq_default _ _ (by simp only [String.toList]; simp; omega)
    cases upper
    · simp only [hex_char, Bool.false_eq_true, if_false, h2]; decide
    · simp only [hex_char, if_true, h1]; decide

theorem hex_char_value (upper : Bool) (k : Nat) (hk : k < 16) :
    hex_digit_value (hex_char upper k) = some k := by
  cases upper <;> interval_cases k <;> decide

theorem hex_alphabet_props :
    ∀ c ∈ "0123456789abcdefABCDEF".toList,
      (hex_digit_value c).isSome = true ∧ isspace c = false ∧ c ≠ '-' ∧ c ≠ '+' ∧
        c ≠ 'x' ∧ c ≠ 'X' ∧ c ≠ '\n' ∧ c ≠ '\r' := by
  decide

theorem to_hex_aux_mem (upper : Bool) :
    ∀ fuel n acc, ∀ c ∈ to_hex_aux upper fuel n acc,
      c ∈ "0123456789abcdefABCDEF".toList ∨ c ∈ acc := by
  intro fuel
  induction fuel with
  | zero => intro n acc c hc; exact Or.inr hc
  | succ fuel ih =>
    intro n acc c hc
    simp only [to_hex_aux] at hc
    split at hc
    · rcases List.mem_cons.mp hc with h | h
      · exact Or.inl (h ▸ hex_char_mem upper n)
      · exact Or.inr h
    · rcases ih _ _ c hc with h | h
      · exact Or.inl h
      · rcases List.mem_cons.mp h with h | h
        · exact Or.inl (h ▸ hex_char_mem upper _)
        · exact Or.inr h

theorem to_hex_aux_ne_nil (upper : Bool) :
    ∀ fuel n acc, acc ≠ [] → to_hex_aux upper fuel n acc ≠ [] := by
  intro fuel
  induction fuel with
  | zero => intro n acc h; exact h
  | succ fuel ih =>
    intro n acc _
    simp only [to_hex_aux]
    split
    · simp
    · exact ih _ _ (by simp)

theorem to_hex_ne_nil (upper : Bool) (n : Nat) : to_hex upper n ≠ [] := by
  unfold to_hex
  simp only [to_hex_aux]
  split
  · simp
  · exact to_hex_aux_ne_nil upper _ _ _ (by simp)

theorem to_hex_mem (upper : Bool) (n : Nat) :
    ∀ c ∈ to_hex upper n, c ∈ "0123456789abcdefABCDEF".toList := by
  intro c hc
  rcases to_hex_aux_mem upper _ _ _ c hc with h | h
  · exact h
  · simp at h

theorem to_hex_aux_value (upper : Bool) :
    ∀ fuel n acc, n < fuel →
      List.foldl (fun n c => 16 * n + (hex_digit_value c).getD 0) 0
          (to_hex_aux upper fuel n acc) =
        List.foldl (fun n c => 16 * n + (hex_digit_value c).getD 0) n acc := by
  intro fuel
  induction fuel with
  | zero => intro n acc h; omega
  | succ fuel ih =>
    intro n acc h
    simp only [to_hex_aux]
    split
    · rename_i hn
      simp only [List.foldl_cons, hex_char_value upper n hn, Option.getD_some]
      congr 1
      omega
    · rename_i hn
      rw [ih (n / 16) _ (by omega)]
      simp only [List.foldl_cons, hex_char_value upper (n % 16) (Nat.mod_lt _ (by norm_num)),
        Option.getD_some]
      congr 1
      omega

theorem hex_value_to_hex (upper : Bool) (n : Nat) : hex_value (to_hex upper n) = n := by
  unfold hex_value to_hex
  rw [to_hex_aux_value upper (n + 1) n [] (Nat.lt_succ_self n)]
  rfl

theorem extract_hex_to_hex (upper : Bool) (n chunk_size : Nat) (hn : n < 2 ^ 64) :
    extract_hex (to_hex upper n) chunk_size = n := by
  have hne := to_hex_ne_nil upper n
  have hmem := to_hex_mem upper n
  have hprops : ∀ c ∈ to_hex upper n,
      (hex_digit_value c).isSome = true ∧ isspace c = false ∧ c ≠ '-' ∧ c ≠ '+' ∧
        c ≠ 'x' ∧ c ≠ 'X' ∧ c ≠ '\n' ∧ c ≠ '\r' :=
    fun c hc => hex_alphabet_props c (hmem c hc)
  obtain ⟨c0, t, hct⟩ := List.exists_cons_of_ne_nil hne
  have hc0 := hprops c0 (by rw [hct]; simp)
  have h1 : (to_hex upper n).dropWhile isspace = to_hex upper n := by
    rw [hct, List.dropWhile_cons_of_neg (by simp [hc0.2.1])]
  have hhead : (to_hex upper n).head? = some c0 := by rw [hct]; rfl
  have hsign : ¬ ((to_hex upper n).head? = some '-' ∨ (to_hex upper n).head? = some '+') := by
    rw [hhead]
    rintro (h | h)
    · exact hc0.2.2.1 (Option.some.inj h)
    · exact hc0.2.2.2.1 (Option.some.inj h)
  have hneg : ¬ ((to_hex upper n).head? = some '-') := fun h => hsign (Or.inl h)
  have hpre : ¬ ((to_hex upper n).take 2 = "0x".toList ∨
      (to_hex upper n).take 2 = "0X".toList) := by
    rintro (h | h)
    · have : 'x' ∈ (to_hex upper n).take 2 := by rw [h]; decide
      exact (hprops 'x' (List.mem_of_mem_take this)).2.2.2.2.1 rfl
    · have : 'X' ∈ (to_hex upper n).take 2 := by rw [h]; decide
      exact (hprops 'X' (List.mem_of_mem_take this)).2.2.2.2.2.1 rfl
  have htw : (to_hex upper n).takeWhile (fun c => (hex_digit_value c).isSome) =
      to_hex upper n := by
    rw [List.takeWhile_eq_self_iff]
    intro c hc
    exact (hprops c hc).1
  have hv := hex_value_to_hex upper n
  unfold extract_hex
  dsimp only
  rw [h1, if_neg hne, if_neg hsign, if_neg hpre, htw, if_neg hne, hv,
    if_neg (Nat.not_le.mpr hn), decide_eq_false hneg]
  rfl
theorem getline_numeral_line (upper : Bool) (n : Nat) (rest : Str) :
    getline (to_hex upper n ++ "\r\n".toList ++ rest) =
      some (to_hex upper n ++ ['\r'], rest) := by
  have hprops : ∀ c ∈ to_hex upper n ++ ['\r'], (c != '\n') = true := by
    intro c hc
    rcases List.mem_append.mp hc with h | h
    · have := (hex_alphabet_props c (to_hex_mem upper n c h)).2.2.2.2.2.2.1
      simpa using this
    · simp at h; rw [h]; decide
  have e : to_hex upper n ++ "\r\n".toList ++ rest =
      (to_hex upper n ++ ['\r']) ++ '\n' :: rest := by
    simp [String.toList]
  obtain ⟨h1, h2⟩ := takeWhile_dropWhile_append (fun c => c != '\n')
    (to_hex upper n ++ ['\r']) '\n' rest hprops (by decide)
  have hne : to_hex upper n ++ "\r\n".toList ++ rest ≠ [] := by
    rw [e]; simp
  unfold getline
  rw [if_neg hne, e, h1, h2]
  rfl

theorem unchunk_loop_chunk (uninit : Nat → Char) (upper : Bool) (fuel : Nat)
    (c rest result : Str) (chunk_size : Nat) (hne : c ≠ []) (hlen : c.length < 2 ^ 64) :
    unchunk_loop uninit (fuel + 1)
        (to_hex upper c.length ++ "\r\n".toList ++ c ++ "\r\n".toList ++ rest)
        false chunk_size result =
      unchunk_loop uninit fuel rest false c.length (result ++ c) := by
  have e : to_hex upper c.length ++ "\r\n".toList ++ c ++ "\r\n".toList ++ rest =
      to_hex upper c.length ++ "\r\n".toList ++ (c ++ ("\r\n".toList ++ rest)) := by
    simp only [List.append_assoc]
  have hlast : (to_hex upper c.length ++ ['\r']).getLast? = some '\r' := by simp
  have hdl : (to_hex upper c.length ++ ['\r']).dropLast = to_hex upper c.length := by simp
  have hpos : c.length ≠ 0 := fun h => hne (List.length_eq_zero.mp h)
  have htake : (c ++ ("\r\n".toList ++ rest)).take c.length = c := List.take_left' rfl
  have hdrop : (c ++ ("\r\n".toList ++ rest)).drop c.length = "\r\n".toList ++ rest :=
    List.drop_left' rfl
  rw [e]
  simp only [unchunk_loop, Bool.false_eq_true, if_false, getline_numeral_line, hlast, if_true,
    hdl, extract_hex_to_hex upper c.length chunk_size hlen, hpos, htake, hdrop,
    Nat.lt_irrefl, decide_False, Nat.sub_self, List.range_zero, List.map_nil, List.append_nil]
  rfl

theorem unchunk_loop_last (uninit : Nat → Char) (fuel : Nat) (result : Str) (chunk_size : Nat) :
    unchunk_loop uninit (fuel + 1) "0\r\n\r\n".toList false chunk_size result = some result := by
  have h0 : extract_hex ['0'] chunk_size = 0 := by
    have hdw : List.dropWhile isspace ['0'] = ['0'] := by decide
    unfold extract_hex
    dsimp only
    rw [hdw, if_neg (by decide)]
    decide
  have hg : getline "0\r\n\r\n".toList = some (['0', '\r'], "\r\n".toList) := by decide
  have hl : (['0', '\r'] : Str).getLast? = some '\r' := by decide
  have hd : (['0', '\r'] : Str).dropLast = ['0'] := by decide
  simp only [unchunk_loop, Bool.false_eq_true, if_false, hg, hl, if_true, hd, h0]

theorem unchunk_loop_encode (uninit : Nat → Char) (upper : Bool) (chunks : List Str) :
    (∀ c ∈ chunks, c ≠ []) → (∀ c ∈ chunks, c.length < 2 ^ 64) →
    ∀ fuel chunk_size result, chunks.length < fuel →
      unchunk_loop uninit fuel (encode_chunked upper chunks) false chunk_size result =
        some (result ++ chunks.flatten) := by
  induction chunks with
  | nil =>
    intro _ _ fuel chunk_size result hf
    obtain ⟨f, rfl⟩ : ∃ f, fuel = f + 1 := ⟨fuel - 1, by simp at hf; omega⟩
    simp only [encode_chunked, List.flatten_nil, List.append_nil]
    exact unchunk_loop_last uninit f result chunk_size
  | cons c rest ih =>
    intro hne hlen fuel chunk_size result hf
    obtain ⟨f, rfl⟩ : ∃ f, fuel = f + 1 := ⟨fuel - 1, by simp at hf; omega⟩
    simp only [encode_chunked]
    rw [unchunk_loop_chunk uninit upper f c _ result chunk_size
      (hne c (List.mem_cons_self _ _)) (hlen c (List.mem_cons_self _ _))]
    rw [ih (fun d hd => hne d (List.mem_cons_of_mem _ hd))
      (fun d hd => hlen d (List.mem_cons_of_mem _ hd)) f c.length (result ++ c)
      (by simp only [List.length_cons] at hf; omega)]
    simp only [List.flatten_cons, List.append_assoc]

theorem encode_chunked_length (upper : Bool) (chunks : List Str) :
    chunks.length ≤ (encode_chunked upper chunks).length := by
  induction chunks with
  | nil => simp
  | cons c rest ih =>
    simp only [encode_chunked, List.length_append, List.length_cons]
    have : ("\r\n".toList).length = 2 := rfl
    omega

/-- C4. For every split of a byte string into non-empty chunks (each shorter
than `2 ^ 64` bytes, the range of `size_t`), `unchunk_request_body` applied to
the chunked encoding of the split returns exactly the byte string, whatever the
case of the hexadecimal digits, the initial value of `chunk_size` and the
content of uninitialised memory. -/
theorem C4_unchunk_roundtrip (upper : Bool) (uninit : Nat → Char) (chunk_size0 : Nat)
    (S : Str) (chunks : List Str) (hsplit : chunks.flatten = S)
    (hne : ∀ c ∈ chunks, c ≠ []) (hlen : ∀ c ∈ chunks, c.length < 2 ^ 64) :
    unchunk_request_body uninit chunk_size0 (encode_chunked upper chunks) = some S := by
  unfold unchunk_request_body
  rw [unchunk_loop_encode uninit upper chunks hne hlen _ chunk_size0 []
    (Nat.lt_succ_of_le (encode_chunked_length upper chunks)), hsplit]
  rfl

/-- C4 at a concrete input: `Wikipedia` sent as the chunks `Wiki` and `pedia`. -/
theorem C4_unchunk_roundtrip_witness :
    ["Wiki".toList, "pedia".toList].flatten = "Wikipedia".toList ∧
    encode_chunked false ["Wiki".toList, "pedia".toList] =
      "4\r\nWiki\r\n5\r\npedia\r\n0\r\n\r\n".toList ∧
    unchunk_request_body (fun _ => '?') 0 "4\r\nWiki\r\n5\r\npedia\r\n0\r\n\r\n".toList =
      some "Wikipedia".toList :=
  ⟨by decide, by decide,
   C4_unchunk_roundtrip false (fun _ => '?') 0 "Wikipedia".toList
     ["Wiki".toList, "pedia".toList] (by decide) (by decide) (by decide)⟩

/-! ## Theorems: response builder -/

theorem decimal_char_mem (k : Nat) : decimal_char k ∈ "0123456789".toList := by
  by_cases hk : k < 10
  · interval_cases k <;> decide
  · have h1 : "0123456789".toList.getD k '0' = '0' :=
      List.getD_eq_default _ _ (by simp only [String.toList]; simp; omega)
    simp only [decimal_char, h1]; decide

theorem decimal_char_value (k : Nat) (hk : k < 10) :
    (decimal_char k).toNat - '0'.toNat = k := by
  interval_cases k <;> decide

theorem decimal_alphabet_props :
    ∀ c ∈ "0123456789".toList,
      c.isDigit = true ∧ c ≠ '\r' ∧ c ≠ ' ' ∧ c ≠ '-' ∧ c ≠ '\n' := by
  decide

theorem to_decimal_aux_mem :
    ∀ fuel n acc, ∀ c ∈ to_decimal_aux fuel n acc,
      c ∈ "0123456789".toList ∨ c ∈ acc := by
  intro fuel
  induction fuel with
  | zero => intro n acc c hc; exact Or.inr hc
  | succ fuel ih =>
    intro n acc c hc
    simp only [to_decimal_aux] at hc
    split at hc
    · rcases List.mem_cons.mp hc with h | h
      · exact Or.inl (h ▸ decimal_char_mem n)
      · exact Or.inr h
    · rcases ih _ _ c hc with h | h
      · exact Or.inl h
      · rcases List.mem_cons.mp h with h | h
        · exact Or.inl (h ▸ decimal_char_mem _)
        · exact Or.inr h

theorem to_decimal_aux_ne_nil :
    ∀ fuel n acc, acc ≠ [] → to_decimal_aux fuel n acc ≠ [] := by
  intro fuel
  induction fuel with
  | zero => intro n acc h; exact h
  | succ fuel ih =>
    intro n acc _
    simp only [to_decimal_aux]
    split
    · simp
    · exact ih _ _ (by simp)

theorem to_string_ne_nil (n : Nat) : to_string n ≠ [] := by
  unfold to_string
  simp only [to_decimal_aux]
  split
  · simp
  · exact to_decimal_aux_ne_nil _ _ _ (by simp)

theorem to_string_mem (n : Nat) : ∀ c ∈ to_string n, c ∈ "0123456789".toList := by
  intro c hc
  rcases to_decimal_aux_mem _ _ _ c hc with h | h
  · exact h
  · simp at h

theorem to_decimal_aux_value :
    ∀ fuel n acc, n < fuel →
      List.foldl (fun n c => 10 * n + (c.toNat - '0'.toNat)) 0 (to_decimal_aux fuel n acc) =
        List.foldl (fun n c => 10 * n + (c.toNat - '0'.toNat)) n acc := by
  intro fuel
  induction fuel with
  | zero => intro n acc h; omega
  | succ fuel ih =>
    intro n acc h
    simp only [to_decimal_aux]
    split
    · rename_i hn
      simp only [List.foldl_cons, decimal_char_value n hn]
      congr 1
      omega
    · rename_i hn
      rw [ih (n / 10) _ (by omega)]
      simp only [List.foldl_cons, decimal_char_value (n % 10) (Nat.mod_lt _ (by norm_num))]
      congr 1
      omega

theorem decimal_value_to_string (n : Nat) : decimal_value (to_string n) = n := by
  unfold decimal_value to_string
  rw [to_decimal_aux_value (n + 1) n [] (Nat.lt_succ_self n)]
  rfl

theorem to_string_all_digits (n : Nat) : (to_string n).all Char.isDigit = true := by
  rw [List.all_eq_true]
  intro c hc
  exact (decimal_alphabet_props c (to_string_mem n c hc)).1

theorem read_int_int_to_string (i : Int) : read_int (int_to_string i) = some i := by
  unfold int_to_string
  by_cases hneg : i < 0
  · rw [if_pos hneg]
    simp only [read_int]
    rw [if_pos ⟨to_string_ne_nil _, to_string_all_digits _⟩, decimal_value_to_string]
    congr 1
    omega
  · rw [if_neg hneg]
    obtain ⟨c0, t, hct⟩ := List.exists_cons_of_ne_nil (to_string_ne_nil i.natAbs)
    have hc0 : c0 ≠ '-' :=
      (decimal_alphabet_props c0 (to_string_mem i.natAbs c0 (by rw [hct]; simp))).2.2.2.1
    have hval := decimal_value_to_string i.natAbs
    have hall := to_string_all_digits i.natAbs
    have hne := to_string_ne_nil i.natAbs
    rw [hct] at hval hall hne ⊢
    unfold read_int
    split
    · rename_i ds heq
      exact absurd (List.cons.inj heq).1 hc0
    · rw [if_pos ⟨hne, hall⟩, hval]
      congr 1
      omega

theorem int_to_string_props (i : Int) :
    ∀ c ∈ int_to_string i, c ≠ '\r' ∧ c ≠ ' ' := by
  intro c hc
  unfold int_to_string at hc
  have hd : ∀ c ∈ to_string i.natAbs, c ≠ '\r' ∧ c ≠ ' ' := by
    intro d hd
    have := decimal_alphabet_props d (to_string_mem _ d hd)
    exact ⟨this.2.1, this.2.2.1⟩
  split at hc
  · rcases List.mem_cons.mp hc with h | h
    · rw [h]; decide
    · exact hd c h
  · exact hd c hc

theorem ite_preserves {α : Type} (P : α → Prop) (c : Prop) [Decidable c] (a b : α)
    (ha : P a) (hb : P b) : P (if c then a else b) := by
  split
  · exact ha
  · exact hb

theorem status_text_no_cr (status : Int) :
    ∀ c ∈ get_http_response_status_code_text status, c ≠ '\r' := by
  unfold get_http_response_status_code_text
  iterate 26 refine ite_preserves (fun s : Str => ∀ c ∈ s, c ≠ '\r') _ _ _ (by decide) ?_
  decide
theorem StdMap.set_append_of_lt (m : StdMap) (k v : Str) (h : ∀ p ∈ m, p.1 < k) :
    m.set k v = m ++ [(k, v)] := by
  induction m with
  | nil => rfl
  | cons p t ih =>
    obtain ⟨k1, v1⟩ := p
    have hlt : k1 < k := h (k1, v1) (List.mem_cons_self _ _)
    simp only [StdMap.set]
    rw [if_neg (fun he : k = k1 => lt_irrefl k1 (he ▸ hlt)), if_neg (lt_asymm hlt),
      ih (fun q hq => h q (List.mem_cons_of_mem _ hq))]
    rfl

theorem read_header_lines_header_lines (body : Str) (m : StdMap) :
    (∀ p ∈ m, (∀ c ∈ p.1, c ≠ ':' ∧ c ≠ '\r') ∧ (∀ c ∈ p.2, c ≠ '\r')) →
    ∀ fuel acc, m.length < fuel → StdMap.Ordered (acc ++ m) →
      read_header_lines fuel (header_lines m ++ "\r\n".toList ++ body) acc =
        some (acc ++ m, body) := by
  induction m with
  | nil =>
    intro _ fuel acc hf _
    obtain ⟨f, rfl⟩ : ∃ f, fuel = f + 1 := ⟨fuel - 1, by simp at hf; omega⟩
    have hfind : find (header_lines [] ++ "\r\n".toList ++ body) "\r\n".toList = some 0 :=
      find_aux_here _ _ _ ⟨body, rfl⟩
    simp only [read_header_lines, hfind, if_true, List.append_nil]
    rfl
  | cons p t ih =>
    intro hwf fuel acc hf hord
    obtain ⟨f, rfl⟩ : ∃ f, fuel = f + 1 := ⟨fuel - 1, by simp at hf; omega⟩
    obtain ⟨name, value⟩ := p
    obtain ⟨hname, hvalue⟩ := hwf (name, value) (List.mem_cons_self _ _)
    dsimp only at hname hvalue
    -- the first line of the text
    have hline : ∀ c ∈ name ++ ": ".toList ++ value, c ≠ '\r' := by
      intro c hc
      simp only [List.mem_append] at hc
      rcases hc with (hc | hc) | hc
      · exact (hname c hc).2
      · intro h; rw [h] at hc; revert hc; decide
      · exact hvalue c hc
    have hlen : (name ++ ": ".toList ++ value).length ≠ 0 := by simp
    have e : header_lines ((name, value) :: t) ++ "\r\n".toList ++ body =
        (name ++ ": ".toList ++ value) ++
          ("\r\n".toList ++ (header_lines t ++ "\r\n".toList ++ body)) := by
      simp only [header_lines, List.append_assoc]
    have hfind : find (header_lines ((name, value) :: t) ++ "\r\n".toList ++ body)
        "\r\n".toList = some (name ++ ": ".toList ++ value).length := by
      rw [e]
      unfold find
      rw [show "\r\n".toList = '\r' :: ['\n'] from rfl,
        find_aux_skip '\r' ['\n'] _ _ hline 0, Nat.zero_add]
      exact find_aux_here _ _ _ (List.prefix_append _ _)
    have htake : (header_lines ((name, value) :: t) ++ "\r\n".toList ++ body).take
        (name ++ ": ".toList ++ value).length = name ++ ": ".toList ++ value := by
      rw [e]; exact List.take_left' rfl
    have hdrop : (header_lines ((name, value) :: t) ++ "\r\n".toList ++ body).drop
        ((name ++ ": ".toList ++ value).length + 2) =
        header_lines t ++ "\r\n".toList ++ body := by
      rw [e, ← List.drop_drop, List.drop_left' rfl]
      rfl
    have hsep : find (name ++ ": ".toList ++ value) ": ".toList = some name.length := by
      unfold find
      rw [List.append_assoc, show ": ".toList = ':' :: [' '] from rfl,
        find_aux_skip ':' [' '] name _ (fun c hc => (hname c hc).1) 0, Nat.zero_add]
      exact find_aux_here _ _ _ (List.prefix_append _ _)
    have hname2 : (name ++ ": ".toList ++ value).take name.length = name := by
      rw [List.append_assoc]; exact List.take_left' rfl
    have hvalue2 : (name ++ ": ".toList ++ value).drop (name.length + 2) = value := by
      rw [List.append_assoc, ← List.drop_drop, List.drop_left' rfl]
      rfl
    have hkeys : ∀ q ∈ acc, q.1 < name := by
      intro q hq
      have := (List.pairwise_append.mp hord).2.2 q hq (name, value) (List.mem_cons_self _ _)
      exact this
    simp only [read_header_lines, hfind, hlen, if_false, htake, hdrop, hsep, hname2, hvalue2]
    rw [StdMap.set_append_of_lt acc name value hkeys]
    have hord2 : StdMap.Ordered ((acc ++ [(name, value)]) ++ t) := by
      rw [List.append_assoc]; exact hord
    rw [ih (fun q hq => hwf q (List.mem_cons_of_mem _ hq)) f (acc ++ [(name, value)])
      (by simp only [List.length_cons] at hf; omega) hord2]
    simp only [List.append_assoc, List.singleton_append]

theorem header_lines_length (m : StdMap) : m.length ≤ (header_lines m).length := by
  induction m with
  | nil => simp
  | cons p t ih =>
    obtain ⟨name, value⟩ := p
    simp only [header_lines, List.length_append, List.length_cons]
    have : ("\r\n".toList).length = 2 := rfl
    omega

theorem read_status_line_built (status : Int) :
    read_status_line ("HTTP/1.1".toList ++ " ".toList ++ int_to_string status ++ " ".toList ++
      get_http_response_status_code_text status) = some status := by
  have e : "HTTP/1.1".toList ++ " ".toList ++ int_to_string status ++ " ".toList ++
      get_http_response_status_code_text status =
      "HTTP/1.1".toList ++ (' ' :: (int_to_string status ++
        ' ' :: get_http_response_status_code_text status)) := by
    simp [String.toList]
  have hfind : find_char ("HTTP/1.1".toList ++ (' ' :: (int_to_string status ++
      ' ' :: get_http_response_status_code_text status))) ' ' = some 8 := by
    unfold find_char find
    rw [find_aux_skip ' ' [] "HTTP/1.1".toList _ (by decide) 0]
    exact find_aux_here _ _ _ ⟨_, rfl⟩
  have hdrop : ("HTTP/1.1".toList ++ (' ' :: (int_to_string status ++
      ' ' :: get_http_response_status_code_text status))).drop (8 + 1) =
      int_to_string status ++ ' ' :: get_http_response_status_code_text status := rfl
  have hbefore : before_first (int_to_string status ++
      ' ' :: get_http_response_status_code_text status) ' ' = int_to_string status := by
    rw [before_first_eq_takeWhile]
    exact (takeWhile_dropWhile_append (fun d => d != ' ') _ ' ' _
      (fun c hc => by simpa using (int_to_string_props status c hc).2) (by decide)).1
  rw [e]
  unfold read_status_line
  rw [hfind]
  dsimp only
  rw [hdrop, hbefore]
  exact read_int_int_to_string status
/-- C6, amended. For every response whose header names contain no `:` and no
carriage return and whose header values contain no carriage return (any status
code, any body; the version is `HTTP/1.1` and the header map is in key order,
as the class keeps them), reading the output of `build_http_response` as an
HTTP/1.1 message (status line up to the first CRLF, `name: value` lines up to
the first empty line, the rest as body) yields the status code, the header map
and the body of the response. -/
theorem C6_response_roundtrip (r : HttpResponse)
    (hversion : r.http_version = "HTTP/1.1".toList)
    (hord : StdMap.Ordered r.http_response_headers)
    (hwf : ∀ p ∈ r.http_response_headers,
      (∀ c ∈ p.1, c ≠ ':' ∧ c ≠ '\r') ∧ (∀ c ∈ p.2, c ≠ '\r')) :
    read_http_message r.build_http_response =
      some (r.http_response_status_code, r.http_response_headers, r.http_response_body) := by
  have hbody : (if r.http_response_body ≠ [] then r.http_response_body else []) =
      r.http_response_body := by
    split
    · rfl
    · rename_i h; exact (not_not.mp h).symm
  have hsl : ∀ c ∈ "HTTP/1.1".toList ++ " ".toList ++
      int_to_string r.http_response_status_code ++ " ".toList ++
      get_http_response_status_code_text r.http_response_status_code, c ≠ '\r' := by
    intro c hc
    simp only [List.mem_append] at hc
    rcases hc with (((hc | hc) | hc) | hc) | hc
    · intro h; rw [h] at hc; revert hc; decide
    · intro h; rw [h] at hc; revert hc; decide
    · exact (int_to_string_props _ c hc).1
    · intro h; rw [h] at hc; revert hc; decide
    · exact status_text_no_cr _ c hc
  have e : r.build_http_response =
      ("HTTP/1.1".toList ++ " ".toList ++ int_to_string r.http_response_status_code ++
        " ".toList ++ get_http_response_status_code_text r.http_response_status_code) ++
      ("\r\n".toList ++ (header_lines r.http_response_headers ++ "\r\n".toList ++
        r.http_response_body)) := by
    unfold HttpResponse.build_http_response
    rw [hbody, hversion]
    simp only [List.append_assoc]
  have hfind : find r.build_http_response "\r\n".toList =
      some ("HTTP/1.1".toList ++ " ".toList ++ int_to_string r.http_response_status_code ++
        " ".toList ++ get_http_response_status_code_text r.http_response_status_code).length := by
    rw [e]
    unfold find
    rw [show "\r\n".toList = '\r' :: ['\n'] from rfl,
      find_aux_skip '\r' ['\n'] _ _ hsl 0, Nat.zero_add]
    exact find_aux_here _ _ _ (List.prefix_append _ _)
  have htake : r.build_http_response.take
      ("HTTP/1.1".toList ++ " ".toList ++ int_to_string r.http_response_status_code ++
        " ".toList ++ get_http_response_status_code_text r.http_response_status_code).length =
      "HTTP/1.1".toList ++ " ".toList ++ int_to_string r.http_response_status_code ++
        " ".toList ++ get_http_response_status_code_text r.http_response_status_code := by
    rw [e]; exact List.take_left' rfl
  have hdrop : r.build_http_response.drop
      (("HTTP/1.1".toList ++ " ".toList ++ int_to_string r.http_response_status_code ++
        " ".toList ++ get_http_response_status_code_text r.http_response_status_code).length
        + 2) =
      header_lines r.http_response_headers ++ "\r\n".toList ++ r.http_response_body := by
    rw [e, ← List.drop_drop, List.drop_left' rfl]
    rfl
  have hfuel : r.http_response_headers.length < r.build_http_response.length + 1 := by
    have h1 := header_lines_length r.http_response_headers
    have h2 : (header_lines r.http_response_headers).length ≤
        r.build_http_response.length := by
      rw [e]
      simp only [List.length_append]
      omega
    omega
  have hread := read_header_lines_header_lines r.http_response_body r.http_response_headers
    hwf (r.build_http_response.length + 1) [] hfuel (by simpa using hord)
  unfold read_http_message
  rw [hfind]
  dsimp only
  rw [htake, read_status_line_built]
  dsimp only
  rw [hdrop, hread]
  rfl

/-- C6 at a concrete input: `sample_response`, status 404 with the default
headers, `Content-Length` and the body `gone`. -/
theorem C6_response_roundtrip_witness :
    sample_response.http_version = "HTTP/1.1".toList ∧
    StdMap.Ordered sample_response.http_response_headers ∧
    read_http_message sample_response.build_http_response =
      some (404, sample_response.http_response_headers, "gone".toList) :=
  ⟨by decide, by unfold StdMap.Ordered; decide,
   C6_response_roundtrip sample_response (by decide) (by unfold StdMap.Ordered; decide)
     (by decide)⟩

/-- C6 as stated fails: a response whose header `X-Note` was set to a value
that contains a blank line is read back with another header map and another
body. -/
theorem C6_counterexample_header_with_blank_line :
    sample_response_split.http_response_headers.get "X-Note".toList =
      some "a\r\n\r\nb".toList ∧
    sample_response_split.http_response_body = "body".toList ∧
    read_http_message sample_response_split.build_http_response =
      some (200,
        (sample_response_split.http_response_headers.set "X-Note".toList "a".toList),
        "b\r\n\r\nbody".toList) ∧
    read_http_message sample_response_split.build_http_response ≠
      some (sample_response_split.http_response_status_code,
        sample_response_split.http_response_headers,
        sample_response_split.http_response_body) := by
  refine ⟨by decide, by decide, by decide, by decide⟩

/-! ## Theorems: GET handler -/

/-- C7. Let the URL decode to `decoded_url`, let the route table resolve it on
the port to `route`, let the route have no redirect and no CGI handler for the
extension of the path (the text from the last `.` of the path before its first
`?`), and let the path `route.file_system_root ++ decoded_url` name a regular
file with bytes `content`. Then `handle_http_get_request` leaves the response
with status 200 and a body equal to `content`. -/
theorem C7_get_serves_existing_file (env : Environment) (config : ServerConfiguration)
    (fs : FileSystem) (url : Str) (request : HttpRequest) (http_response : HttpResponse)
    (server_listening_port : Int) (decoded_url : Str) (route : Route) (content : Str)
    (hdecode : url_decode url = Except.ok decoded_url)
    (hroute : find_url_route_for_listening_port config.url_routes server_listening_port
      decoded_url = some route)
    (hredirect : route.redirect_url = [])
    (hcgi : ∀ pos, find_last_of (before_first (route.file_system_root ++ decoded_url) '?')
        '.' = some pos →
      route.has_cgi_handler
        ((before_first (route.file_system_root ++ decoded_url) '?').drop pos) = false)
    (hfile : fs (route.file_system_root ++ decoded_url) = some (FsNode.file content)) :
    (handle_http_get_request env config fs url request http_response
        server_listening_port).http_response_status_code = 200 ∧
    (handle_http_get_request env config fs url request http_response
        server_listening_port).http_response_body = content := by
  have hscript : cgi_script_of route (route.file_system_root ++ decoded_url) = none := by
    unfold cgi_script_of
    by_cases hp : route.file_system_root ++ decoded_url = []
    · rw [if_pos hp]
    · rw [if_neg hp]
      dsimp only
      cases hpos : find_last_of (before_first (route.file_system_root ++ decoded_url) '?')
          '.' with
      | none => rfl
      | some pos =>
        dsimp only
        rw [hcgi pos hpos]
        rfl
  have hnocgi : handle_cgi_request env fs route (route.file_system_root ++ decoded_url)
      request http_response = none := by
    unfold handle_cgi_request
    rw [hscript]
  have hdir : is_directory fs (route.file_system_root ++ decoded_url) = false := by
    unfold is_directory; rw [hfile]
  have hex : file_exists fs (route.file_system_root ++ decoded_url) = true := by
    unfold file_exists; rw [hfile]; rfl
  have hread : get_file_content fs (route.file_system_root ++ decoded_url) =
      Except.ok content := by
    unfold get_file_content read_file; rw [hfile]
  have hred : route.should_redirect = false := by
    unfold Route.should_redirect; rw [hredirect]; rfl
  unfold handle_http_get_request
  rw [hdecode]
  dsimp only
  rw [hroute]
  dsimp only
  rw [hred]
  simp only [Bool.false_eq_true, if_false, hnocgi, hdir, false_and, hex, Bool.not_true, hread]
  exact ⟨rfl, rfl⟩

/-- C7 at a concrete input: `GET /a.txt` against `sample_configuration` and
`sample_file_system`, in which `./www/a.txt` holds `hi`. -/
theorem C7_get_serves_existing_file_witness :
    url_decode "/a.txt".toList = Except.ok "/a.txt".toList ∧
    sample_file_system ("./www".toList ++ "/a.txt".toList) = some (FsNode.file "hi".toList) ∧
    (handle_http_get_request sample_environment sample_configuration sample_file_system
        "/a.txt".toList HttpRequest.create (HttpResponse.create []) 8080
        ).http_response_status_code = 200 ∧
    (handle_http_get_request sample_environment sample_configuration sample_file_system
        "/a.txt".toList HttpRequest.create (HttpResponse.create []) 8080
        ).http_response_body = "hi".toList :=
  ⟨by rfl, by rfl,
   C7_get_serves_existing_file sample_environment sample_configuration sample_file_system
     "/a.txt".toList HttpRequest.create (HttpResponse.create []) 8080 "/a.txt".toList
     (start_url_route "./www".toList "/".toList 8080) "hi".toList
     (by rfl) (by rfl) (by rfl) (by decide) (by rfl)⟩

/-! ## Theorems: wire format of a response -/

theorem header_lines_eq_flatten (m : StdMap) :
    header_lines m = (m.map spec_header_line).flatten := by
  induction m with
  | nil => rfl
  | cons e rest ih =>
    obtain ⟨name, value⟩ := e
    simp only [header_lines, List.map_cons, List.flatten_cons, ih, spec_header_line]
    rfl

theorem lookup_cons_reason (code k : Int) (v d : Str) (rest : List (Int × Str)) :
    (match List.lookup code ((k, v) :: rest) with
      | some text => text
      | none => d) =
      if code = k then v
      else match List.lookup code rest with
        | some text => text
        | none => d := by
  by_cases h : code = k
  · subst h
    rw [if_pos rfl, List.lookup_cons_self]
  · rw [if_neg h, List.lookup_cons]
    have : (code == k) = false := by simpa using h
    rw [this]

/-- The reason phrase that the code gives is the one of the specification's
table, for every status code. -/
theorem status_text_eq_spec (code : Int) :
    get_http_response_status_code_text code = spec_reason_phrase code := by
  unfold get_http_response_status_code_text spec_reason_phrase spec_reason_phrases
  iterate 26 rw [lookup_cons_reason]
  rfl

/-- C17: for every response, `build_http_response` returns exactly the wire
format of the specification: version, space, status code, space, reason
phrase, CRLF, one line `name: value` CRLF per entry of the header map in map
order, CRLF, then the body bytes. The reason phrase is the one that the
specification's table gives for the code (`Unknown Status` for a code that is
not listed); the status code is written as the decimal numeral that reads back
as the code; with an empty body the output ends with the blank line; and the
sample response with status 404 is built as the text `HTTP/1.1 404 Not Found`
followed by its two header lines, the blank line and its body. -/
theorem C17_build_wire_format (r : HttpResponse) :
    r.build_http_response =
      spec_wire_format r.http_version (int_to_string r.http_response_status_code)
        (spec_reason_phrase r.http_response_status_code)
        r.http_response_headers r.http_response_body ∧
    read_int (int_to_string r.http_response_status_code) = some r.http_response_status_code ∧
    (r.http_response_body = [] →
      r.build_http_response =
        r.http_version ++ [' '] ++ int_to_string r.http_response_status_code ++ [' '] ++
          spec_reason_phrase r.http_response_status_code ++ ['\r', '\n'] ++
          (r.http_response_headers.map spec_header_line).flatten ++ ['\r', '\n']) ∧
    (∀ entry ∈ spec_reason_phrases,
      get_http_response_status_code_text entry.1 = entry.2 ∧
      entry.2 ≠ "Unknown Status".toList) ∧
    (∀ code, (∀ entry ∈ spec_reason_phrases, entry.1 ≠ code) →
      get_http_response_status_code_text code = "Unknown Status".toList) ∧
    sample_wire_response.build_http_response =
      "HTTP/1.1 404 Not Found\r\nContent-Length: 9\r\nContent-Type: text/plain\r\n\r\nnot found".toList := by
  have hmain : r.build_http_response =
      spec_wire_format r.http_version (int_to_string r.http_response_status_code)
        (spec_reason_phrase r.http_response_status_code)
        r.http_response_headers r.http_response_body := by
    unfold HttpResponse.build_http_response spec_wire_format
    rw [header_lines_eq_flatten, status_text_eq_spec]
    by_cases hb : r.http_response_body = []
    · rw [if_neg (not_not.mpr hb), hb]
      rfl
    · rw [if_pos hb]
      rfl
  refine ⟨hmain, read_int_int_to_string _, ?_, by decide, ?_, by decide⟩
  · intro hb
    rw [hmain, hb]
    unfold spec_wire_format
    rw [List.append_nil]
  · intro code hcode
    rw [status_text_eq_spec]
    unfold spec_reason_phrase
    have hnone : spec_reason_phrases.lookup code = none := by
      rw [List.lookup_eq_none_iff]
      intro entry hentry
      exact bne_iff_ne.mpr (Ne.symm (hcode entry hentry))
    rw [hnone]

/-! ## Theorems: path traversal -/

/-- C12: the guard against `..` lives in `resolve_url_path`, which the GET
handler does not call. On the sample configuration the request `GET
/../secret.txt` has the filesystem path `./www/../secret.txt`, which contains
`..`; `resolve_url_path` raises on this URL, yet `handle_http_get_request`
answers 200 with the content of the file. -/
theorem C12_traversal_is_served :
    find_url_route_for_listening_port sample_configuration.url_routes 8080
        "/../secret.txt".toList =
      some (start_url_route "./www".toList "/".toList 8080) ∧
    url_decode "/../secret.txt".toList = Except.ok "/../secret.txt".toList ∧
    (find ((start_url_route "./www".toList "/".toList 8080).file_system_root ++
        "/../secret.txt".toList) "..".toList).isSome = true ∧
    raised (resolve_url_path sample_configuration "/../secret.txt".toList) = true ∧
    (handle_http_get_request sample_environment sample_configuration
        sample_file_system_outside "/../secret.txt".toList HttpRequest.create
        (HttpResponse.create []) 8080).http_response_status_code = 200 ∧
    (handle_http_get_request sample_environment sample_configuration
        sample_file_system_outside "/../secret.txt".toList HttpRequest.create
        (HttpResponse.create []) 8080).http_response_body = "top secret".toList := by
  refine ⟨by decide, by rfl, by decide, by decide, by decide, by decide⟩

/-! ## Theorems: the parser after completion -/

theorem body_phase_true_result (r s : HttpRequest)
    (h : r.body_phase = Except.ok (s, true)) :
    s.is_http_request_complete = true ∧
    (∃ t, s.body_phase = Except.ok (t, true)) ∧
    ((s.has_http_request_header "content-length".toList = true ∨
        s.is_http_request_multipart = true) →
      s.http_request_body = s.raw_http_request_data.drop s.http_request_body_start_index) ∧
    (s.has_http_request_header "content-length".toList = false →
      s.is_http_request_multipart = false → s.http_request_body = r.http_request_body) := by
  unfold HttpRequest.body_phase at h ⊢
  simp only [HttpRequest.has_http_request_header, HttpRequest.get_http_request_header] at h ⊢
  split at h
  · rename_i hcl
    split at h
    · cases h
    · rename_i n hn
      split at h
      · rename_i hlen
        cases h
        dsimp only
        refine ⟨rfl, ?_, fun _ => rfl, ?_⟩
        · rw [if_pos hcl, hn]
          dsimp only
          rw [if_pos hlen]
          exact ⟨_, rfl⟩
        · intro h1; rw [hcl] at h1; cases h1
      · cases h
  · rename_i hcl
    split at h
    · rename_i hmp
      split at h
      · rename_i hfind
        cases h
        dsimp only
        refine ⟨rfl, ?_, fun _ => rfl, ?_⟩
        · rw [if_neg hcl, if_pos hmp, if_pos hfind]
          exact ⟨_, rfl⟩
        · intro _ h2; rw [hmp] at h2; cases h2
      · cases h
    · rename_i hmp
      split at h
      · rename_i hm
        cases h
        dsimp only
        refine ⟨rfl, ?_, ?_, fun _ _ => rfl⟩
        · rw [if_neg hcl, if_neg hmp, if_pos hm]
          exact ⟨_, rfl⟩
        · intro h1
          rcases h1 with h1 | h1
          · exact absurd h1 hcl
          · exact absurd h1 hmp
      · cases h

theorem body_phase_keeps_complete (r s : HttpRequest) (b : Bool)
    (h : r.body_phase = Except.ok (s, b)) (hc : r.is_http_request_complete = true) :
    s.is_http_request_complete = true := by
  unfold HttpRequest.body_phase at h
  split at h
  · split at h
    · cases h
    · split at h
      · cases h; rfl
      · cases h; exact hc
  · split at h
    · split at h
      · cases h; rfl
      · cases h; exact hc
    · split at h
      · cases h; rfl
      · cases h; exact hc

/-- A call that returns true leaves the headers parsed and the request marked
complete. -/
theorem process_true_marks (r s : HttpRequest) (d : Str)
    (h : r.process_incoming_http_request d = Except.ok (s, true)) :
    s.are_http_headers_complete = true ∧ s.is_http_request_complete = true := by
  cases hc : r.are_http_headers_complete with
  | true =>
    rw [process_eq_of_headers_complete r d hc] at h
    obtain ⟨_, _, _, hhc⟩ := body_phase_fields _ s true h
    exact ⟨by rw [hhc]; exact hc, (body_phase_true_result _ s h).1⟩
  | false =>
    cases hf : find (r.raw_http_request_data ++ d) "\r\n\r\n".toList with
    | none =>
      rw [process_eq_of_no_header_end r d hc hf] at h
      cases h
    | some he =>
      obtain ⟨fle, hfle, _⟩ := crlf_before_header_end _ he hf
      rw [process_eq_of_header_end r d he fle hc hf hfle] at h
      cases hp : ({ r with raw_http_request_data := r.raw_http_request_data ++ d } :
          HttpRequest).parse_head he fle with
      | error e => rw [hp] at h; cases h
      | ok r6 =>
        rw [hp] at h
        obtain ⟨_, hhc6⟩ := parse_head_ok _ r6 he fle hp
        dsimp only at h
        cases hcah : r6.completes_after_headers with
        | true =>
          rw [hcah] at h
          simp only [if_true] at h
          cases h
          exact ⟨hhc6, rfl⟩
        | false =>
          rw [hcah] at h
          simp only [Bool.false_eq_true, if_false] at h
          obtain ⟨_, _, _, hhc⟩ := body_phase_fields _ s true h
          exact ⟨by rw [hhc]; exact hhc6, (body_phase_true_result _ s h).1⟩

/-- A call that returns true on a request outside the two classes that line 70
alone completes leaves a settled state. -/
theorem process_true_settled (r s : HttpRequest) (d : Str)
    (h : r.process_incoming_http_request d = Except.ok (s, true))
    (hclass : s.completed_by_method_only = false) : s.settled := by
  obtain ⟨hhc, hcomp⟩ := process_true_marks r s d h
  rcases process_cases r d s true h with h1 | h2 | h3
  · exact absurd h1.1 (by decide)
  · obtain ⟨_, _, hcah, _⟩ := h2
    unfold HttpRequest.completes_after_headers at hcah
    unfold HttpRequest.completed_by_method_only at hclass
    have hcl : s.has_http_request_header "content-length".toList = false := by
      cases hx : s.has_http_request_header "content-length".toList
      · rfl
      · rw [hx] at hcah hclass
        cases hm : decide (s.http_request_method = HttpMethod.GET) <;>
          rw [hm] at hcah hclass <;> simp at hcah hclass
    have hmp : s.is_http_request_multipart = false := by
      cases hx : s.is_http_request_multipart
      · rfl
      · rw [hx] at hcah hclass
        cases hm : decide (s.http_request_method = HttpMethod.GET) <;>
          rw [hm] at hcah hclass <;> simp at hcah hclass
    have hget : s.http_request_method ≠ HttpMethod.POST := by
      intro hpost
      rw [hcl, hmp, hpost] at hclass
      simp at hclass
    refine ⟨hhc, hcomp, ?_, ?_⟩
    · unfold HttpRequest.body_phase
      rw [hcl, hmp]
      simp only [Bool.false_eq_true, if_false]
      rw [if_pos hget]
      exact ⟨_, rfl⟩
    · intro hor
      rcases hor with hx | hx
      · rw [hcl] at hx; cases hx
      · rw [hmp] at hx; cases hx
  · obtain ⟨r0, hbp, _, _⟩ := h3
    obtain ⟨_, hagain, hbody, _⟩ := body_phase_true_result r0 s hbp
    exact ⟨hhc, hcomp, hagain, hbody⟩

/-- One more call on a settled state returns true and leaves a settled state
with the same parsed fields; the buffer grows by the new bytes. -/
theorem settled_step (s : HttpRequest) (d : Str) (hs : s.settled) :
    ∃ t, s.process_incoming_http_request d = Except.ok (t, true) ∧ t.settled ∧
      same_parsed_fields t s ∧
      t.raw_http_request_data = s.raw_http_request_data ++ d ∧
      t.http_request_body_start_index = s.http_request_body_start_index ∧
      (s.has_http_request_header "content-length".toList = false →
        s.is_http_request_multipart = false → t.http_request_body = s.http_request_body) := by
  obtain ⟨hhc, hcomp, ⟨t0, ht0⟩, _⟩ := hs
  obtain ⟨t, ht, hfields⟩ := body_phase_true_append s t0 d ht0
  obtain ⟨hf0, _, _, _⟩ := body_phase_fields s t0 true ht0
  obtain ⟨hf1, hraw, hstart, hhc1⟩ := body_phase_fields _ t true ht
  obtain ⟨hc1, hagain, hbody, hkeep⟩ := body_phase_true_result _ t ht
  dsimp only at hf1 hraw hstart hhc1 hkeep
  have hfs : same_parsed_fields t s := hf1
  refine ⟨t, ?_, ⟨by rw [hhc1]; exact hhc, hc1, hagain, hbody⟩, hfs, hraw, hstart, ?_⟩
  · rw [process_eq_of_headers_complete s d hhc]
    exact ht
  · intro hcl hmp
    apply hkeep
    · rw [(has_header_of_fields t s hfs _).1]; exact hcl
    · rw [hfs.2.2.2.2.2]; exact hmp

theorem same_parsed_fields_trans (a b c : HttpRequest) (h1 : same_parsed_fields a b)
    (h2 : same_parsed_fields b c) : same_parsed_fields a c := by
  obtain ⟨a1, a2, a3, a4, a5, a6⟩ := h1
  obtain ⟨b1, b2, b3, b4, b5, b6⟩ := h2
  exact ⟨a1.trans b1, a2.trans b2, a3.trans b3, a4.trans b4, a5.trans b5, a6.trans b6⟩

/-- Later calls on a settled state all return true. -/
theorem settled_feed (later : List Str) :
    ∀ s : HttpRequest, s.settled →
      ∃ t, feed_chunks s later = Except.ok (t, List.replicate later.length true) ∧
        t.settled ∧ same_parsed_fields t s ∧
        t.raw_http_request_data = s.raw_http_request_data ++ later.flatten ∧
        t.http_request_body_start_index = s.http_request_body_start_index ∧
        (s.has_http_request_header "content-length".toList = false →
          s.is_http_request_multipart = false →
            t.http_request_body = s.http_request_body) := by
  induction later with
  | nil =>
    intro s hs
    exact ⟨s, rfl, hs, ⟨rfl, rfl, rfl, rfl, rfl, rfl⟩, by simp, rfl, fun _ _ => rfl⟩
  | cons d rest ih =>
    intro s hs
    obtain ⟨s1, hstep, hs1, hf1, hraw1, hstart1, hbody1⟩ := settled_step s d hs
    obtain ⟨t, hfeed, hst, hft, hrawt, hstartt, hbodyt⟩ := ih s1 hs1
    refine ⟨t, ?_, hst, same_parsed_fields_trans t s1 s hft hf1, ?_, ?_, ?_⟩
    · simp only [feed_chunks, hstep, hfeed, List.length_cons, List.replicate_succ]
    · rw [hrawt, hraw1, List.flatten_cons, List.append_assoc]
    · rw [hstartt, hstart1]
    · intro hcl hmp
      rw [hbodyt, hbody1 hcl hmp]
      · rw [(has_header_of_fields s1 s hf1 _).1]; exact hcl
      · rw [hf1.2.2.2.2.2]; exact hmp

/-- Later calls that do not raise keep the parsed fields and the completion
mark, whatever they return. -/
theorem marked_feed (later : List Str) :
    ∀ (s t : HttpRequest) (flags : List Bool),
      s.are_http_headers_complete = true → s.is_http_request_complete = true →
      feed_chunks s later = Except.ok (t, flags) →
      same_parsed_fields t s ∧ t.is_http_request_complete = true ∧
        t.raw_http_request_data = s.raw_http_request_data ++ later.flatten := by
  induction later with
  | nil =>
    intro s t flags _ hcomp h
    simp only [feed_chunks] at h
    cases h
    exact ⟨⟨rfl, rfl, rfl, rfl, rfl, rfl⟩, hcomp, by simp⟩
  | cons d rest ih =>
    intro s t flags hhc hcomp h
    simp only [feed_chunks] at h
    cases hp : s.process_incoming_http_request d with
    | error e => rw [hp] at h; cases h
    | ok res =>
      obtain ⟨s1, b⟩ := res
      rw [hp] at h
      dsimp only at h
      cases hrest : feed_chunks s1 rest with
      | error e => rw [hrest] at h; cases h
      | ok res2 =>
        obtain ⟨t2, flags2⟩ := res2
        rw [hrest] at h
        dsimp only at h
        cases h
        rw [process_eq_of_headers_complete s d hhc] at hp
        obtain ⟨hf1, hraw1, _, hhc1⟩ := body_phase_fields _ s1 b hp
        have hc1 := body_phase_keeps_complete _ s1 b hp hcomp
        dsimp only at hf1 hraw1 hhc1
        have hf1s : same_parsed_fields s1 s := hf1
        obtain ⟨hft, hct, hrawt⟩ := ih s1 t flags2 (by rw [hhc1]; exact hhc) hc1 hrest
        refine ⟨same_parsed_fields_trans t s1 s hft hf1s, hct, ?_⟩
        rw [hrawt, hraw1, List.flatten_cons, List.append_assoc]

/-- C11 (amended): once `process_incoming_http_request` has returned true,
every later call that does not raise leaves method, url, version and header
map unchanged and keeps the request marked complete, while the buffer grows by
the bytes fed. When the request is not a POST without `content-length` and
multipart and not a GET with `content-length` or multipart, every later call
returns true; the body then stays as it was for a request without
`content-length` and multipart, and otherwise is the whole buffer after the
header block, the later bytes included. -/
theorem C11_after_completion (r s : HttpRequest) (d : Str) (later : List Str)
    (h : r.process_incoming_http_request d = Except.ok (s, true)) :
    (∀ t flags, feed_chunks s later = Except.ok (t, flags) →
      same_parsed_fields t s ∧ t.is_http_request_complete = true ∧
        t.raw_http_request_data = s.raw_http_request_data ++ later.flatten) ∧
    (s.completed_by_method_only = false →
      ∃ t, feed_chunks s later = Except.ok (t, List.replicate later.length true) ∧
        ((s.has_http_request_header "content-length".toList = true ∨
            s.is_http_request_multipart = true) →
          t.http_request_body =
            (s.raw_http_request_data ++ later.flatten).drop
              s.http_request_body_start_index) ∧
        (s.has_http_request_header "content-length".toList = false →
          s.is_http_request_multipart = false →
            t.http_request_body = s.http_request_body)) := by
  obtain ⟨hhc, hcomp⟩ := process_true_marks r s d h
  refine ⟨fun t flags hfeed => marked_feed later s t flags hhc hcomp hfeed, ?_⟩
  intro hclass
  have hs := process_true_settled r s d h hclass
  obtain ⟨t, hfeed, hst, hft, hrawt, hstartt, hbodyt⟩ := settled_feed later s hs
  refine ⟨t, hfeed, ?_, hbodyt⟩
  intro hor
  have hor2 : t.has_http_request_header "content-length".toList = true ∨
      t.is_http_request_multipart = true := by
    rcases hor with hx | hx
    · exact Or.inl (by rw [(has_header_of_fields t s hft _).1]; exact hx)
    · exact Or.inr (by rw [hft.2.2.2.2.2]; exact hx)
  rw [hst.2.2.2 hor2, hrawt, hstartt]

theorem C11_after_completion_witness :
    HttpRequest.create.process_incoming_http_request sample_post_request =
      Except.ok (sample_post_request_state, true) ∧
    ((∀ t flags, feed_chunks sample_post_request_state ["!".toList] = Except.ok (t, flags) →
      same_parsed_fields t sample_post_request_state ∧ t.is_http_request_complete = true ∧
        t.raw_http_request_data =
          sample_post_request_state.raw_http_request_data ++ ["!".toList].flatten) ∧
    (sample_post_request_state.completed_by_method_only = false →
      ∃ t, feed_chunks sample_post_request_state ["!".toList] =
          Except.ok (t, List.replicate ["!".toList].length true) ∧
        ((sample_post_request_state.has_http_request_header "content-length".toList = true ∨
            sample_post_request_state.is_http_request_multipart = true) →
          t.http_request_body =
            (sample_post_request_state.raw_http_request_data ++ ["!".toList].flatten).drop
              sample_post_request_state.http_request_body_start_index) ∧
        (sample_post_request_state.has_http_request_header "content-length".toList = false →
          sample_post_request_state.is_http_request_multipart = false →
            t.http_request_body = sample_post_request_state.http_request_body))) :=
  ⟨by rfl,
    C11_after_completion HttpRequest.create sample_post_request_state sample_post_request
      ["!".toList] (by rfl)⟩

/-- C11, counterexample: after the call on a POST with `Content-Length: 5` and
five body bytes returned true, a later call with one more byte returns true
and changes the body from `hello` to `hello!`. -/
theorem C11_counterexample_body_changes :
    flags_after [sample_post_request, "!".toList] = some [true, true] ∧
    body_after [sample_post_request] = some "hello".toList ∧
    body_after [sample_post_request, "!".toList] = some "hello!".toList := by
  decide

/-- After the call on a POST without `Content-Length` and without multipart
returned true, a later call returns false. -/
theorem later_call_false_post_plain :
    flags_after [sample_post_plain, "x".toList] = some [true, false] := by
  decide

/-! ## Theorems: URL decoding -/

theorem stoi_hex_pair_check :
    ∀ n, n < 256 → ∀ upper : Bool,
      (match stoi_hex [hex_char upper (n / 16), hex_char upper (n % 16)] with
        | Except.ok v => decide (v = (n : Int))
        | Except.error _ => false) = true := by
  decide

theorem stoi_hex_pair (upper : Bool) (n : Nat) (hn : n < 256) :
    stoi_hex [hex_char upper (n / 16), hex_char upper (n % 16)] = Except.ok (n : Int) := by
  have h := stoi_hex_pair_check n hn upper
  cases hs : stoi_hex [hex_char upper (n / 16), hex_char upper (n % 16)] with
  | error e => rw [hs] at h; cases h
  | ok v =>
    rw [hs] at h
    simp only [decide_eq_true_eq] at h
    rw [h]

theorem int_to_char_toNat (c : Char) (hc : c.toNat < 256) : int_to_char (c.toNat : Int) = c := by
  unfold int_to_char
  have h1 : ((c.toNat : Int) % 256).toNat = c.toNat := by omega
  rw [h1]
  exact Char.ofNat_toNat c

/-- Round trip of percent-encoding: the text in which every byte of `s` is
written as `%HH` decodes to `s`. -/
theorem url_decode_percent_encode (upper : Bool) (s : Str) (hs : ∀ c ∈ s, c.toNat < 256) :
    url_decode (percent_encode upper s) = Except.ok s := by
  unfold url_decode
  induction s with
  | nil => rfl
  | cons c rest ih =>
    have hc : c.toNat < 256 := hs c (List.mem_cons_self _ _)
    have ih2 := ih (fun d hd => hs d (List.mem_cons_of_mem _ hd))
    simp only [percent_encode, url_decode_loop]
    rw [if_pos ⟨trivial, by simp⟩]
    simp only [List.take_succ_cons, List.take_zero]
    rw [stoi_hex_pair upper c.toNat hc]
    dsimp only
    rw [ih2]
    dsimp only
    rw [int_to_char_toNat c hc]

/-- C13: `url_decode` raises on `%zz`, where the claim has it return the text
unchanged, and on `%4G` it returns the single byte 4, where the claim has it
keep the three characters; on `%41+b` it returns `A b` as claimed. -/
theorem C13_url_decode_raises :
    raised (url_decode "%zz".toList) = true ∧
    url_decode "%4G".toList = Except.ok [Char.ofNat 4] ∧
    url_decode "%41+b".toList = Except.ok "A b".toList := by
  refine ⟨by decide, by rfl, by rfl⟩

/-! ## Theorems: multipart payload extraction -/

theorem find_from_of_first (s pat : Str) (pos j : Nat) (h : first_at_or_after s pat pos j) :
    find_from s pat pos = some j := by
  obtain ⟨hpj, hjl, hocc, hmin⟩ := h
  unfold find_from
  rw [if_pos (by omega)]
  have hocc2 : pat <+: (s.drop pos).drop (j - pos) := by
    rw [List.drop_drop]
    have : pos + (j - pos) = j := by omega
    rw [this]
    exact hocc
  obtain ⟨j2, h1, h2, h3⟩ := find_aux_exists pat (s.drop pos) pos (j - pos) hocc2
  rw [h3]
  congr 1
  by_contra hne
  have hlt : j2 < j := by omega
  obtain ⟨_, _, hpre⟩ := find_aux_some_bounds pat (s.drop pos) pos j2 h3
  rw [List.drop_drop] at hpre
  have : pos + (j2 - pos) = j2 := by omega
  rw [this] at hpre
  exact hmin j2 h1 hlt hpre

theorem find_from_none_of (s pat : Str) (pos : Nat)
    (h : ∀ k, pos ≤ k → ¬ pat <+: s.drop k) : find_from s pat pos = none := by
  unfold find_from
  split
  · cases hf : find_aux pat (s.drop pos) pos with
    | none => rfl
    | some j =>
      obtain ⟨h1, _, hpre⟩ := find_aux_some_bounds pat (s.drop pos) pos j hf
      rw [List.drop_drop] at hpre
      have : pos + (j - pos) = j := by omega
      rw [this] at hpre
      exact absurd hpre (h j h1)
  · rfl

theorem find_of_first (s pat : Str) (j : Nat) (h : first_at_or_after s pat 0 j) :
    find s pat = some j := by
  have := find_from_of_first s pat 0 j h
  unfold find_from at this
  rw [if_pos (Nat.zero_le _), List.drop_zero] at this
  exact this

/-- The two bytes before an index more than four past the start of a CRLF CRLF
are not the last byte of that CRLF CRLF followed by one more byte, when they
spell CRLF. -/
theorem crlf_not_straddling (body : Str) (q e : Nat)
    (hq : "\r\n\r\n".toList <+: body.drop q) (he : q + 4 < e)
    (hcr : (body.drop (e - 2)).take 2 = "\r\n".toList) : q + 6 ≤ e := by
  by_contra hlt
  have he5 : e = q + 5 := by omega
  subst he5
  obtain ⟨rest, hrest⟩ := hq
  have h3 : body.drop (q + 3) = '\n' :: rest := by
    have : body.drop (q + 3) = (body.drop q).drop 3 := by
      rw [List.drop_drop]
    rw [this, ← hrest]
    rfl
  have h4 : q + 5 - 2 = q + 3 := by omega
  rw [h4, h3] at hcr
  cases rest with
  | nil => exact absurd hcr (by decide)
  | cons c cs =>
    simp only [List.take_succ_cons, List.take_zero] at hcr
    have : '\n' = '\r' := by
      have := congrArg List.head? hcr
      simp at this
    exact absurd this (by decide)

/-- C14 (amended): with `B = "--" ++ boundary`, `remove_http_request_boundary`
raises when `B` does not occur in the body, when no CRLF CRLF occurs at or
after the first `B`, and when `B` does not occur at or after `s`, the index
four past the start of that CRLF CRLF. Otherwise, with `e` the index of the
first `B` at or after `s` and `e > s`, it returns `body[s : e - 2]` when the
two bytes before `e` are CRLF and `body[s : e]` when they are not. -/
theorem C14_boundary_payload (body boundary : Str) (hlen : body.length < 2 ^ 64) :
    ((∀ k, ¬ ("--".toList ++ boundary) <+: body.drop k) →
      raised (remove_http_request_boundary body boundary) = true) ∧
    (∀ p, first_at_or_after body ("--".toList ++ boundary) 0 p →
      (∀ k, p ≤ k → ¬ "\r\n\r\n".toList <+: body.drop k) →
      raised (remove_http_request_boundary body boundary) = true) ∧
    (∀ p q, first_at_or_after body ("--".toList ++ boundary) 0 p →
      first_at_or_after body "\r\n\r\n".toList p q →
      (∀ k, q + 4 ≤ k → ¬ ("--".toList ++ boundary) <+: body.drop k) →
      raised (remove_http_request_boundary body boundary) = true) ∧
    (∀ p q e, first_at_or_after body ("--".toList ++ boundary) 0 p →
      first_at_or_after body "\r\n\r\n".toList p q →
      first_at_or_after body ("--".toList ++ boundary) (q + 4) e →
      q + 4 < e →
      ((body.drop (e - 2)).take 2 = "\r\n".toList →
        remove_http_request_boundary body boundary =
          Except.ok ((body.drop (q + 4)).take (e - 2 - (q + 4)))) ∧
      ((body.drop (e - 2)).take 2 ≠ "\r\n".toList →
        remove_http_request_boundary body boundary =
          Except.ok ((body.drop (q + 4)).take (e - (q + 4))))) := by
  refine ⟨?_, ?_, ?_, ?_⟩
  · intro hno
    have hf : find body ("--".toList ++ boundary) = none := (find_none_iff _ _).mpr hno
    unfold remove_http_request_boundary
    dsimp only
    rw [hf]
    rfl
  · intro p hp hno
    unfold remove_http_request_boundary
    dsimp only
    rw [find_of_first _ _ p hp]
    dsimp only
    rw [find_from_none_of _ _ p hno]
    rfl
  · intro p q hp hq hno
    unfold remove_http_request_boundary
    dsimp only
    rw [find_of_first _ _ p hp]
    dsimp only
    rw [find_from_of_first _ _ p q hq]
    dsimp only
    rw [find_from_none_of _ _ (q + 4) hno]
    rfl
  · intro p q e hp hq he hlt
    have hel : e ≤ body.length := he.2.1
    refine ⟨?_, ?_⟩
    · intro hcr
      have h6 := crlf_not_straddling body q e hq.2.2.1 hlt hcr
      unfold remove_http_request_boundary
      dsimp only
      rw [find_of_first _ _ p hp]
      dsimp only
      rw [find_from_of_first _ _ p q hq]
      dsimp only
      rw [find_from_of_first _ _ (q + 4) e he]
      dsimp only
      rw [if_pos ⟨by omega, hcr⟩]
      have hcnt : (e - 2 + 2 ^ 64 - (q + 4)) % 2 ^ 64 = e - 2 - (q + 4) := by
        have : e - 2 + 2 ^ 64 - (q + 4) = (e - 2 - (q + 4)) + 2 ^ 64 := by omega
        rw [this, Nat.add_mod_right]
        exact Nat.mod_eq_of_lt (by omega)
      rw [hcnt]
    · intro hcr
      unfold remove_http_request_boundary
      dsimp only
      rw [find_of_first _ _ p hp]
      dsimp only
      rw [find_from_of_first _ _ p q hq]
      dsimp only
      rw [find_from_of_first _ _ (q + 4) e he]
      dsimp only
      rw [if_neg (fun h => hcr h.2)]
      have hcnt : (e + 2 ^ 64 - (q + 4)) % 2 ^ 64 = e - (q + 4) := by
        have : e + 2 ^ 64 - (q + 4) = (e - (q + 4)) + 2 ^ 64 := by omega
        rw [this, Nat.add_mod_right]
        exact Nat.mod_eq_of_lt (by omega)
      rw [hcnt]

theorem C14_boundary_payload_witness :
    sample_multipart_body.length < 2 ^ 64 ∧
    remove_http_request_boundary sample_multipart_body "X".toList =
      Except.ok "data".toList := by
  have hlen : sample_multipart_body.length < 2 ^ 64 := by decide
  refine ⟨hlen, ?_⟩
  have h := (C14_boundary_payload sample_multipart_body "X".toList hlen).2.2.2 0 35 45
    (by unfold first_at_or_after; refine ⟨by decide, by decide, by decide, ?_⟩; intro k _ hk; omega)
    (by
      unfold first_at_or_after
      refine ⟨by decide, by decide, by decide, ?_⟩
      intro k _ hk
      interval_cases k <;> decide)
    (by
      unfold first_at_or_after
      refine ⟨by decide, by decide, by decide, ?_⟩
      intro k h1 hk
      interval_cases k <;> decide)
    (by decide)
  exact h.1 (by decide)

/-- C14, counterexample: in the body `--X` CRLF CRLF `data--X--` with boundary
`X` the payload starts at `s = 7` and the closing delimiter at `e = 11`; the
function returns `data`, which is `body[s : e]`, and not `da`, which is
`body[s : e - 2]`. -/
theorem C14_counterexample_no_crlf :
    find sample_multipart_no_crlf "--X".toList = some 0 ∧
    find_from sample_multipart_no_crlf "\r\n\r\n".toList 0 = some 3 ∧
    find_from sample_multipart_no_crlf "--X".toList 7 = some 11 ∧
    remove_http_request_boundary sample_multipart_no_crlf "X".toList =
      Except.ok "data".toList ∧
    (sample_multipart_no_crlf.drop 7).take (11 - 2 - 7) = "da".toList := by
  refine ⟨by decide, by decide, by decide, by rfl, by decide⟩

/-- When the closing delimiter follows the blank line directly (`e = s`), the
two bytes before it are the end of the CRLF CRLF; `content_end` then lies
before `content_start`, the count wraps, and the rest of the body is returned. -/
theorem remove_boundary_empty_payload :
    remove_http_request_boundary "--X\r\n\r\n--X--".toList "X".toList =
      Except.ok "--X--".toList := by
  rfl

/-! ## Theorems: the POST and DELETE handlers -/

theorem StdMap.get_set_of_ne (m : StdMap) (k v k2 : Str) (h : k ≠ k2) :
    (m.set k v).get k2 = m.get k2 := by
  induction m with
  | nil => simp only [StdMap.set, StdMap.get, if_neg h]
  | cons e t ih =>
    obtain ⟨k1, v1⟩ := e
    simp only [StdMap.set]
    by_cases h1 : k = k1
    · rw [if_pos h1]
      simp only [StdMap.get]
      rw [if_neg h, if_neg (by rw [← h1]; exact h)]
    · rw [if_neg h1]
      by_cases h2 : k < k1
      · rw [if_pos h2]
        simp only [StdMap.get]
        rw [if_neg h]
      · rw [if_neg h2]
        simp only [StdMap.get]
        rw [ih]

/-- A POST with a `content-length` header that the parser reported complete
has a header value that `stoull` reads. -/
theorem parsed_post_length_reads (r s : HttpRequest) (d : Str)
    (h : r.process_incoming_http_request d = Except.ok (s, true))
    (hm : s.http_request_method = HttpMethod.POST)
    (hcl : s.has_http_request_header "content-length".toList = true) :
    ∃ n, stoull (s.get_http_request_header "content-length".toList) = Except.ok n := by
  rcases process_cases r d s true h with h1 | h2 | h3
  · exact absurd h1.1 (by decide)
  · obtain ⟨_, _, hcah, _⟩ := h2
    unfold HttpRequest.completes_after_headers at hcah
    rw [hm, hcl] at hcah
    simp at hcah
  · obtain ⟨r0, hbp, _, _⟩ := h3
    obtain ⟨n, hn, _⟩ := (body_phase_flag r0 s true hbp).1 hcl
    exact ⟨n, hn⟩

theorem page_response_fields (http_response : HttpResponse) (status : Int) (page : Str) :
    (page_response http_response status page).http_response_status_code = status ∧
    (page_response http_response status page).http_response_headers.get
      "Content-Type".toList = some "text/html".toList ∧
    (page_response http_response status page).http_response_body = page := by
  refine ⟨rfl, ?_, rfl⟩
  unfold page_response HttpResponse.set_http_response_body
    HttpResponse.set_http_response_content_type HttpResponse.set_http_response_status_code
  dsimp only
  rw [StdMap.get_set_of_ne _ _ _ _ (by decide), StdMap.get_set_self]

/-- C15: for every POST request with a `content-length` header whose numeric
value, as `stoull` reads it, exceeds `max_post_request_size`,
`handle_http_post_request` leaves status 413, `Content-Type: text/html` and
the 413 page as body; the file system is the one it was given; and the result
is the same for every route table and for every outcome of the system calls,
so no route is resolved and no file is opened or written. -/
theorem C15_post_too_large (sys : SystemCalls) (config : ServerConfiguration)
    (fs : FileSystem) (url : Str) (http_request : HttpRequest) (http_response : HttpResponse)
    (server_listening_port : Int) (n : Nat)
    (hcl : http_request.has_http_request_header "content-length".toList = true)
    (hn : stoull (http_request.get_http_request_header "content-length".toList) = Except.ok n)
    (hbig : n > config.max_post_request_size) :
    (handle_http_post_request sys config fs url http_request http_response
        server_listening_port).1.http_response_status_code = 413 ∧
    (handle_http_post_request sys config fs url http_request http_response
        server_listening_port).1.http_response_headers.get "Content-Type".toList =
      some "text/html".toList ∧
    (handle_http_post_request sys config fs url http_request http_response
        server_listening_port).1.http_response_body = HTTP_PAGE_413_PAYLOAD_TOO_LARGE ∧
    (handle_http_post_request sys config fs url http_request http_response
        server_listening_port).2 = fs ∧
    (∀ (sys2 : SystemCalls) (url_routes2 : List Route),
      handle_http_post_request sys2 { config with url_routes := url_routes2 } fs url
          http_request http_response server_listening_port =
        handle_http_post_request sys config fs url http_request http_response
          server_listening_port) := by
  have hlimit : ∀ routes2 : List Route,
      post_exceeds_limit { config with url_routes := routes2 } http_request =
        Except.ok true := by
    intro routes2
    unfold post_exceeds_limit
    rw [if_pos hcl, hn]
    dsimp only
    rw [decide_eq_true hbig]
  have hres : ∀ (sys2 : SystemCalls) (routes2 : List Route),
      handle_http_post_request sys2 { config with url_routes := routes2 } fs url
          http_request http_response server_listening_port =
        (page_response http_response 413 HTTP_PAGE_413_PAYLOAD_TOO_LARGE, fs) := by
    intro sys2 routes2
    unfold handle_http_post_request
    rw [hlimit routes2]
  have h0 := hres sys config.url_routes
  have hcfg : ({ config with url_routes := config.url_routes } : ServerConfiguration) =
      config := rfl
  rw [hcfg] at h0
  obtain ⟨p1, p2, p3⟩ := page_response_fields http_response 413 HTTP_PAGE_413_PAYLOAD_TOO_LARGE
  rw [h0]
  refine ⟨p1, p2, p3, rfl, ?_⟩
  intro sys2 routes2
  exact hres sys2 routes2

theorem C15_post_too_large_witness :
    sample_post_request_state.has_http_request_header "content-length".toList = true ∧
    stoull (sample_post_request_state.get_http_request_header "content-length".toList) =
      Except.ok 5 ∧
    5 > sample_upload_configuration.max_post_request_size ∧
    (handle_http_post_request sample_system_calls sample_upload_configuration
        sample_file_system "/u".toList sample_post_request_state (HttpResponse.create [])
        8080).1.http_response_status_code = 413 ∧
    (handle_http_post_request sample_system_calls sample_upload_configuration
        sample_file_system "/u".toList sample_post_request_state (HttpResponse.create [])
        8080).1.http_response_body = HTTP_PAGE_413_PAYLOAD_TOO_LARGE :=
  have h := C15_post_too_large sample_system_calls sample_upload_configuration
    sample_file_system "/u".toList sample_post_request_state (HttpResponse.create []) 8080 5
    (by decide) (by rfl) (by decide)
  ⟨by decide, by rfl, by decide, h.1, h.2.2.1⟩

theorem find_last_of_segment (pre seg : Str) (hseg : '/' ∉ seg) :
    find_last_of (pre ++ '/' :: seg) '/' = some pre.length := by
  unfold find_last_of find_char find
  rw [find_aux_single]
  have hrev : (pre ++ '/' :: seg).reverse = seg.reverse ++ '/' :: pre.reverse := by
    simp
  rw [hrev, if_pos (by simp)]
  have htw : (seg.reverse ++ '/' :: pre.reverse).takeWhile (fun d => d != '/') =
      seg.reverse := by
    rw [List.takeWhile_append_of_pos]
    · simp
    · intro c hc
      have hc2 : c ∈ seg := List.mem_reverse.mp hc
      have : c ≠ '/' := fun hx => hseg (hx ▸ hc2)
      simpa using this
  dsimp only
  rw [htw]
  simp only [List.length_reverse, List.length_append, List.length_cons]
  congr 1
  omega

theorem last_path_segment_eq (pre seg : Str) (hseg : '/' ∉ seg) :
    last_path_segment (pre ++ '/' :: seg) = seg := by
  unfold last_path_segment
  rw [find_last_of_segment pre seg hseg]
  dsimp only
  simp

/-- C16: `handle_http_delete_request` decides in this order, and in each of
the three cases returns the file system it was given, with a response that
does not depend on the file system or on the outcome of a system call: no
route on the port for the URL gives status 403; a route that does not allow
DELETE gives 405 with the 405 page; otherwise, when the text after the last
`/` of the URL decodes to the empty string, the status is 400. -/
theorem C16_delete_decision_order (sys : SystemCalls) (config : ServerConfiguration)
    (fs : FileSystem) (url : Str) (http_response : HttpResponse)
    (server_listening_port : Int) :
    (find_url_route_for_listening_port config.url_routes server_listening_port url = none →
      handle_http_delete_request sys config fs url http_response server_listening_port =
        (http_response.set_http_response_status_code 403, fs)) ∧
    (∀ url_route,
      find_url_route_for_listening_port config.url_routes server_listening_port url =
        some url_route →
      HttpMethod.DELETE ∉ url_route.allowed_http_methods →
      handle_http_delete_request sys config fs url http_response server_listening_port =
          (page_response http_response 405 HTTP_PAGE_405_METHOD_NOT_ALLOWED, fs) ∧
        (page_response http_response 405
          HTTP_PAGE_405_METHOD_NOT_ALLOWED).http_response_status_code = 405 ∧
        (page_response http_response 405
          HTTP_PAGE_405_METHOD_NOT_ALLOWED).http_response_body =
            HTTP_PAGE_405_METHOD_NOT_ALLOWED) ∧
    (∀ url_route pre seg,
      find_url_route_for_listening_port config.url_routes server_listening_port url =
        some url_route →
      HttpMethod.DELETE ∈ url_route.allowed_http_methods →
      url = pre ++ '/' :: seg → '/' ∉ seg → url_decode seg = Except.ok [] →
      handle_http_delete_request sys config fs url http_response server_listening_port =
          (page_response http_response 400 HTTP_PAGE_400_BAD_REQUEST, fs) ∧
        (page_response http_response 400
          HTTP_PAGE_400_BAD_REQUEST).http_response_status_code = 400) := by
  refine ⟨?_, ?_, ?_⟩
  · intro hnone
    unfold handle_http_delete_request
    rw [hnone]
  · intro url_route hroute hnot
    refine ⟨?_, rfl, rfl⟩
    unfold handle_http_delete_request
    rw [hroute]
    dsimp only
    have : url_route.is_http_method_allowed HttpMethod.DELETE = false := by
      unfold Route.is_http_method_allowed
      exact decide_eq_false hnot
    rw [this]
    rfl
  · intro url_route pre seg hroute hallowed hurl hseg hdec
    refine ⟨?_, rfl⟩
    unfold handle_http_delete_request
    rw [hroute]
    dsimp only
    have : url_route.is_http_method_allowed HttpMethod.DELETE = true := by
      unfold Route.is_http_method_allowed
      exact decide_eq_true hallowed
    rw [this, hurl, last_path_segment_eq pre seg hseg, hdec]
    rfl

theorem C16_delete_decision_order_witness :
    (handle_http_delete_request sample_system_calls sample_upload_configuration
        sample_file_system "/x".toList (HttpResponse.create []) 9090).1.http_response_status_code
      = 403 ∧
    (handle_http_delete_request sample_system_calls sample_configuration
        sample_file_system "/x".toList (HttpResponse.create []) 8080).1.http_response_status_code
      = 405 ∧
    (handle_http_delete_request sample_system_calls sample_upload_configuration
        sample_file_system "/up/".toList (HttpResponse.create [])
        8080).1.http_response_status_code = 400 := by
  have h1 := (C16_delete_decision_order sample_system_calls sample_upload_configuration
    sample_file_system "/x".toList (HttpResponse.create []) 9090).1 (by decide)
  have h2 := ((C16_delete_decision_order sample_system_calls sample_configuration
    sample_file_system "/x".toList (HttpResponse.create []) 8080).2.1
    (start_url_route "./www".toList "/".toList 8080) (by decide) (by decide)).1
  have h3 := ((C16_delete_decision_order sample_system_calls sample_upload_configuration
    sample_file_system "/up/".toList (HttpResponse.create []) 8080).2.2
    { start_url_route "./www".toList "/".toList 8080 with
      allowed_http_methods := [HttpMethod.GET, HttpMethod.POST, HttpMethod.DELETE] }
    "/up".toList [] (by decide) (by decide) (by decide) (by decide) (by rfl)).1
  rw [h1, h2, h3]
  exact ⟨rfl, rfl, rfl⟩

/-! ## Theorems: the CGI handler -/

theorem sample_cgi_request_parsed :
    HttpRequest.create.process_incoming_http_request
        "GET /s.py?q=1 HTTP/1.1\r\nx-a: 1\r\nx_a: 2\r\n\r\n".toList =
      Except.ok (sample_cgi_request, true) := by
  rfl
theorem StdMap.get_set (m : StdMap) (k v k2 : Str) :
    (m.set k v).get k2 = if k = k2 then some v else m.get k2 := by
  by_cases h : k = k2
  · rw [if_pos h, ← h, StdMap.get_set_self]
  · rw [if_neg h, StdMap.get_set_of_ne m k v k2 h]

theorem http_header_variable_prefix (key : Str) :
    "HTTP_".toList <+: http_header_variable key := by
  unfold http_header_variable to_upper
  rw [List.map_append, List.map_append]
  exact ⟨_, rfl⟩

theorem setup_environment_headers_append (environment : StdMap) (a b : List (Str × Str)) :
    setup_environment_headers environment (a ++ b) =
      setup_environment_headers (setup_environment_headers environment a) b := by
  induction a generalizing environment with
  | nil => rfl
  | cons h t ih => exact ih (environment.set (http_header_variable h.1) h.2)

theorem setup_environment_headers_get_of_ne (headers : List (Str × Str)) (name : Str)
    (h : ∀ header ∈ headers, http_header_variable header.1 ≠ name) :
    ∀ environment : StdMap,
      (setup_environment_headers environment headers).get name = environment.get name := by
  induction headers with
  | nil => intro environment; rfl
  | cons hd tl ih =>
    intro environment
    simp only [setup_environment_headers]
    rw [ih (fun x hx => h x (List.mem_cons_of_mem _ hx)),
      StdMap.get_set_of_ne _ _ _ _ (h hd (List.mem_cons_self _ _))]

theorem setup_environment_headers_get_other (headers : List (Str × Str)) (name : Str)
    (hname : ¬ "HTTP_".toList <+: name) (environment : StdMap) :
    (setup_environment_headers environment headers).get name = environment.get name := by
  apply setup_environment_headers_get_of_ne
  intro header _ heq
  exact hname (heq ▸ http_header_variable_prefix header.1)

theorem setup_environment_headers_get_last (pre post : List (Str × Str)) (k v : Str)
    (h : ∀ header ∈ post, http_header_variable header.1 ≠ http_header_variable k)
    (environment : StdMap) :
    (setup_environment_headers environment (pre ++ (k, v) :: post)).get
      (http_header_variable k) = some v := by
  rw [setup_environment_headers_append]
  simp only [setup_environment_headers]
  rw [setup_environment_headers_get_of_ne post _ h, StdMap.get_set_self]

theorem setup_environment_finish_get (environment : StdMap) (m q : Str)
    (hm : environment.get "REQUEST_METHOD".toList = some m) (hne : m ≠ [])
    (hq : environment.get "QUERY_STRING".toList = some q) (name : Str) :
    (setup_environment_finish environment).get name = environment.get name := by
  unfold setup_environment_finish
  have h1 : environment.at "REQUEST_METHOD".toList = m := by
    unfold StdMap.at; rw [hm]; rfl
  have h2 : environment.at "QUERY_STRING".toList = q := by
    unfold StdMap.at; rw [hq]; rfl
  dsimp only
  rw [h1, if_neg hne, h2]
  by_cases hq0 : q = []
  · rw [if_pos hq0, StdMap.get_set]
    by_cases hn : "QUERY_STRING".toList = name
    · rw [if_pos hn, ← hn, hq, hq0]
    · rw [if_neg hn]
  · rw [if_neg hq0]

theorem find_char_first (p q : Str) (c : Char) (hp : c ∉ p) :
    find_char (p ++ c :: q) c = some p.length := by
  unfold find_char find
  rw [find_aux_single, if_pos (by simp)]
  have : (p ++ c :: q).takeWhile (fun d => d != c) = p := by
    rw [List.takeWhile_append_of_pos]
    · simp
    · intro d hd
      have : d ≠ c := fun hx => hp (hx ▸ hd)
      simpa using this
  rw [this, Nat.zero_add]

theorem find_char_none (s : Str) (c : Char) (hs : c ∉ s) : find_char s c = none := by
  unfold find_char find
  rw [find_aux_single, if_neg hs]

theorem setup_environment_base_get (request : HttpRequest) (A : Str) :
    let base := setup_environment_base request A
    base.get "GATEWAY_INTERFACE".toList = some "CGI/1.1".toList ∧
    base.get "SERVER_PROTOCOL".toList = some request.http_request_version ∧
    base.get "REDIRECT_STATUS".toList = some "200".toList ∧
    base.get "REQUEST_METHOD".toList =
      some (if request.http_request_method = HttpMethod.GET then "GET".toList
        else "POST".toList) ∧
    base.get "PATH_INFO".toList = some (before_first request.http_request_url '?') ∧
    base.get "PATH_TRANSLATED".toList = some A ∧
    base.get "SCRIPT_NAME".toList = some A ∧
    base.get "SCRIPT_FILENAME".toList = some A ∧
    base.get "QUERY_STRING".toList =
      some (match find_char request.http_request_url '?' with
        | some query_position => request.http_request_url.drop (query_position + 1)
        | none => []) ∧
    base.get "REQUEST_URI".toList = some request.http_request_url ∧
    (request.http_request_method = HttpMethod.POST →
      base.get "CONTENT_LENGTH".toList =
        some (request.get_http_request_header "Content-Length".toList) ∧
      base.get "CONTENT_TYPE".toList =
        some (request.get_http_request_header "Content-Type".toList)) ∧
    (request.http_request_method ≠ HttpMethod.POST →
      base.get "CONTENT_LENGTH".toList = none ∧ base.get "CONTENT_TYPE".toList = none) := by
  intro base
  have hbase : base = setup_environment_base request A := rfl
  unfold setup_environment_base at hbase
  by_cases hpost : request.http_request_method = HttpMethod.POST
  · rw [if_pos hpost] at hbase
    rw [hbase]
    simp only [StdMap.get_set, before_first]
    simp [StdMap.get, hpost]
  · rw [if_neg hpost] at hbase
    rw [hbase]
    simp only [StdMap.get_set, before_first]
    simp [StdMap.get, hpost]

/-- C20 (amended): for every request and resolved absolute script path `A`,
`setup_environment` builds a map with `GATEWAY_INTERFACE = CGI/1.1`,
`SERVER_PROTOCOL` the request version, `REDIRECT_STATUS = 200`,
`REQUEST_METHOD` `GET` for a GET and `POST` otherwise, `PATH_INFO` the URL
before its first `?`, `QUERY_STRING` the URL after its first `?` (empty
without one), `REQUEST_URI` the raw URL, `PATH_TRANSLATED`, `SCRIPT_NAME` and
`SCRIPT_FILENAME` equal to `A`, `CONTENT_LENGTH` and `CONTENT_TYPE` present
exactly for POST, whatever the request headers are; and for a request header
`(k, v)` the variable `HTTP_` + `k`, uppercased with `-` replaced by `_`, has
value `v` when no header later in the order of the map yields the same
variable name. -/
theorem C20_environment_map (sys : CgiSystem) (script_path : Str) (request : HttpRequest)
    (A : Str) (hreal : sys.realpath script_path = some A) :
    ∃ environment : StdMap,
      CGIHandler.setup_environment sys script_path request = Except.ok environment ∧
      environment.get "GATEWAY_INTERFACE".toList = some "CGI/1.1".toList ∧
      environment.get "SERVER_PROTOCOL".toList = some request.http_request_version ∧
      environment.get "REDIRECT_STATUS".toList = some "200".toList ∧
      environment.get "REQUEST_METHOD".toList =
        some (if request.http_request_method = HttpMethod.GET then "GET".toList
          else "POST".toList) ∧
      environment.get "REQUEST_URI".toList = some request.http_request_url ∧
      environment.get "PATH_TRANSLATED".toList = some A ∧
      environment.get "SCRIPT_NAME".toList = some A ∧
      environment.get "SCRIPT_FILENAME".toList = some A ∧
      (∀ p q, request.http_request_url = p ++ '?' :: q → '?' ∉ p →
        environment.get "PATH_INFO".toList = some p ∧
        environment.get "QUERY_STRING".toList = some q) ∧
      ('?' ∉ request.http_request_url →
        environment.get "PATH_INFO".toList = some request.http_request_url ∧
        environment.get "QUERY_STRING".toList = some []) ∧
      (request.http_request_method = HttpMethod.POST →
        environment.get "CONTENT_LENGTH".toList =
          some (request.get_http_request_header "Content-Length".toList) ∧
        environment.get "CONTENT_TYPE".toList =
          some (request.get_http_request_header "Content-Type".toList)) ∧
      (request.http_request_method ≠ HttpMethod.POST →
        environment.get "CONTENT_LENGTH".toList = none ∧
        environment.get "CONTENT_TYPE".toList = none) ∧
      (∀ pre k v post, request.http_request_headers = pre ++ (k, v) :: post →
        (∀ header ∈ post, http_header_variable header.1 ≠ http_header_variable k) →
        environment.get (http_header_variable k) = some v) := by
  obtain ⟨b1, b2, b3, b4, b5, b6, b7, b8, b9, b10, b11, b12⟩ :=
    setup_environment_base_get request A
  have hloop : ∀ name, ¬ "HTTP_".toList <+: name →
      (setup_environment_headers (setup_environment_base request A)
        request.http_request_headers).get name =
      (setup_environment_base request A).get name :=
    fun name hname => setup_environment_headers_get_other _ name hname _
  have hmethod : (if request.http_request_method = HttpMethod.GET then "GET".toList
      else "POST".toList) ≠ [] := by
    split <;> decide
  have hfin : ∀ name,
      (setup_environment_finish (setup_environment_headers
        (setup_environment_base request A) request.http_request_headers)).get name =
      (setup_environment_headers (setup_environment_base request A)
        request.http_request_headers).get name := by
    intro name
    have h1 := (hloop "REQUEST_METHOD".toList (by decide)).trans b4
    have h2 := (hloop "QUERY_STRING".toList (by decide)).trans b9
    exact setup_environment_finish_get _ _ _ h1 hmethod h2 name
  have hother : ∀ name, ¬ "HTTP_".toList <+: name →
      (setup_environment_finish (setup_environment_headers
        (setup_environment_base request A) request.http_request_headers)).get name =
      (setup_environment_base request A).get name :=
    fun name hname => (hfin name).trans (hloop name hname)
  refine ⟨setup_environment_finish (setup_environment_headers
    (setup_environment_base request A) request.http_request_headers),
    ?_, ?_, ?_, ?_, ?_, ?_, ?_, ?_, ?_, ?_, ?_, ?_, ?_, ?_⟩
  · unfold CGIHandler.setup_environment
    rw [hreal]
  · rw [hother _ (by decide)]; exact b1
  · rw [hother _ (by decide)]; exact b2
  · rw [hother _ (by decide)]; exact b3
  · rw [hother _ (by decide)]; exact b4
  · rw [hother _ (by decide)]; exact b10
  · rw [hother _ (by decide)]; exact b6
  · rw [hother _ (by decide)]; exact b7
  · rw [hother _ (by decide)]; exact b8
  · intro p q hurl hp
    rw [hother _ (by decide), hother _ (by decide), b5, b9]
    unfold before_first
    rw [hurl, find_char_first p q '?' hp]
    dsimp only
    refine ⟨?_, ?_⟩
    · rw [List.take_left']
      rfl
    · congr 1
      rw [List.drop_append_eq_append_drop]
      simp
  · intro hno
    rw [hother _ (by decide), hother _ (by decide), b5, b9]
    unfold before_first
    rw [find_char_none _ _ hno]
    exact ⟨rfl, rfl⟩
  · intro hpost
    rw [hother _ (by decide), hother _ (by decide)]
    exact b11 hpost
  · intro hpost
    rw [hother _ (by decide), hother _ (by decide)]
    exact b12 hpost
  · intro pre k v post hheaders hlast
    rw [hfin, hheaders]
    exact setup_environment_headers_get_last pre post k v hlast _

theorem C20_environment_map_witness :
    (sample_cgi_system []).realpath "s.py".toList = some "/srv/s.py".toList ∧
    ∃ environment : StdMap,
      CGIHandler.setup_environment (sample_cgi_system []) "s.py".toList sample_cgi_request =
        Except.ok environment ∧
      environment.get "SCRIPT_FILENAME".toList = some "/srv/s.py".toList ∧
      environment.get "PATH_INFO".toList = some "/s.py".toList ∧
      environment.get "QUERY_STRING".toList = some "q=1".toList ∧
      environment.get "CONTENT_LENGTH".toList = none ∧
      environment.get "HTTP_X_A".toList = some "2".toList := by
  refine ⟨rfl, ?_⟩
  obtain ⟨environment, h0, _, _, _, _, _, _, _, h8, h9, _, _, h12, h13⟩ :=
    C20_environment_map (sample_cgi_system []) "s.py".toList sample_cgi_request
      "/srv/s.py".toList rfl
  have hq := h9 "/s.py".toList "q=1".toList (by decide) (by decide)
  have hx := h13 [("x-a".toList, "1".toList)] "x_a".toList "2".toList [] (by decide)
    (by intro header hh; cases hh)
  exact ⟨environment, h0, h8, hq.1, hq.2, (h12 (by decide)).1, hx⟩

/-- C20, counterexample: the request with the headers `x-a: 1` and `x_a: 2`
has the header `(x-a, 1)`, whose variable is `HTTP_X_A`, and in the map that
`setup_environment` builds `HTTP_X_A` has the value `2`. -/
theorem C20_counterexample_header_collision :
    ("x-a".toList, "1".toList) ∈ sample_cgi_request.http_request_headers ∧
    http_header_variable "x-a".toList = "HTTP_X_A".toList ∧
    (match CGIHandler.setup_environment (sample_cgi_system []) "s.py".toList
        sample_cgi_request with
      | Except.ok environment => environment.get "HTTP_X_A".toList
      | Except.error _ => none) = some "2".toList := by
  refine ⟨by decide, by decide, by decide⟩


theorem cgi_header_line_of_form (name value : Str) (hname : ∀ c ∈ name, c ≠ ':') :
    cgi_header_line (name ++ ": ".toList ++ value) =
      some (name, if value.getLast? = some '\r' then value.dropLast else value) := by
  unfold cgi_header_line
  have hlen : (name ++ ": ".toList ++ value).length ≥ 2 := by
    simp only [List.length_append]
    have : ": ".toList.length = 2 := rfl
    omega
  have hne : ¬ (name ++ ": ".toList ++ value = [] ∨ name ++ ": ".toList ++ value = ['\r']) := by
    intro h
    rcases h with h | h
    · rw [h] at hlen; simp at hlen
    · rw [h] at hlen; simp at hlen
  rw [if_neg hne]
  have hfind : find (name ++ ": ".toList ++ value) ": ".toList = some name.length := by
    unfold find
    rw [List.append_assoc]
    have h1 := find_aux_skip ':' [' '] name (": ".toList ++ value) hname 0
    have h2 : (": ".toList : Str) = ':' :: [' '] := rfl
    rw [h2] at h1 ⊢
    rw [h1, Nat.zero_add]
    exact find_aux_here _ _ _ ⟨value, rfl⟩
  rw [hfind]
  dsimp only
  have htake : (name ++ ": ".toList ++ value).take name.length = name := by
    rw [List.append_assoc, List.take_left']
    rfl
  have hdrop : (name ++ ": ".toList ++ value).drop (name.length + 2) = value := by
    have h2 : name.length + 2 = (name ++ ": ".toList).length := by
      rw [List.length_append]; rfl
    rw [h2, List.drop_left']
    rfl
  rw [htake, hdrop]

theorem cgi_header_lines_keeps (lines : List Str) :
    ∀ response : HttpResponse,
      (cgi_header_lines response lines).http_response_body = response.http_response_body ∧
      (cgi_header_lines response lines).http_response_status_code =
        response.http_response_status_code ∧
      (cgi_header_lines response lines).http_version = response.http_version := by
  induction lines with
  | nil => intro response; exact ⟨rfl, rfl, rfl⟩
  | cons l rest ih =>
    intro response
    simp only [cgi_header_lines]
    cases hl : cgi_header_line l with
    | none => exact ih response
    | some kv =>
      obtain ⟨k, v⟩ := kv
      exact ih (response.set_http_response_header k v)

theorem cgi_header_lines_append (a b : List Str) :
    ∀ response : HttpResponse,
      cgi_header_lines response (a ++ b) = cgi_header_lines (cgi_header_lines response a) b := by
  induction a with
  | nil => intro response; rfl
  | cons l rest ih =>
    intro response
    simp only [List.cons_append, cgi_header_lines]
    cases hl : cgi_header_line l with
    | none => exact ih response
    | some kv =>
      obtain ⟨k, v⟩ := kv
      exact ih (response.set_http_response_header k v)

theorem cgi_header_lines_get_of_ne (lines : List Str) (key : Str)
    (h : ∀ line ∈ lines, ∀ kv, cgi_header_line line = some kv → kv.1 ≠ key) :
    ∀ response : HttpResponse,
      (cgi_header_lines response lines).http_response_headers.get key =
        response.http_response_headers.get key := by
  induction lines with
  | nil => intro response; rfl
  | cons l rest ih =>
    intro response
    have ih2 := ih (fun line hl => h line (List.mem_cons_of_mem _ hl))
    simp only [cgi_header_lines]
    cases hl : cgi_header_line l with
    | none => exact ih2 response
    | some kv =>
      obtain ⟨k, v⟩ := kv
      dsimp only
      rw [ih2]
      unfold HttpResponse.set_http_response_header
      dsimp only
      exact StdMap.get_set_of_ne _ _ _ _ (h l (List.mem_cons_self _ _) (k, v) hl)

theorem cgi_header_lines_get_last (pre post : List Str) (line key value : Str)
    (hline : cgi_header_line line = some (key, value))
    (h : ∀ later ∈ post, ∀ kv, cgi_header_line later = some kv → kv.1 ≠ key)
    (response : HttpResponse) :
    (cgi_header_lines response (pre ++ line :: post)).http_response_headers.get key =
      some value := by
  rw [cgi_header_lines_append]
  simp only [cgi_header_lines, hline]
  rw [cgi_header_lines_get_of_ne post key h]
  unfold HttpResponse.set_http_response_header
  dsimp only
  exact StdMap.get_set_self _ _ _

/-- C19 (amended): for every output `o` of a successfully executed CGI script
the status is 200 and `Content-Length` is the decimal length of the body. If
`o` contains CRLF CRLF, the body is the part of `o` after the first CRLF CRLF,
and a line of the part before it that holds `: `, read as name before the
first `: ` and value after it without a final CR, becomes the response header
name = value when no later line has the same name and the name is not
`Content-Length`. If `o` contains no CRLF CRLF, the body is all of `o` and
`Content-Type` is `text/html`. -/
theorem C19_cgi_output (sys : CgiSystem) (script_path cgi_executable : Str)
    (request : HttpRequest) (response : HttpResponse) (environment : StdMap) (o : Str)
    (henv : CGIHandler.setup_environment sys script_path request = Except.ok environment)
    (hexec : sys.execute_cgi_script script_path cgi_executable environment
      (cgi_request_body sys request) = Except.ok o) :
    (CGIHandler.handle_request sys script_path cgi_executable request
      response).http_response_status_code = 200 ∧
    (CGIHandler.handle_request sys script_path cgi_executable request
      response).http_response_headers.get "Content-Length".toList =
        some (to_string (CGIHandler.handle_request sys script_path cgi_executable request
          response).http_response_body.length) ∧
    (∀ header_end, find o "\r\n\r\n".toList = some header_end →
      (CGIHandler.handle_request sys script_path cgi_executable request
        response).http_response_body = o.drop (header_end + 4) ∧
      ∀ pre line post key value,
        getlines (o.take header_end) = pre ++ line :: post →
        cgi_header_line line = some (key, value) →
        (∀ later ∈ post, ∀ kv, cgi_header_line later = some kv → kv.1 ≠ key) →
        key ≠ "Content-Length".toList →
        (CGIHandler.handle_request sys script_path cgi_executable request
          response).http_response_headers.get key = some value) ∧
    (find o "\r\n\r\n".toList = none →
      (CGIHandler.handle_request sys script_path cgi_executable request
        response).http_response_body = o ∧
      (CGIHandler.handle_request sys script_path cgi_executable request
        response).http_response_headers.get "Content-Type".toList =
          some "text/html".toList) := by
  have hrun : CGIHandler.handle_request sys script_path cgi_executable request response =
      cgi_response_of_output response o := by
    unfold CGIHandler.handle_request
    rw [henv]
    dsimp only
    rw [hexec]
  rw [hrun]
  unfold cgi_response_of_output
  cases hf : find o "\r\n\r\n".toList with
  | none =>
    dsimp only
    refine ⟨rfl, ?_, ?_, ?_⟩
    · exact StdMap.get_set_self _ _ _
    · intro header_end h; cases h
    · intro _
      refine ⟨rfl, ?_⟩
      unfold HttpResponse.set_http_response_status_code HttpResponse.set_http_response_body
        HttpResponse.set_http_response_content_type
      dsimp only
      rw [StdMap.get_set_of_ne _ _ _ _ (by decide), StdMap.get_set_self]
  | some he =>
    dsimp only
    refine ⟨rfl, ?_, ?_, ?_⟩
    · exact StdMap.get_set_self _ _ _
    · intro header_end h
      cases h
      refine ⟨rfl, ?_⟩
      intro pre line post key value hlines hline hlater hkey
      unfold HttpResponse.set_http_response_status_code HttpResponse.set_http_response_body
      dsimp only
      rw [StdMap.get_set_of_ne _ _ _ _ (Ne.symm hkey), hlines]
      exact cgi_header_lines_get_last pre post line key value hline hlater response
    · intro h; cases h

theorem C19_cgi_output_witness :
    (CGIHandler.handle_request (sample_cgi_system sample_cgi_output) "s.py".toList
      "/usr/bin/python3".toList sample_cgi_request
      (HttpResponse.create [])).http_response_status_code = 200 ∧
    (CGIHandler.handle_request (sample_cgi_system sample_cgi_output) "s.py".toList
      "/usr/bin/python3".toList sample_cgi_request
      (HttpResponse.create [])).http_response_body = "hi".toList ∧
    (CGIHandler.handle_request (sample_cgi_system sample_cgi_output) "s.py".toList
      "/usr/bin/python3".toList sample_cgi_request
      (HttpResponse.create [])).http_response_headers.get "Status".toList =
        some "404 Not Found".toList ∧
    (CGIHandler.handle_request (sample_cgi_system sample_cgi_output) "s.py".toList
      "/usr/bin/python3".toList sample_cgi_request
      (HttpResponse.create [])).http_response_headers.get "Content-Type".toList =
        some "text/plain".toList := by
  have h := C19_cgi_output (sample_cgi_system sample_cgi_output) "s.py".toList
    "/usr/bin/python3".toList sample_cgi_request (HttpResponse.create [])
    (setup_environment_finish (setup_environment_headers
      (setup_environment_base sample_cgi_request "/srv/s.py".toList)
      sample_cgi_request.http_request_headers)) sample_cgi_output rfl rfl
  have h2 := h.2.2.1 47 (by decide)
  refine ⟨h.1, h2.1.trans (by decide), ?_, ?_⟩
  · exact h2.2 [] "Status: 404 Not Found\r".toList ["Content-Type: text/plain".toList]
      "Status".toList "404 Not Found".toList (by decide) (by decide)
      (by
        intro later hl kv hkv
        rw [List.mem_singleton] at hl
        subst hl
        have : cgi_header_line "Content-Type: text/plain".toList =
            some ("Content-Type".toList, "text/plain".toList) := by decide
        rw [this] at hkv
        cases hkv
        decide)
      (by decide)
  · exact h2.2 ["Status: 404 Not Found\r".toList] "Content-Type: text/plain".toList []
      "Content-Type".toList "text/plain".toList (by decide) (by decide)
      (by intro later hl; cases hl)
      (by decide)

/-- C19, counterexample: the output `Content-Length: 999` CRLF CRLF `hi` has
the line `Content-Length: 999` before its first CRLF CRLF, and the response
header `Content-Length` is `2`, not `999`; the status is 200. -/
theorem C19_counterexample_content_length :
    find sample_cgi_output_length "\r\n\r\n".toList = some 19 ∧
    getlines (sample_cgi_output_length.take 19) = ["Content-Length: 999".toList] ∧
    cgi_header_line "Content-Length: 999".toList =
      some ("Content-Length".toList, "999".toList) ∧
    (CGIHandler.handle_request (sample_cgi_system sample_cgi_output_length) "s.py".toList
      "/usr/bin/python3".toList sample_cgi_request
      (HttpResponse.create [])).http_response_headers.get "Content-Length".toList =
        some "2".toList ∧
    (CGIHandler.handle_request (sample_cgi_system sample_cgi_output_length) "s.py".toList
      "/usr/bin/python3".toList sample_cgi_request
      (HttpResponse.create [])).http_response_status_code = 200 := by
  refine ⟨by decide, by decide, by decide, by decide, by decide⟩

/-- Of two lines with the same name in the header part of a CGI output the
later one gives the response header. -/
theorem cgi_duplicate_header_last_wins :
    (CGIHandler.handle_request (sample_cgi_system "X: 1\r\nX: 2\r\n\r\nhi".toList)
      "s.py".toList "/usr/bin/python3".toList sample_cgi_request
      (HttpResponse.create [])).http_response_headers.get "X".toList = some "2".toList := by
  decide

/-! ## Theorems: the chunked-body decoder returns -/

theorem getline_shorter (stream line rest : Str) (h : getline stream = some (line, rest)) :
    rest.length < stream.length := by
  unfold getline at h
  split at h
  · cases h
  · rename_i hne
    cases h
    have h1 : (stream.dropWhile (fun c => c != '\n')).length ≤ stream.length :=
      (List.dropWhile_suffix _).length_le
    have h2 : 0 < stream.length := List.length_pos.mpr hne
    rw [List.length_drop]
    omega

/-- The loop of `unchunk_request_body` returns when it is given more fuel than
the stream has characters. -/
theorem unchunk_loop_returns (uninit : Nat → Char) :
    ∀ (fuel : Nat) (stream : Str) (failed : Bool) (chunk_size : Nat) (result : Str),
      (failed = true → 1 ≤ fuel) → (failed = false → stream.length < fuel) →
      (unchunk_loop uninit fuel stream failed chunk_size result).isSome = true := by
  intro fuel
  induction fuel with
  | zero =>
    intro stream failed chunk_size result h1 h2
    cases failed
    · exact absurd (h2 rfl) (Nat.not_lt_zero _)
    · exact absurd (h1 rfl) (by decide)
  | succ fuel ih =>
    intro stream failed chunk_size result h1 h2
    unfold unchunk_loop
    cases failed with
    | true => rfl
    | false =>
      simp only [Bool.false_eq_true, if_false]
      have hlen := h2 rfl
      cases hg : getline stream with
      | none => rfl
      | some p =>
        obtain ⟨line0, stream1⟩ := p
        have hshort := getline_shorter stream line0 stream1 hg
        dsimp only
        generalize extract_hex (if line0.getLast? = some '\r' then line0.dropLast else line0)
          chunk_size = n
        by_cases hn : n = 0
        · rw [if_pos hn]; rfl
        · rw [if_neg hn]
          apply ih
          · intro _; omega
          · intro _
            split
            · rw [List.length_drop]; omega
            · rw [List.length_drop, List.length_drop]; omega

/-- The decoder always returns: `unchunk_request_body` is total. -/
theorem unchunk_request_body_returns (uninit : Nat → Char) (chunk_size0 : Nat)
    (chunked_body : Str) :
    (unchunk_request_body uninit chunk_size0 chunked_body).isSome = true := by
  unfold unchunk_request_body
  exact unchunk_loop_returns uninit _ _ _ _ _ (by intro h; cases h) (by intro _; omega)

/-! ## Theorems: the `Content-Length` field -/

theorem StdMap.mem_set (m : StdMap) (k v : Str) :
    ∀ e ∈ m.set k v, e = (k, v) ∨ e ∈ m := by
  induction m with
  | nil =>
    intro e he
    simp only [StdMap.set, List.mem_singleton] at he
    exact Or.inl he
  | cons hd t ih =>
    obtain ⟨k1, v1⟩ := hd
    intro e he
    simp only [StdMap.set] at he
    by_cases h1 : k = k1
    · rw [if_pos h1] at he
      rcases List.mem_cons.mp he with h | h
      · exact Or.inl h
      · exact Or.inr (List.mem_cons_of_mem _ h)
    · rw [if_neg h1] at he
      by_cases h2 : k < k1
      · rw [if_pos h2] at he
        rcases List.mem_cons.mp he with h | h
        · exact Or.inl h
        · exact Or.inr h
      · rw [if_neg h2] at he
        rcases List.mem_cons.mp he with h | h
        · exact Or.inr (h ▸ List.mem_cons_self _ _)
        · rcases ih e h with h3 | h3
          · exact Or.inl h3
          · exact Or.inr (List.mem_cons_of_mem _ h3)

theorem StdMap.set_ordered (m : StdMap) (k v : Str) (h : m.Ordered) : (m.set k v).Ordered := by
  unfold StdMap.Ordered at h ⊢
  induction m with
  | nil => simp [StdMap.set]
  | cons hd t ih =>
    obtain ⟨k1, v1⟩ := hd
    rw [List.pairwise_cons] at h
    obtain ⟨hhd, htl⟩ := h
    simp only [StdMap.set]
    by_cases h1 : k = k1
    · rw [if_pos h1, List.pairwise_cons]
      refine ⟨?_, htl⟩
      intro b hb
      rw [h1]
      exact hhd b hb
    · rw [if_neg h1]
      by_cases h2 : k < k1
      · rw [if_pos h2, List.pairwise_cons, List.pairwise_cons]
        refine ⟨?_, hhd, htl⟩
        intro b hb
        rcases List.mem_cons.mp hb with hb1 | hb1
        · rw [hb1]; exact h2
        · exact lt_trans h2 (hhd b hb1)
      · rw [if_neg h2, List.pairwise_cons]
        refine ⟨?_, ih htl⟩
        intro b hb
        rcases StdMap.mem_set t k v b hb with hb1 | hb1
        · rw [hb1]
          exact lt_of_le_of_ne (not_lt.mp h2) (Ne.symm h1)
        · exact hhd b hb1

theorem StdMap.filter_of_get (m : StdMap) (k v : Str) (h : m.Ordered)
    (hget : m.get k = some v) :
    m.filter (fun e => decide (e.1 = k)) = [(k, v)] := by
  unfold StdMap.Ordered at h
  induction m with
  | nil => simp [StdMap.get] at hget
  | cons hd t ih =>
    obtain ⟨k1, v1⟩ := hd
    rw [List.pairwise_cons] at h
    obtain ⟨hhd, htl⟩ := h
    simp only [StdMap.get] at hget
    by_cases h1 : k1 = k
    · rw [if_pos h1] at hget
      cases hget
      have hnone : t.filter (fun e => decide (e.1 = k)) = [] := by
        rw [List.filter_eq_nil_iff]
        intro b hb
        have hlt := hhd b hb
        dsimp only at hlt
        rw [h1] at hlt
        simp only [decide_eq_true_eq]
        exact fun heq => absurd (heq ▸ hlt) (lt_irrefl _)
      rw [List.filter_cons_of_pos (by simp [h1]), hnone, h1]
    · rw [if_neg h1] at hget
      rw [List.filter_cons_of_neg (by simp [h1])]
      exact ih htl hget

theorem headers_ok_set (K : Str → Prop) (r : HttpResponse) (k v : Str) (hK : K k)
    (h : r.headers_ok K) : (r.set_http_response_header k v).headers_ok K := by
  unfold HttpResponse.headers_ok HttpResponse.set_http_response_header at *
  dsimp only
  refine ⟨StdMap.set_ordered _ _ _ h.1, ?_⟩
  intro e he
  rcases StdMap.mem_set _ _ _ e he with h1 | h1
  · rw [h1]; exact hK
  · exact h.2 e h1

theorem kept_status (K : Str → Prop) (r : HttpResponse) (status : Int) (h : r.kept K) :
    (r.set_http_response_status_code status).kept K := h

theorem headers_ok_status (K : Str → Prop) (r : HttpResponse) (status : Int)
    (h : r.headers_ok K) : (r.set_http_response_status_code status).headers_ok K := h

theorem headers_ok_content_type (K : Str → Prop) (r : HttpResponse) (content_type : Str)
    (hK : ∀ name ∈ response_header_names, K name) (h : r.headers_ok K) :
    (r.set_http_response_content_type content_type).headers_ok K :=
  headers_ok_set K r "Content-Type".toList content_type (hK _ (by decide)) h

theorem kept_body (K : Str → Prop) (r : HttpResponse) (content : Str)
    (hK : ∀ name ∈ response_header_names, K name) (h : r.headers_ok K) :
    (r.set_http_response_body content).kept K := by
  refine ⟨?_, ?_⟩
  · exact headers_ok_set K r "Content-Length".toList (to_string content.length)
      (hK _ (by decide)) h
  · intro _
    exact StdMap.get_set_self _ _ _

theorem kept_content_type (K : Str → Prop) (r : HttpResponse) (content_type : Str)
    (hK : ∀ name ∈ response_header_names, K name) (h : r.kept K) :
    (r.set_http_response_content_type content_type).kept K := by
  refine ⟨headers_ok_content_type K r content_type hK h.1, ?_⟩
  intro hb
  have := h.2 hb
  unfold HttpResponse.set_http_response_content_type
  dsimp only
  rw [StdMap.get_set_of_ne _ _ _ _ (by decide)]
  exact this

theorem kept_location (K : Str → Prop) (r : HttpResponse) (value : Str)
    (hK : ∀ name ∈ response_header_names, K name) (h : r.kept K) :
    (r.set_http_response_header "Location".toList value).kept K := by
  refine ⟨headers_ok_set K r _ value (hK _ (by decide)) h.1, ?_⟩
  intro hb
  have := h.2 hb
  unfold HttpResponse.set_http_response_header
  dsimp only
  rw [StdMap.get_set_of_ne _ _ _ _ (by decide)]
  exact this

theorem kept_page_response (K : Str → Prop) (r : HttpResponse) (status : Int) (page : Str)
    (hK : ∀ name ∈ response_header_names, K name) (h : r.headers_ok K) :
    (page_response r status page).kept K := by
  unfold page_response
  exact kept_body K _ page hK
    (headers_ok_content_type K _ _ hK (headers_ok_status K r status h))

theorem kept_create (K : Str → Prop) (date : Str)
    (hK : ∀ name ∈ response_header_names, K name) : (HttpResponse.create date).kept K := by
  refine ⟨?_, ?_⟩
  · unfold HttpResponse.create HttpResponse.add_default_http_response_headers
    have h0 : HttpResponse.headers_ok K
        { http_response_headers := [], http_response_status_code := 200,
          http_response_body := [], http_version := "HTTP/1.1".toList } :=
      ⟨List.Pairwise.nil, fun e he => absurd he (List.not_mem_nil e)⟩
    have h1 := headers_ok_set K _ "Date".toList date (hK _ (by decide)) h0
    have h2 := headers_ok_set K _ "Server".toList "webserv/1.0".toList (hK _ (by decide)) h1
    exact headers_ok_set K _ "Connection".toList "keep-alive".toList (hK _ (by decide)) h2
  · intro hb
    exact absurd rfl hb

theorem kept_serve_error_page (K : Str → Prop) (config : ServerConfiguration)
    (fs : FileSystem) (r : HttpResponse) (code : Int)
    (hK : ∀ name ∈ response_header_names, K name) (h : r.headers_ok K) :
    (serve_error_page config fs r code).kept K := by
  unfold serve_error_page
  dsimp only
  split
  · split
    · exact kept_status K _ _ (kept_body K _ _ hK (headers_ok_content_type K _ _ hK h))
    · exact kept_body K _ _ hK (headers_ok_content_type K _ _ hK
        (headers_ok_status K _ _ (headers_ok_content_type K _ _ hK h)))
  · exact kept_status K _ _ (kept_body K _ _ hK (headers_ok_content_type K _ _ hK h))

theorem kept_directory_listing (K : Str → Prop) (env : Environment)
    (config : ServerConfiguration) (fs : FileSystem) (url_route : Route)
    (directory_path url : Str) (r : HttpResponse)
    (hK : ∀ name ∈ response_header_names, K name) (h : r.kept K) :
    (handle_directory_listing env config fs url_route directory_path url r).2.1.kept K := by
  unfold handle_directory_listing
  dsimp only
  split
  · split
    · exact h
    · split
      · exact h
      · exact kept_serve_error_page K _ _ _ _ hK h.1
  · split
    · exact kept_serve_error_page K _ _ _ _ hK h.1
    · split
      · exact h
      · split
        · exact h
        · split
          · exact kept_status K _ _ (kept_body K _ _ hK
              (headers_ok_content_type K _ _ hK h.1))
          · exact kept_serve_error_page K _ _ _ _ hK
              (headers_ok_content_type K _ _ hK h.1)

theorem headers_ok_cgi_header_lines (K : Str → Prop) (lines : List Str)
    (hlines : ∀ line ∈ lines, ∀ kv, cgi_header_line line = some kv → K kv.1) :
    ∀ r : HttpResponse, r.headers_ok K → (cgi_header_lines r lines).headers_ok K := by
  induction lines with
  | nil => intro r h; exact h
  | cons l rest ih =>
    intro r h
    have ih2 := ih (fun line hl => hlines line (List.mem_cons_of_mem _ hl))
    simp only [cgi_header_lines]
    cases hl : cgi_header_line l with
    | none => exact ih2 r h
    | some kv =>
      obtain ⟨k, v⟩ := kv
      exact ih2 _ (headers_ok_set K r k v (hlines l (List.mem_cons_self _ _) (k, v) hl) h)

theorem kept_cgi_handle_request (K : Str → Prop) (sys : CgiSystem)
    (script_path cgi_executable : Str) (request : HttpRequest) (r : HttpResponse)
    (hK : ∀ name ∈ response_header_names, K name) (hsys : sys.names_ok K)
    (h : r.headers_ok K) :
    (CGIHandler.handle_request sys script_path cgi_executable request r).kept K := by
  unfold CGIHandler.handle_request
  have hfail : ∀ what, (cgi_failure r what).kept K := by
    intro what
    unfold cgi_failure
    exact kept_body K _ _ hK (headers_ok_status K _ _ h)
  split
  · exact hfail _
  · rename_i environment _
    split
    · exact hfail _
    · rename_i cgi_output hexec
      unfold cgi_response_of_output
      cases hf : find cgi_output "\r\n\r\n".toList with
      | none =>
        exact kept_status K _ _ (kept_body K _ _ hK (headers_ok_content_type K _ _ hK h))
      | some header_end =>
        dsimp only
        refine kept_status K _ _ (kept_body K _ _ hK ?_)
        exact headers_ok_cgi_header_lines K _
          (hsys script_path cgi_executable environment _ cgi_output hexec header_end hf) r h

theorem kept_get (K : Str → Prop) (env : Environment) (config : ServerConfiguration)
    (fs : FileSystem) (url : Str) (request : HttpRequest) (r : HttpResponse) (port : Int)
    (hK : ∀ name ∈ response_header_names, K name)
    (hcgi : ∀ fs2 script_path cgi_executable rq rs, HttpResponse.headers_ok K rs →
      (env.cgi_handle_request fs2 script_path cgi_executable rq rs).kept K)
    (h : r.kept K) :
    (handle_http_get_request env config fs url request r port).kept K := by
  unfold handle_http_get_request
  cases hdec : url_decode url with
  | error e => exact kept_serve_error_page K _ _ _ _ hK h.1
  | ok decoded =>
    dsimp only
    cases hroute : find_url_route_for_listening_port config.url_routes port decoded with
    | none => exact kept_status K _ _ h
    | some url_route =>
      dsimp only
      by_cases hred : url_route.should_redirect = true
      · rw [if_pos hred]
        exact kept_location K _ _ hK (kept_status K _ _ h)
      · rw [if_neg hred]
        cases hrun : handle_cgi_request env fs url_route
            (url_route.file_system_root ++ decoded) request r with
        | some response =>
          dsimp only
          unfold handle_cgi_request at hrun
          split at hrun
          · cases hrun
          · cases hrun
            exact hcgi _ _ _ _ _ h.1
        | none =>
          dsimp only
          have hres : (if is_directory fs (url_route.file_system_root ++ decoded) = true then
              handle_directory_listing env config fs url_route
                (url_route.file_system_root ++ decoded) url r
              else (url_route.file_system_root ++ decoded, r, fs)).2.1.kept K := by
            split
            · exact kept_directory_listing K _ _ _ _ _ _ _ hK h
            · exact h
          generalize (if is_directory fs (url_route.file_system_root ++ decoded) = true then
              handle_directory_listing env config fs url_route
                (url_route.file_system_root ++ decoded) url r
              else (url_route.file_system_root ++ decoded, r, fs)) = resolved at hres ⊢
          split
          · exact hres
          · split
            · exact kept_serve_error_page K _ _ _ _ hK hres.1
            · split
              · exact kept_status K _ _ (kept_body K _ _ hK
                  (headers_ok_content_type K _ _ hK hres.1))
              · exact kept_serve_error_page K _ _ _ _ hK
                  (headers_ok_content_type K _ _ hK hres.1)

theorem kept_post_store (K : Str → Prop) (sys : SystemCalls) (fs : FileSystem)
    (r : HttpResponse) (filepath body : Str)
    (hK : ∀ name ∈ response_header_names, K name) (h : r.kept K) :
    (if !sys.open_succeeds fs filepath then
        (r.set_http_response_status_code 500, fs)
      else
        if body ≠ [] then
          match sys.bytes_written (fs.store filepath (some (FsNode.file []))) filepath body with
          | none =>
            (r.set_http_response_status_code 500, fs.store filepath (some (FsNode.file [])))
          | some count =>
            (page_response r 201 HTTP_PAGE_201_CREATED,
              (fs.store filepath (some (FsNode.file []))).store filepath
                (some (FsNode.file (body.take count))))
        else
          (page_response r 201 HTTP_PAGE_201_CREATED,
            fs.store filepath (some (FsNode.file [])))).1.kept K := by
  split
  · exact kept_status K _ _ h
  · split
    · split
      · exact kept_status K _ _ h
      · exact kept_page_response K _ _ _ hK h.1
    · exact kept_page_response K _ _ _ hK h.1

theorem kept_post (K : Str → Prop) (sys : SystemCalls) (config : ServerConfiguration)
    (fs : FileSystem) (url : Str) (request : HttpRequest) (r : HttpResponse) (port : Int)
    (hK : ∀ name ∈ response_header_names, K name) (h : r.kept K) :
    (handle_http_post_request sys config fs url request r port).1.kept K := by
  unfold handle_http_post_request
  cases hlimit : post_exceeds_limit config request with
  | error e => exact kept_status K _ _ h
  | ok big =>
    cases big with
    | true => exact kept_page_response K _ _ _ hK h.1
    | false =>
      dsimp only
      cases hroute : find_url_route_for_listening_port config.url_routes port url with
      | none => exact kept_page_response K _ _ _ hK h.1
      | some url_route =>
        dsimp only
        by_cases hallowed : (!url_route.is_http_method_allowed HttpMethod.POST) = true
        · rw [if_pos hallowed]
          exact kept_page_response K _ _ _ hK h.1
        · rw [if_neg hallowed]
          cases hname : post_file_name_and_body sys request with
          | error e => exact kept_status K _ _ h
          | ok p =>
            obtain ⟨filename0, body⟩ := p
            exact kept_post_store K sys fs r _ body hK h

theorem kept_delete (K : Str → Prop) (sys : SystemCalls) (config : ServerConfiguration)
    (fs : FileSystem) (url : Str) (r : HttpResponse) (port : Int)
    (hK : ∀ name ∈ response_header_names, K name) (h : r.kept K) :
    (handle_http_delete_request sys config fs url r port).1.kept K := by
  unfold handle_http_delete_request
  cases hroute : find_url_route_for_listening_port config.url_routes port url with
  | none => exact kept_status K _ _ h
  | some url_route =>
    dsimp only
    by_cases hallowed : (!url_route.is_http_method_allowed HttpMethod.DELETE) = true
    · rw [if_pos hallowed]
      exact kept_page_response K _ _ _ hK h.1
    · rw [if_neg hallowed]
      cases hdec : url_decode (last_path_segment url) with
      | error e => exact kept_page_response K _ _ _ hK h.1
      | ok filename =>
        dsimp only
        by_cases hempty : filename = []
        · rw [if_pos hempty]
          exact kept_page_response K _ _ _ hK h.1
        · rw [if_neg hempty]
          split
          · exact kept_page_response K _ _ _ hK h.1
          · split
            · exact kept_page_response K _ _ _ hK h.1
            · exact kept_page_response K _ _ _ hK h.1

theorem entries_of_kept (K : Str → Prop) (r : HttpResponse) (h : r.kept K)
    (hb : r.http_response_body ≠ []) :
    content_length_entries r =
      [("Content-Length".toList, to_string r.http_response_body.length)] :=
  StdMap.filter_of_get _ _ _ h.1.1 (h.2 hb)

theorem fields_of_kept (r : HttpResponse) (h : r.kept plain_name)
    (hb : r.http_response_body ≠ []) :
    content_length_fields r =
      [("Content-Length".toList, to_string r.http_response_body.length)] := by
  rw [← entries_of_kept plain_name r h hb]
  unfold content_length_fields content_length_entries
  apply List.filter_congr
  intro e he
  have hplain := h.1.2 e he
  unfold plain_name at hplain
  by_cases hl : to_lower e.1 = "content-length".toList
  · rw [decide_eq_true hl, decide_eq_true (hplain hl)]
  · have hne : e.1 ≠ "Content-Length".toList := by
      intro heq
      apply hl
      rw [heq]
      decide
    rw [decide_eq_false hl, decide_eq_false hne]

theorem response_header_names_plain : ∀ name ∈ response_header_names, plain_name name := by
  unfold plain_name
  decide

/-- C18 (amended): every response that the GET, POST and DELETE handlers and
the CGI handler produce from a freshly constructed response, and that has a
non-empty body, carries exactly one header field named `Content-Length`, whose
value is the decimal length of the body, also when the output of a CGI script
has a `Content-Length` line of its own. For POST and DELETE it is the only
field whose name equals `content-length` without regard to case; for GET and
CGI this holds when no header line of a script output has such a name in
another spelling. -/
theorem C18_content_length_field (env : Environment) (cgi : CgiSystem) (sys : SystemCalls)
    (config : ServerConfiguration) (fs : FileSystem) (url : Str) (request : HttpRequest)
    (date : Str) (port : Int) (script_path cgi_executable : Str) :
    (∀ r ∈ [handle_http_get_request (env.with_cgi cgi) config fs url request
              (HttpResponse.create date) port,
            (handle_http_post_request sys config fs url request
              (HttpResponse.create date) port).1,
            (handle_http_delete_request sys config fs url (HttpResponse.create date) port).1,
            CGIHandler.handle_request cgi script_path cgi_executable request
              (HttpResponse.create date)],
      r.http_response_body ≠ [] →
      content_length_entries r =
        [("Content-Length".toList, to_string r.http_response_body.length)]) ∧
    (∀ r ∈ [(handle_http_post_request sys config fs url request
              (HttpResponse.create date) port).1,
            (handle_http_delete_request sys config fs url (HttpResponse.create date) port).1],
      r.http_response_body ≠ [] →
      content_length_fields r =
        [("Content-Length".toList, to_string r.http_response_body.length)]) ∧
    (cgi.names_ok plain_name →
      ∀ r ∈ [handle_http_get_request (env.with_cgi cgi) config fs url request
              (HttpResponse.create date) port,
            CGIHandler.handle_request cgi script_path cgi_executable request
              (HttpResponse.create date)],
      r.http_response_body ≠ [] →
      content_length_fields r =
        [("Content-Length".toList, to_string r.http_response_body.length)]) := by
  have hany : ∀ name ∈ response_header_names, (fun _ : Str => True) name :=
    fun _ _ => trivial
  have hsys_any : cgi.names_ok (fun _ : Str => True) :=
    fun _ _ _ _ _ _ _ _ _ _ _ _ => trivial
  refine ⟨?_, ?_, ?_⟩
  · intro r hr hb
    simp only [List.mem_cons, List.mem_singleton, List.not_mem_nil, or_false] at hr
    have hfresh := kept_create (fun _ : Str => True) date hany
    rcases hr with hr | hr | hr | hr
    · subst hr
      exact entries_of_kept _ _ (kept_get _ _ config fs url request _ port hany
        (fun _ sp ex rq rs hrs => kept_cgi_handle_request _ cgi sp ex rq rs hany hsys_any hrs)
        hfresh) hb
    · subst hr
      exact entries_of_kept _ _ (kept_post _ sys config fs url request _ port hany hfresh) hb
    · subst hr
      exact entries_of_kept _ _ (kept_delete _ sys config fs url _ port hany hfresh) hb
    · subst hr
      exact entries_of_kept _ _ (kept_cgi_handle_request _ cgi script_path cgi_executable
        request _ hany hsys_any hfresh.1) hb
  · intro r hr hb
    simp only [List.mem_cons, List.mem_singleton, List.not_mem_nil, or_false] at hr
    have hfresh := kept_create plain_name date response_header_names_plain
    rcases hr with hr | hr
    · subst hr
      exact fields_of_kept _ (kept_post _ sys config fs url request _ port
        response_header_names_plain hfresh) hb
    · subst hr
      exact fields_of_kept _ (kept_delete _ sys config fs url _ port
        response_header_names_plain hfresh) hb
  · intro hsys r hr hb
    simp only [List.mem_cons, List.mem_singleton, List.not_mem_nil, or_false] at hr
    have hfresh := kept_create plain_name date response_header_names_plain
    rcases hr with hr | hr
    · subst hr
      exact fields_of_kept _ (kept_get _ _ config fs url request _ port
        response_header_names_plain
        (fun _ sp ex rq rs hrs => kept_cgi_handle_request _ cgi sp ex rq rs
          response_header_names_plain hsys hrs) hfresh) hb
    · subst hr
      exact fields_of_kept _ (kept_cgi_handle_request _ cgi script_path cgi_executable
        request _ response_header_names_plain hsys hfresh.1) hb

theorem sample_cgi_system_names_plain : (sample_cgi_system sample_cgi_output).names_ok
    plain_name := by
  intro script_path cgi_executable environment request_body cgi_output hexec header_end hf
    line hline kv hkv
  have ho : cgi_output = sample_cgi_output := by
    have : Except.ok sample_cgi_output = (Except.ok cgi_output : Except String Str) := hexec
    cases this
    rfl
  subst ho
  have he : header_end = 47 := by
    have h47 : find sample_cgi_output "\r\n\r\n".toList = some 47 := by decide
    rw [h47] at hf
    cases hf
    rfl
  subst he
  have hlines : getlines (sample_cgi_output.take 47) =
      ["Status: 404 Not Found\r".toList, "Content-Type: text/plain".toList] := by decide
  rw [hlines] at hline
  simp only [List.mem_cons, List.mem_singleton, List.not_mem_nil, or_false] at hline
  rcases hline with hl | hl
  · subst hl
    have : cgi_header_line "Status: 404 Not Found\r".toList =
        some ("Status".toList, "404 Not Found".toList) := by decide
    rw [this] at hkv
    cases hkv
    unfold plain_name
    decide
  · subst hl
    have : cgi_header_line "Content-Type: text/plain".toList =
        some ("Content-Type".toList, "text/plain".toList) := by decide
    rw [this] at hkv
    cases hkv
    unfold plain_name
    decide

theorem C18_content_length_field_witness :
    (CGIHandler.handle_request (sample_cgi_system sample_cgi_output) "s.py".toList
      "/usr/bin/python3".toList sample_cgi_request
      (HttpResponse.create [])).http_response_body ≠ [] ∧
    content_length_fields (CGIHandler.handle_request (sample_cgi_system sample_cgi_output)
      "s.py".toList "/usr/bin/python3".toList sample_cgi_request (HttpResponse.create [])) =
      [("Content-Length".toList, "2".toList)] ∧
    content_length_fields (handle_http_post_request sample_system_calls
      sample_upload_configuration sample_file_system "/u".toList sample_post_request_state
      (HttpResponse.create []) 8080).1 =
      [("Content-Length".toList, to_string HTTP_PAGE_413_PAYLOAD_TOO_LARGE.length)] := by
  have hb : (CGIHandler.handle_request (sample_cgi_system sample_cgi_output) "s.py".toList
      "/usr/bin/python3".toList sample_cgi_request
      (HttpResponse.create [])).http_response_body ≠ [] := by decide
  have h := C18_content_length_field sample_environment (sample_cgi_system sample_cgi_output)
    sample_system_calls sample_upload_configuration sample_file_system "/u".toList
    sample_post_request_state [] 8080 "s.py".toList "/usr/bin/python3".toList
  refine ⟨hb, ?_, ?_⟩
  · have h3 := h.2.2 sample_cgi_system_names_plain _
      (List.mem_cons_of_mem _ (List.mem_cons_self _ _))
    have hreq : CGIHandler.handle_request (sample_cgi_system sample_cgi_output) "s.py".toList
        "/usr/bin/python3".toList sample_post_request_state (HttpResponse.create []) =
      CGIHandler.handle_request (sample_cgi_system sample_cgi_output) "s.py".toList
        "/usr/bin/python3".toList sample_cgi_request (HttpResponse.create []) := by rfl
    rw [hreq] at h3
    exact (h3 hb).trans (by decide)
  · have h2 := h.2.1 _ (List.mem_cons_self _ _)
    exact h2 (by decide)

/-- C18, counterexample: for the script output `content-length: 5` CRLF CRLF
`hi` the response of the CGI handler has the non-empty body `hi` and two
header fields whose name is `content-length` without regard to case:
`Content-Length: 2` and `content-length: 5`. -/
theorem C18_counterexample_second_field :
    (CGIHandler.handle_request (sample_cgi_system sample_cgi_output_lower) "s.py".toList
      "/usr/bin/python3".toList sample_cgi_request
      (HttpResponse.create [])).http_response_body = "hi".toList ∧
    content_length_fields (CGIHandler.handle_request (sample_cgi_system sample_cgi_output_lower)
      "s.py".toList "/usr/bin/python3".toList sample_cgi_request (HttpResponse.create [])) =
      [("Content-Length".toList, "2".toList), ("content-length".toList, "5".toList)] := by
  refine ⟨by decide, by decide⟩

/-! ## Theorems: the decoder on malformed input -/

/-- C21: `unchunk_request_body` returns a decoded body on malformed input
instead of failing (allocation taken to succeed). On a body whose chunk-size
line is `zz` it returns the empty body; on a body that announces five bytes
and ends after two it returns the two bytes followed by three bytes of the
uninitialised buffer; on every input it returns. The CGI handler then answers
200, not 500: on the sample request state, and on the state that the parser
leaves for the POST `sample_chunked_post`, which is complete, has the header
`Transfer-Encoding: chunked` and carries the malformed body. -/
theorem C21_unchunk_returns_on_malformed_input (uninit : Nat → Char) (chunk_size0 : Nat) :
    unchunk_request_body uninit chunk_size0 sample_chunked_bad_size = some [] ∧
    unchunk_request_body uninit chunk_size0 sample_chunked_truncated =
      some ("ab".toList ++ [uninit 2, uninit 3, uninit 4]) ∧
    (∀ chunked_body, (unchunk_request_body uninit chunk_size0 chunked_body).isSome = true) ∧
    (CGIHandler.handle_request (sample_cgi_system "ok".toList) "s.py".toList
      "/usr/bin/python3".toList sample_chunked_request
      (HttpResponse.create [])).http_response_status_code = 200 ∧
    returned (HttpRequest.create.process_incoming_http_request sample_chunked_post) =
      some (sample_chunked_parsed, true) ∧
    sample_chunked_parsed.http_request_method = HttpMethod.POST ∧
    sample_chunked_parsed.get_http_request_header "Transfer-Encoding".toList =
      "chunked".toList ∧
    sample_chunked_parsed.http_request_body = sample_chunked_bad_size ∧
    (CGIHandler.handle_request (sample_cgi_system "ok".toList) "s.py".toList
      "/usr/bin/python3".toList sample_chunked_parsed
      (HttpResponse.create [])).http_response_status_code = 200 := by
  refine ⟨by rfl, by rfl, fun b => unchunk_request_body_returns uninit chunk_size0 b, by decide,
    by decide, by decide, by decide, by decide, by decide⟩

/-! ## Theorems: the header map -/

theorem find_char_of_mem (line : Str) (c : Char) (h : c ∈ line) :
    find_char line c = some (line.takeWhile (fun d => d != c)).length := by
  unfold find_char find
  rw [find_aux_single, if_pos h, Nat.zero_add]

theorem take_takeWhile_length (p : Char → Bool) (l : Str) :
    l.take (l.takeWhile p).length = l.takeWhile p := by
  induction l with
  | nil => rfl
  | cons a t ih =>
    by_cases ha : p a = true
    · simp only [List.takeWhile_cons, ha, if_true, List.length_cons, List.take_succ_cons, ih]
    · simp only [List.takeWhile_cons, ha, Bool.false_eq_true, if_false, List.length_nil,
        List.take_zero]

theorem drop_takeWhile_length (p : Char → Bool) (l : Str) :
    l.drop (l.takeWhile p).length = l.dropWhile p := by
  induction l with
  | nil => rfl
  | cons a t ih =>
    by_cases ha : p a = true
    · simp only [List.takeWhile_cons, List.dropWhile_cons, ha, if_true, List.length_cons,
        List.drop_succ_cons, ih]
    · simp only [List.takeWhile_cons, List.dropWhile_cons, ha, Bool.false_eq_true, if_false,
        List.length_nil, List.drop_zero]

theorem spec_last_value_cons (e : Str × Str) (entries : List (Str × Str)) (name : Str) :
    spec_last_value (e :: entries) name =
      match spec_last_value entries name with
      | some v => some v
      | none => if e.1 = name then some e.2 else none := by
  unfold spec_last_value
  rw [List.reverse_cons, List.find?_append]
  cases hf : entries.reverse.find? (fun e => decide (e.1 = name)) with
  | some x => rfl
  | none =>
    simp only [Option.none_or, Option.map_none', List.find?_cons, List.find?_nil]
    by_cases he : e.1 = name
    · simp [he]
    · simp [he]

/-- The loop over the header lines gives every name the value of its last
entry before the blank line, and leaves the other names as they were. -/
theorem parse_header_lines_get (lines : List Str) :
    ∀ (headers : StdMap) (name : Str),
      (parse_header_lines headers lines).get name =
        match spec_last_value (spec_header_entries lines) name with
        | some v => some v
        | none => headers.get name := by
  induction lines with
  | nil => intro headers name; rfl
  | cons line0 rest ih =>
    intro headers name
    unfold parse_header_lines
    have hline : (if line0.getLast? = some '\r' then line0.dropLast else line0) =
        spec_line line0 := rfl
    dsimp only
    rw [hline]
    by_cases hblank : spec_line line0 = []
    · rw [if_pos hblank]
      have : spec_header_entries (line0 :: rest) = [] := by
        unfold spec_header_entries
        rw [List.map_cons, List.takeWhile_cons_of_neg (by simp [hblank])]
        rfl
      rw [this]
      rfl
    · rw [if_neg hblank]
      have hent : spec_header_entries (line0 :: rest) =
          (match spec_header_entry (spec_line line0) with
            | some e => e :: spec_header_entries rest
            | none => spec_header_entries rest) := by
        unfold spec_header_entries
        rw [List.map_cons, List.takeWhile_cons_of_pos (by simp [hblank]), List.filterMap_cons]
        cases spec_header_entry (spec_line line0) <;> rfl
      by_cases hcolon : ':' ∈ spec_line line0
      · rw [find_char_of_mem _ _ hcolon]
        dsimp only
        have hentry : spec_header_entry (spec_line line0) =
            some (to_lower ((spec_line line0).take
                ((spec_line line0).takeWhile (fun d => d != ':')).length),
              trim_header_value ((spec_line line0).drop
                (((spec_line line0).takeWhile (fun d => d != ':')).length + 1))) := by
          unfold spec_header_entry trim_header_value
          rw [if_pos hcolon, take_takeWhile_length, ← List.drop_drop, drop_takeWhile_length]
          rfl
        rw [hent, hentry]
        dsimp only
        rw [ih, spec_last_value_cons]
        cases spec_last_value (spec_header_entries rest) name with
        | some v => rfl
        | none =>
          dsimp only
          rw [StdMap.get_set]
          split <;> rfl
      · have hnone : find_char (spec_line line0) ':' = none := find_char_none _ _ hcolon
        rw [hnone]
        dsimp only
        have hentry : spec_header_entry (spec_line line0) = none := by
          unfold spec_header_entry
          rw [if_neg hcolon]
        rw [hent, hentry]
        exact ih headers name

/-- C26: for every header block, `parse_http_request_headers` gives a name the
value of the last entry with that name among the lines up to the blank line,
where a line that contains `:` stands for the entry lowercase(text before the
first `:`) with the text after the first `:`, leading spaces removed and
trailing spaces, tabs, CR and LF removed; a line without `:` adds no entry and
does not stop the loop; a name without an entry keeps what the map held. -/
theorem C26_header_map (r : HttpRequest) (header_block : Str) (name : Str) :
    (r.parse_http_request_headers header_block).http_request_headers.get name =
      match spec_last_value (spec_header_entries (getlines header_block)) name with
      | some v => some v
      | none => r.http_request_headers.get name := by
  unfold HttpRequest.parse_http_request_headers
  exact parse_header_lines_get _ _ _

/-- The entries of the sample block: the line without `:` is skipped and does
not end the loop, `x-tag` keeps its last value, and the line after the blank
line is not read. -/
theorem sample_header_block_entries :
    spec_header_entries (getlines sample_header_block) =
      [("host".toList, "a".toList), ("x-tag".toList, "one".toList),
        ("x-tag".toList, "two".toList)] ∧
    (HttpRequest.create.parse_http_request_headers sample_header_block).http_request_headers =
      [("host".toList, "a".toList), ("x-tag".toList, "two".toList)] := by
  refine ⟨by decide, by decide⟩

/-! ## Theorems: multipart round trip -/

theorem prefix_drop_append_left (pat pre rest : Str) (k : Nat)
    (h : pat <+: (pre ++ rest).drop k) (hk : k + pat.length ≤ pre.length) :
    pat <+: pre.drop k := by
  rw [List.drop_append_of_le_length (by omega)] at h
  exact List.prefix_of_prefix_length_le h (List.prefix_append _ _)
    (by rw [List.length_drop]; omega)

theorem occurrence_blocked (pat P rest : Str) (c : Char) (j : Nat) (hj : j ≤ P.length)
    (hc : c ∉ pat) (h : pat <+: (P ++ c :: rest).drop j) : pat <+: P.drop j := by
  rw [List.drop_append_of_le_length hj] at h
  obtain ⟨t, ht⟩ := h
  rcases List.append_eq_append_iff.mp ht with ⟨a, ha, _⟩ | ⟨c2, hc2, hrest⟩
  · exact ⟨a, ha.symm⟩
  · cases c2 with
    | nil =>
      rw [List.append_nil] at hc2
      rw [hc2]
    | cons d ds =>
      rw [List.cons_append] at hrest
      have hd : c = d := (List.cons.inj hrest).1
      exact absurd (by rw [hc2, hd]; simp) hc

/-- The payload of a body of the shape: text that starts with the delimiter
and has no CRLF CRLF, then CRLF CRLF, a payload without the delimiter, CRLF,
the delimiter, and more text. -/
theorem remove_boundary_of_shape (boundary pre0 P tail : Str)
    (hstart : ("--".toList ++ boundary) <+: pre0)
    (hBcr : '\r' ∉ "--".toList ++ boundary)
    (hP : ∀ k, ¬ ("--".toList ++ boundary) <+: P.drop k)
    (hpre : ∀ k, "\r\n\r\n".toList <+: (pre0 ++ "\r\n\r\n".toList).drop k → k = pre0.length)
    (hlen : (pre0 ++ ("\r\n\r\n".toList ++
      (P ++ '\r' :: '\n' :: ("--".toList ++ boundary ++ tail)))).length < 2 ^ 64) :
    remove_http_request_boundary (pre0 ++ ("\r\n\r\n".toList ++
      (P ++ '\r' :: '\n' :: ("--".toList ++ boundary ++ tail)))) boundary = Except.ok P := by
  generalize hB : "--".toList ++ boundary = B at *
  generalize hbody : pre0 ++ ("\r\n\r\n".toList ++ (P ++ '\r' :: '\n' :: (B ++ tail))) =
    body at *
  have hB0 : B.head? = some '-' := by rw [← hB]; rfl
  have hbody2 : body = (pre0 ++ "\r\n\r\n".toList) ++ (P ++ '\r' :: '\n' :: (B ++ tail)) := by
    rw [← hbody, List.append_assoc]
  have hl4 : (pre0 ++ "\r\n\r\n".toList).length = pre0.length + 4 := by
    rw [List.length_append]; rfl
  have hbl : body.length = pre0.length + 4 + P.length + 2 + B.length + tail.length := by
    rw [hbody2, List.length_append, hl4, List.length_append, List.length_cons,
      List.length_cons, List.length_append]
    omega
  have h1 : first_at_or_after body B 0 0 := by
    refine ⟨Nat.le_refl _, Nat.zero_le _, ?_, ?_⟩
    · rw [List.drop_zero, ← hbody]
      exact hstart.trans (List.prefix_append _ _)
    · intro k _ hk
      exact absurd hk (Nat.not_lt_zero _)
  have h2 : first_at_or_after body "\r\n\r\n".toList 0 pre0.length := by
    refine ⟨Nat.zero_le _, by omega, ?_, ?_⟩
    · rw [← hbody, List.drop_left' rfl]
      exact List.prefix_append _ _
    · intro k _ hk hocc
      rw [hbody2] at hocc
      have hin := prefix_drop_append_left _ _ _ k hocc (by
        rw [hl4]
        have : "\r\n\r\n".toList.length = 4 := rfl
        omega)
      have := hpre k hin
      omega
  have h3 : first_at_or_after body B (pre0.length + 4) (pre0.length + 4 + P.length + 2) := by
    refine ⟨by omega, by omega, ?_, ?_⟩
    · have hsplit : body = ((pre0 ++ "\r\n\r\n".toList) ++ (P ++ ['\r', '\n'])) ++
          (B ++ tail) := by
        rw [hbody2]
        simp only [List.append_assoc, List.cons_append, List.nil_append]
      have hl : ((pre0 ++ "\r\n\r\n".toList) ++ (P ++ ['\r', '\n'])).length =
          pre0.length + 4 + P.length + 2 := by
        rw [List.length_append, hl4, List.length_append]
        rfl
      rw [hsplit, List.drop_left' hl]
      exact List.prefix_append _ _
    · intro k hk1 hk2 hocc
      have hk : k = (pre0 ++ "\r\n\r\n".toList).length + (k - (pre0.length + 4)) := by
        rw [hl4]; omega
      rw [hbody2, hk, ← List.drop_drop, List.drop_left' rfl] at hocc
      generalize hj : k - (pre0.length + 4) = j at hocc
      have hjlt : j < P.length + 2 := by omega
      by_cases hjP : j ≤ P.length
      · by_cases hjeq : j = P.length
        · rw [hjeq, List.drop_left' rfl] at hocc
          obtain ⟨t, ht⟩ := hocc
          have hne : B ≠ [] := by
            intro h0; rw [h0] at hB0; cases hB0
          have := congrArg List.head? ht
          rw [List.head?_append_of_ne_nil _ hne, hB0, List.head?_cons] at this
          exact absurd (Option.some.inj this) (by decide)
        · exact hP j (occurrence_blocked _ P _ '\r' j hjP hBcr hocc)
      · have hj1 : j = P.length + 1 := by omega
        have hsplit : P ++ '\r' :: '\n' :: (B ++ tail) =
            (P ++ ['\r']) ++ ('\n' :: (B ++ tail)) := by
          simp only [List.append_assoc, List.cons_append, List.nil_append]
        have hl : (P ++ ['\r']).length = j := by
          rw [List.length_append, hj1]; rfl
        rw [hsplit, List.drop_left' hl] at hocc
        obtain ⟨t, ht⟩ := hocc
        have hne : B ≠ [] := by
          intro h0; rw [h0] at hB0; cases hB0
        have := congrArg List.head? ht
        rw [List.head?_append_of_ne_nil _ hne, hB0, List.head?_cons] at this
        exact absurd (Option.some.inj this) (by decide)
  have hcr : (body.drop (pre0.length + 4 + P.length + 2 - 2)).take 2 = "\r\n".toList := by
    have he : pre0.length + 4 + P.length + 2 - 2 =
        (pre0 ++ "\r\n\r\n".toList).length + P.length := by
      rw [hl4]; omega
    rw [he, hbody2, ← List.drop_drop, List.drop_left' rfl, List.drop_left' rfl]
    rfl
  unfold remove_http_request_boundary
  dsimp only
  rw [hB, find_of_first _ _ 0 h1]
  dsimp only
  rw [find_from_of_first _ _ 0 _ h2]
  dsimp only
  rw [find_from_of_first _ _ _ _ h3]
  dsimp only
  rw [if_pos ⟨by omega, hcr⟩]
  have hcnt : (pre0.length + 4 + P.length + 2 - 2 + 2 ^ 64 - (pre0.length + 4)) % 2 ^ 64 =
      P.length := by
    have : pre0.length + 4 + P.length + 2 - 2 + 2 ^ 64 - (pre0.length + 4) =
        P.length + 2 ^ 64 := by omega
    rw [this, Nat.add_mod_right]
    exact Nat.mod_eq_of_lt (by omega)
  rw [hcnt, ← hl4, hbody2, List.drop_left' rfl, List.take_left' rfl]

/-- C28: multipart round trip. For a boundary `b` without CR or LF, non-empty
part headers `H` and a payload `P` that does not contain `--` + `b`, where
`--` + `b` + CRLF + `H` + CRLF CRLF contains CRLF CRLF only at its end,
`remove_http_request_boundary` applied to the one-part body built from them
returns exactly `P` (the body shorter than `2 ^ 64` bytes, the range of
`size_t`). -/
theorem C28_multipart_round_trip (b H P : Str)
    (hb : ∀ c ∈ b, c ≠ '\r' ∧ c ≠ '\n')
    (_hH : H ≠ [])
    (hP : ∀ k, ¬ ("--".toList ++ b) <+: P.drop k)
    (hpre : ∀ k, "\r\n\r\n".toList <+:
        ("--".toList ++ b ++ "\r\n".toList ++ H ++ "\r\n\r\n".toList).drop k →
      k = ("--".toList ++ b ++ "\r\n".toList ++ H).length)
    (_hHB : ∀ k, ¬ ("--".toList ++ b) <+: H.drop k)
    (hlen : (multipart_body b H P).length < 2 ^ 64) :
    remove_http_request_boundary (multipart_body b H P) b = Except.ok P := by
  have hbody : multipart_body b H P =
      ("--".toList ++ b ++ "\r\n".toList ++ H) ++ ("\r\n\r\n".toList ++
        (P ++ '\r' :: '\n' :: ("--".toList ++ b ++ ("--".toList ++ "\r\n".toList)))) := by
    unfold multipart_body
    simp only [List.append_assoc]
    rfl
  have hBcr : '\r' ∉ "--".toList ++ b := by
    intro hm
    rcases List.mem_append.mp hm with h1 | h1
    · exact absurd h1 (by decide)
    · exact (hb _ h1).1 rfl
  rw [hbody] at hlen ⊢
  refine remove_boundary_of_shape b _ P _ ?_ hBcr hP hpre hlen
  rw [List.append_assoc]
  exact List.prefix_append _ _

theorem C28_multipart_round_trip_witness :
    remove_http_request_boundary
        (multipart_body "X".toList "Content-Disposition: form-data".toList "a\r\n\x00b".toList)
        "X".toList = Except.ok "a\r\n\x00b".toList ∧
    remove_http_request_boundary
        (multipart_body "X".toList "Content-Disposition: form-data".toList []) "X".toList =
      Except.ok [] := by
  refine ⟨?_, ?_⟩
  · refine C28_multipart_round_trip "X".toList "Content-Disposition: form-data".toList
      "a\r\n\x00b".toList (by decide) (by decide) ?_ ?_ ?_ (by decide)
    · intro k
      by_cases hk : k < 6
      · interval_cases k <;> decide
      · rw [List.drop_eq_nil_of_le (by simp; omega)]
        decide
    · intro k hocc
      by_contra hne
      by_cases hk : k < 40
      · interval_cases k <;> first | exact hne rfl | exact absurd hocc (by decide)
      · rw [List.drop_eq_nil_of_le (by simp; omega)] at hocc
        exact absurd hocc (by decide)
    · intro k
      by_cases hk : k < 31
      · interval_cases k <;> decide
      · rw [List.drop_eq_nil_of_le (by simp; omega)]
        decide
  · refine C28_multipart_round_trip "X".toList "Content-Disposition: form-data".toList
      [] (by decide) (by decide) ?_ ?_ ?_ (by decide)
    · intro k
      rw [List.drop_nil]
      decide
    · intro k hocc
      by_contra hne
      by_cases hk : k < 40
      · interval_cases k <;> first | exact hne rfl | exact absurd hocc (by decide)
      · rw [List.drop_eq_nil_of_le (by simp; omega)] at hocc
        exact absurd hocc (by decide)
    · intro k
      by_cases hk : k < 31
      · interval_cases k <;> decide
      · rw [List.drop_eq_nil_of_le (by simp; omega)]
        decide

/-! ## Theorems: file names of uploads and deletions -/

theorem sample_upload_request_parsed :
    HttpRequest.create.process_incoming_http_request sample_upload_raw =
      Except.ok (sample_upload_request, true) := by
  rfl

/-- C29: the multipart upload whose `filename` parameter is `../evil.txt`
reaches the file-writing step; the name chosen contains `/`, the path opened
is `www/./upload/../evil.txt`, outside the upload directory `www/./upload`,
the payload is stored under that path and the answer is 201. -/
theorem C29_upload_file_name_escapes :
    upload_directory_of (start_url_route "./www".toList "/".toList 8080) =
      "www/./upload".toList ∧
    post_file_name_and_body sample_system_calls sample_upload_request =
      Except.ok ("../evil.txt".toList, "data".toList) ∧
    '/' ∈ "../evil.txt".toList ∧
    (handle_http_post_request sample_system_calls sample_upload_configuration_large
      sample_file_system "/up".toList sample_upload_request (HttpResponse.create [])
      8080).1.http_response_status_code = 201 ∧
    (handle_http_post_request sample_system_calls sample_upload_configuration_large
      sample_file_system "/up".toList sample_upload_request (HttpResponse.create [])
      8080).2 "www/./upload/../evil.txt".toList = some (FsNode.file "data".toList) := by
  refine ⟨by decide, by rfl, by decide, by decide, by decide⟩

/-- C30: for the URL `/..%2Fsecret.txt` the text after the last `/` is
`..%2Fsecret.txt`, which decodes to `../secret.txt`; the name contains `/`,
the path tested and removed is `www/./upload/../secret.txt`, outside the
upload directory `www/./upload`, and the answer is 204. -/
theorem C30_delete_file_name_escapes :
    last_path_segment "/..%2Fsecret.txt".toList = "..%2Fsecret.txt".toList ∧
    url_decode "..%2Fsecret.txt".toList = Except.ok "../secret.txt".toList ∧
    '/' ∈ "../secret.txt".toList ∧
    sample_file_system_upload "www/./upload/../secret.txt".toList =
      some (FsNode.file "s".toList) ∧
    (handle_http_delete_request sample_system_calls sample_upload_configuration
      sample_file_system_upload "/..%2Fsecret.txt".toList (HttpResponse.create [])
      8080).1.http_response_status_code = 204 ∧
    (handle_http_delete_request sample_system_calls sample_upload_configuration
      sample_file_system_upload "/..%2Fsecret.txt".toList (HttpResponse.create [])
      8080).2 "www/./upload/../secret.txt".toList = none := by
  refine ⟨by decide, by rfl, by decide, by decide, by decide, by decide⟩

/-! ## Theorems: the event loop -/

theorem erase_first_fd_none_left (l : List PollFd) (fd : Int) :
    (∀ i j p q, l.get? i = some p → l.get? j = some q → p.fd = fd → q.fd = fd → i = j) →
    ∀ q ∈ erase_first_fd l fd, q.fd ≠ fd := by
  induction l with
  | nil => intro _ q hq; cases hq
  | cons p rest ih =>
    intro huniq q hq
    simp only [erase_first_fd] at hq
    by_cases hp : p.fd = fd
    · rw [if_pos hp] at hq
      intro hqfd
      obtain ⟨j, hj⟩ := List.get?_of_mem hq
      have := huniq 0 (j + 1) p q rfl (by simpa using hj) hp hqfd
      omega
    · rw [if_neg hp] at hq
      rcases List.mem_cons.mp hq with h | h
      · rw [h]; exact hp
      · refine ih ?_ q h
        intro i j a b ha hb hafd hbfd
        have := huniq (i + 1) (j + 1) a b (by simpa using ha) (by simpa using hb) hafd hbfd
        omega

/-- C22 (amended): in the readable-event step, for a read of n > 0 bytes after
which the parser reports the request complete, when the body is not the text
`413 Payload Too Large` and, if there is a `Content-Length` header, the body
is at least as long as its value, the step sends the response of the handler
selected by the method (GET, POST, DELETE; 405 for UNKNOWN), closes the
descriptor once, erases the request, and erases the first poll entry of the
descriptor, which leaves no entry of the descriptor when it had one entry. -/
theorem C22_readable_step_dispatches (w : World) (config : ServerConfiguration) (s : Server)
    (index : Nat) (entry : PollFd) (data : Str) (http_request : HttpRequest)
    (hentry : s.poll_file_descriptors.get? index = some entry)
    (_hdata : data ≠ [])
    (hparse : ((s.client_http_requests entry.fd).getD
      HttpRequest.create).process_incoming_http_request data = Except.ok (http_request, true))
    (hbody : http_request.http_request_body ≠ "413 Payload Too Large".toList)
    (hlength : http_request.has_http_request_header "Content-Length".toList = true →
      ∃ n, stoull (http_request.get_http_request_header "Content-Length".toList) =
          Except.ok n ∧ n ≤ http_request.http_request_body.length) :
    ∃ t, s.handle_http_request_client w config index (some data) = Except.ok t ∧
      t.sent = s.sent ++
        [(entry.fd, (dispatch_response w config s.file_system entry.fd http_request).1)] ∧
      t.closed = s.closed ++ [entry.fd] ∧
      t.client_http_requests entry.fd = none ∧
      t.poll_file_descriptors = erase_first_fd s.poll_file_descriptors entry.fd ∧
      ((∀ i j p q, s.poll_file_descriptors.get? i = some p →
          s.poll_file_descriptors.get? j = some q → p.fd = entry.fd → q.fd = entry.fd →
          i = j) →
        ∀ q ∈ t.poll_file_descriptors, q.fd ≠ entry.fd) ∧
      (http_request.http_request_method = HttpMethod.GET →
        (dispatch_response w config s.file_system entry.fd http_request).1 =
          handle_http_get_request w.env config s.file_system http_request.http_request_url
            http_request (HttpResponse.create w.date) (w.port_of entry.fd)) ∧
      (http_request.http_request_method = HttpMethod.POST →
        (dispatch_response w config s.file_system entry.fd http_request).1 =
          (handle_http_post_request w.sys config s.file_system http_request.http_request_url
            http_request (HttpResponse.create w.date) (w.port_of entry.fd)).1) ∧
      (http_request.http_request_method = HttpMethod.DELETE →
        (dispatch_response w config s.file_system entry.fd http_request).1 =
          (handle_http_delete_request w.sys config s.file_system
            http_request.http_request_url (HttpResponse.create w.date)
            (w.port_of entry.fd)).1) ∧
      (http_request.http_request_method = HttpMethod.UNKNOWN →
        (dispatch_response w config s.file_system entry.fd
          http_request).1.http_response_status_code = 405) := by
  have hmethods :
      (http_request.http_request_method = HttpMethod.GET →
        (dispatch_response w config s.file_system entry.fd http_request).1 =
          handle_http_get_request w.env config s.file_system http_request.http_request_url
            http_request (HttpResponse.create w.date) (w.port_of entry.fd)) ∧
      (http_request.http_request_method = HttpMethod.POST →
        (dispatch_response w config s.file_system entry.fd http_request).1 =
          (handle_http_post_request w.sys config s.file_system http_request.http_request_url
            http_request (HttpResponse.create w.date) (w.port_of entry.fd)).1) ∧
      (http_request.http_request_method = HttpMethod.DELETE →
        (dispatch_response w config s.file_system entry.fd http_request).1 =
          (handle_http_delete_request w.sys config s.file_system
            http_request.http_request_url (HttpResponse.create w.date)
            (w.port_of entry.fd)).1) ∧
      (http_request.http_request_method = HttpMethod.UNKNOWN →
        (dispatch_response w config s.file_system entry.fd
          http_request).1.http_response_status_code = 405) := by
    refine ⟨?_, ?_, ?_, ?_⟩ <;> (intro hm; unfold dispatch_response; rw [hm]; try rfl)
  have herase : erase_request (erase_request (store_request s.client_http_requests entry.fd
      http_request) entry.fd) entry.fd entry.fd = none := by
    unfold erase_request
    rw [if_pos rfl]
  unfold Server.handle_http_request_client
  rw [hentry]
  dsimp only
  rw [hparse]
  dsimp only
  rw [if_neg (by decide), if_neg hbody]
  by_cases hcl : http_request.has_http_request_header "Content-Length".toList = true
  · obtain ⟨n, hn, hle⟩ := hlength hcl
    rw [if_pos hcl, hn]
    dsimp only
    rw [if_pos hle]
    refine ⟨_, rfl, rfl, rfl, herase, rfl, ?_, hmethods⟩
    intro huniq
    exact erase_first_fd_none_left _ _ huniq
  · rw [if_neg hcl]
    refine ⟨_, rfl, rfl, rfl, herase, rfl, ?_, hmethods⟩
    intro huniq
    exact erase_first_fd_none_left _ _ huniq

theorem C22_readable_step_dispatches_witness :
    ∃ t, sample_server.handle_http_request_client sample_world sample_configuration 1
        (some sample_get_one_header) = Except.ok t ∧
      t.closed = [4] ∧ t.client_http_requests 4 = none ∧
      t.poll_file_descriptors =
        [{ fd := 3, events := POLLIN, revents := 0 }, { fd := 5, events := POLLIN, revents := 0 }] ∧
      t.sent = [(4, handle_http_get_request sample_environment sample_configuration
        sample_file_system "/a".toList sample_get_one_header_state (HttpResponse.create [])
        8080)] := by
  obtain ⟨t, h0, h1, h2, h3, h4, _, h6, _⟩ :=
    C22_readable_step_dispatches sample_world sample_configuration sample_server 1
      { fd := 4, events := POLLIN, revents := 0 } sample_get_one_header
      sample_get_one_header_state rfl (by decide) (by rfl) (by decide)
      (fun h => absurd h (by decide))
  refine ⟨t, h0, h2, h3, h4, ?_⟩
  rw [h1, h6 rfl]
  rfl

/-- C22, counterexample: after the read of the header block of a GET with
`Content-Length: 2` the parser reports the request complete, and the step
sends nothing, closes nothing and keeps the request and the poll entry. -/
theorem C22_counterexample_get_waits :
    flags_after [sample_get_head] = some [true] ∧
    raised (sample_server.handle_http_request_client sample_world sample_configuration 1
      (some sample_get_head)) = false ∧
    (state_or sample_server (sample_server.handle_http_request_client sample_world
      sample_configuration 1 (some sample_get_head))).sent = [] ∧
    (state_or sample_server (sample_server.handle_http_request_client sample_world
      sample_configuration 1 (some sample_get_head))).closed = [] ∧
    ((state_or sample_server (sample_server.handle_http_request_client sample_world
      sample_configuration 1 (some sample_get_head))).client_http_requests 4).isSome = true ∧
    (state_or sample_server (sample_server.handle_http_request_client sample_world
      sample_configuration 1 (some sample_get_head))).poll_file_descriptors =
      sample_server.poll_file_descriptors := by
  refine ⟨by decide, by decide, by decide, by decide, by decide, by decide⟩

/-- A read after which the request is incomplete ends, when the step does not
raise, with the descriptor closed and the request erased. -/
theorem incomplete_read_closes (w : World) (config : ServerConfiguration) (s : Server)
    (index : Nat) (entry : PollFd) (data : Str) (http_request : HttpRequest)
    (hentry : s.poll_file_descriptors.get? index = some entry)
    (hparse : ((s.client_http_requests entry.fd).getD
      HttpRequest.create).process_incoming_http_request data =
        Except.ok (http_request, false)) :
    ∀ t, s.handle_http_request_client w config index (some data) = Except.ok t →
      t.closed = s.closed ++ [entry.fd] ∧ t.client_http_requests entry.fd = none ∧
      t.poll_file_descriptors.length + 1 = s.poll_file_descriptors.length := by
  intro t ht
  have hidx : index < s.poll_file_descriptors.length := by
    by_contra hge
    rw [List.get?_eq_none.mpr (by omega)] at hentry
    cases hentry
  have hlen : (s.poll_file_descriptors.eraseIdx index).length + 1 =
      s.poll_file_descriptors.length := by
    rw [List.length_eraseIdx, if_pos hidx]
    omega
  have hset : ∀ l : List PollFd, (set_events_pollin l index).length = l.length := by
    intro l
    unfold set_events_pollin
    split
    · rw [List.length_set]
    · rfl
  unfold Server.handle_http_request_client at ht
  rw [hentry] at ht
  dsimp only at ht
  rw [hparse] at ht
  dsimp only at ht
  rw [if_pos (by decide)] at ht
  split at ht
  · split at ht
    · cases ht
    · cases ht
      refine ⟨rfl, ?_, ?_⟩
      · unfold erase_request
        dsimp only
        rw [if_pos rfl]
      · dsimp only
        rw [hset]
        exact hlen
  · cases ht
    refine ⟨rfl, ?_, hlen⟩
    unfold erase_request
    dsimp only
    rw [if_pos rfl]

/-- C23: after a read of 16 bytes that holds the request line of a GET and no
header terminator, the parser reports the request incomplete without raising,
and the readable-event step closes the descriptor, erases its request and
erases its poll entry, so no later read can continue the request. -/
theorem C23_incomplete_read_drops_connection :
    sample_partial_read.length = 16 ∧
    flags_after [sample_partial_read] = some [false] ∧
    raised (sample_server.handle_http_request_client sample_world sample_configuration 1
      (some sample_partial_read)) = false ∧
    (state_or sample_server (sample_server.handle_http_request_client sample_world
      sample_configuration 1 (some sample_partial_read))).closed = [4] ∧
    (state_or sample_server (sample_server.handle_http_request_client sample_world
      sample_configuration 1 (some sample_partial_read))).client_http_requests 4 = none ∧
    (state_or sample_server (sample_server.handle_http_request_client sample_world
      sample_configuration 1 (some sample_partial_read))).poll_file_descriptors =
      [{ fd := 3, events := POLLIN, revents := 0 },
        { fd := 5, events := POLLIN, revents := 0 }] := by
  refine ⟨by decide, by decide, by decide, by decide, by decide, by decide⟩

/-- C24: for a POST whose body is the text `413 Payload Too Large` the
readable-event step calls `close` on descriptor 4 twice, once in
`send_http_response` and once after it; the second erasure at the index
removes the poll entry of descriptor 5, which is not closed and whose request
stays pending. -/
theorem C24_descriptor_closed_twice :
    flags_after [sample_post_sentinel] = some [true] ∧
    body_after [sample_post_sentinel] = some "413 Payload Too Large".toList ∧
    raised (sample_server.handle_http_request_client sample_world sample_configuration 1
      (some sample_post_sentinel)) = false ∧
    (state_or sample_server (sample_server.handle_http_request_client sample_world
      sample_configuration 1 (some sample_post_sentinel))).closed = [4, 4] ∧
    (state_or sample_server (sample_server.handle_http_request_client sample_world
      sample_configuration 1 (some sample_post_sentinel))).poll_file_descriptors =
      [{ fd := 3, events := POLLIN, revents := 0 }] ∧
    ((state_or sample_server (sample_server.handle_http_request_client sample_world
      sample_configuration 1 (some sample_post_sentinel))).client_http_requests 5).isSome =
      true := by
  refine ⟨by decide, by decide, by decide, by decide, by decide, by decide⟩

/-- C25: responses that the dispatch sends with a status of 400 or more and an
empty body: 403 for a GET on a port without a route, 403 for a DELETE on a
port without a route, 405 for a request with the method `PUT`, and 500 for a
POST whose upload file cannot be opened. -/
theorem C25_error_responses_without_body :
    (sent_in (sample_server.handle_http_request_client sample_world_other_port
      sample_configuration 1 (some sample_get_one_header))).map
        (fun e => (e.1, e.2.http_response_status_code, e.2.http_response_body)) =
      [(4, 403, [])] ∧
    (sent_in (sample_server.handle_http_request_client sample_world_other_port
      sample_upload_configuration 1 (some sample_delete_plain))).map
        (fun e => (e.1, e.2.http_response_status_code, e.2.http_response_body)) =
      [(4, 403, [])] ∧
    (sent_in (sample_server.handle_http_request_client sample_world sample_configuration 1
      (some sample_put_request))).map
        (fun e => (e.1, e.2.http_response_status_code, e.2.http_response_body)) =
      [(4, 405, [])] ∧
    (sent_in (sample_server.handle_http_request_client sample_world_no_open
      sample_upload_configuration_large 1 (some sample_upload_raw))).map
        (fun e => (e.1, e.2.http_response_status_code, e.2.http_response_body)) =
      [(4, 500, [])] := by
  refine ⟨by decide, by decide, by decide, by decide⟩

/-! ## Theorems: the size directives -/

/-- No line changes `request_read_size`: `parse_line` has no entry for a
directive of the read size and no parser calls `set_request_read_size`. -/
theorem parse_line_keeps_read_size {Rest : Type}
    (other : Str → Str → Rest → Except String Rest) (tmp0 : Nat) (line : Str)
    (limits : ConfigurationLimits) (rest : Rest) (result : ConfigurationLimits × Rest)
    (h : parse_line other tmp0 line limits rest = Except.ok result) :
    result.1.request_read_size = limits.request_read_size := by
  unfold parse_line at h
  split at h
  · cases h; rfl
  · split at h
    · cases h; rfl
    · split at h
      · split at h
        · cases h
        · cases h; rfl
      · split at h
        · split at h
          · cases h
          · cases h; rfl
        · split at h
          · split at h
            · cases h
            · cases h; rfl
          · cases h; rfl

/-- C27: the read size cannot be set from the configuration. For every line,
`parse_line` leaves `request_read_size` as it was; on the line
`request_read_buffer_size 8192;` it changes nothing at all, and
`parse_request_read_size`, which no line reaches, would pass its value to the
setter of the body size. The line `client_max_body_size 2M;` sets
`max_request_body_size` to 2097152 and nothing else. The line
`max_post_request_size 5M;` raises, because its parser looks for the keyword
`client_max_post_request_size`; a line that holds both texts sets
`max_post_request_size`. -/
theorem C27_read_size_cannot_be_configured :
    (∀ (Rest : Type) (other : Str → Str → Rest → Except String Rest) (tmp0 : Nat)
        (line : Str) (limits : ConfigurationLimits) (rest : Rest)
        (result : ConfigurationLimits × Rest),
      parse_line other tmp0 line limits rest = Except.ok result →
      result.1.request_read_size = limits.request_read_size) ∧
    limits_after (parse_line (fun _ _ (rest : Unit) => Except.ok rest) 0
        "request_read_buffer_size 8192;".toList ConfigurationLimits.create ()) =
      some ConfigurationLimits.create ∧
    returned (parse_request_read_size "request_read_buffer_size 8192;".toList 0) =
      some (some 8192) ∧
    limits_after (parse_line (fun _ _ (rest : Unit) => Except.ok rest) 0
        "client_max_body_size 2M;".toList ConfigurationLimits.create ()) =
      some { ConfigurationLimits.create with max_request_body_size := 2097152 } ∧
    limits_after (parse_line (fun _ _ (rest : Unit) => Except.ok rest) 0
        "max_post_request_size 5M;".toList ConfigurationLimits.create ()) = none ∧
    limits_after (parse_line (fun _ _ (rest : Unit) => Except.ok rest) 0
        "max_post_request_size client_max_post_request_size 5M;".toList
        ConfigurationLimits.create ()) =
      some { ConfigurationLimits.create with max_post_request_size := 5242880 } := by
  refine ⟨?_, by decide, by decide, by decide, by decide, by decide⟩
  intro Rest other tmp0 line limits rest result h
  exact parse_line_keeps_read_size other tmp0 line limits rest result h

end Webserv
